import Mathlib

/-!
messaging-app-go: realtime fan-out registry and idempotent send gate

A shallow embedding of `internal/services/realtime.go`,
`internal/services/messages.go`, `pkg/redisconn/idempotency.go`, the methods `Send`,
`Get`, `MarkAsRead` and `MarkAsDelivered` of `internal/repositories/messages/messages.go`,
the handlers `SendMessage` and `SubscribeToChat` of `internal/grpc/messages.go`,
`CreateChat` of `internal/services/chats.go` and of `internal/grpc/chats.go` with the
repository methods it calls (`GetByEmail`, `Create`, `AddUserToChat`), and the
interceptors, `extractAndValidateToken`, `shouldSkipAuth` and `GetUserFromContext` of
`pkg/jwt/middleware.go`.

Conventions of the embedding

* A Go `map[string]V` is an association list `GoMap V`; `mapGet`, `mapSet` and
  `mapDelete` are the index expression, the index assignment and `delete`.
* A Go channel value is a reference.  The service state carries the heap of all
  channels ever made (`chans`); a channel value is its index in that heap.
* A Go runtime panic (closing a closed channel, sending on a closed channel) is
  the result `none` of an operation.
* `go f()` does not run `f`: it records a goroutine in the state.  A goroutine
  runs in a step of its own (`runSpawned`).
* Every method body runs under the mutex of the service, so a method is one step.
* `range` over a map visits the entries in the order of the association list; Go
  leaves the order open, and no statement below depends on it.
* `slog` calls have no effect on the state and are left out.
-/

namespace MessagingApp

/-! ## Go maps -/

/-- A Go `map[string]β`, as an association list. -/
abbrev GoMap (β : Type) := List (String × β)

/-- The index expression `m[key]` in its two-valued form `v, ok := m[key]`. -/
def mapGet {β : Type} : GoMap β → String → Option β
  | [], _ => none
  | (k, v) :: m, key => if k = key then some v else mapGet m key

/-- The assignment `m[key] = v`. -/
def mapSet {β : Type} : GoMap β → String → β → GoMap β
  | [], key, v => [(key, v)]
  | (k, w) :: m, key, v => if k = key then (k, v) :: m else (k, w) :: mapSet m key v

/-- The builtin `delete(m, key)`. -/
def mapDelete {β : Type} (m : GoMap β) (key : String) : GoMap β :=
  m.filter (fun p => !decide (p.1 = key))

/-! ## Messages and channels -/

/-- The constants `MessageTypeUnspecified` .. `MessageTypeOffline`. -/
inductive MessageType where
  | MessageTypeUnspecified
  | MessageTypeNew
  | MessageTypeRead
  | MessageTypeTyping
  | MessageTypeOnline
  | MessageTypeOffline
  deriving DecidableEq, Repr

/-- The struct `ChatMessage`; `SentAt` is an instant, `Typ` is the field `Type`. -/
structure ChatMessage where
  MessageID : String
  ChatID : String
  SenderID : String
  SenderUsername : String
  Content : String
  SentAt : Nat
  Status : String
  Typ : MessageType
  deriving DecidableEq, Repr

/-- A buffered channel `chan *ChatMessage`: pending elements, capacity, closed flag. -/
structure Chan where
  buf : List ChatMessage
  cap : Nat
  closed : Bool
  deriving DecidableEq, Repr

/-- The call `make(chan *ChatMessage, 100)`. -/
def makeChan : Chan := ⟨[], 100, false⟩

/-- The builtin `close(c)` on the channel at index `c`; closing a nil or an already
closed channel panics. -/
def closeChan (chans : List Chan) (c : Nat) : Option (List Chan) :=
  match chans[c]? with
  | none => none
  | some ch => if ch.closed then none else some (chans.set c ⟨ch.buf, ch.cap, true⟩)

/-- The statement `select { case c <- m: ...; default: ... }`.  The flag tells whether
the send case ran.  Sending on a closed channel panics; a full (or nil) channel is
not ready, so the default case runs. -/
def trySend (chans : List Chan) (c : Nat) (m : ChatMessage) : Option (List Chan × Bool) :=
  match chans[c]? with
  | none => some (chans, false)
  | some ch =>
    if ch.closed then none
    else if ch.buf.length < ch.cap then some (chans.set c ⟨ch.buf ++ [m], ch.cap, ch.closed⟩, true)
    else some (chans, false)

/-! ## The realtime service -/

/-- The struct `realtimeService`.  `chans` is the channel heap,
`waiting` the goroutines of `SubscribeToChat` blocked on `<-ctx.Done()` (context,
chat, user) and `spawned` the goroutines about to call `UnsubscribeFromChat`. -/
structure realtimeService where
  chans : List Chan
  chatSubscriptions : GoMap (GoMap Nat)
  waiting : List (Nat × String × String)
  spawned : List (String × String)
  deriving DecidableEq, Repr

/-- The constructor `NewRealtimeService`. -/
def NewRealtimeService : realtimeService := ⟨[], [], [], []⟩

/-- The channel registered for `(chatID, userID)`: `s.chatSubscriptions[chatID][userID]`. -/
def subscription (s : realtimeService) (chatID userID : String) : Option Nat :=
  match mapGet s.chatSubscriptions chatID with
  | none => none
  | some chatSubs => mapGet chatSubs userID

/-- The registry's view of "is this pair currently subscribed". -/
def isSubscribed (s : realtimeService) (chatID userID : String) : Bool :=
  (subscription s chatID userID).isSome

/-- The method `SubscribeToChat`: the new state and the returned channel. -/
def SubscribeToChat (s : realtimeService) (ctx : Nat) (chatID userID : String) :
    realtimeService × Nat :=
  let msgChan := s.chans.length
  let chans := s.chans ++ [makeChan]
  let chatSubs : GoMap Nat :=
    match mapGet s.chatSubscriptions chatID with
    | none => []
    | some m => m
  (⟨chans, mapSet s.chatSubscriptions chatID (mapSet chatSubs userID msgChan),
    s.waiting ++ [(ctx, chatID, userID)], s.spawned⟩, msgChan)

/-- The method `UnsubscribeFromChat`. -/
def UnsubscribeFromChat (s : realtimeService) (chatID userID : String) :
    Option realtimeService :=
  match mapGet s.chatSubscriptions chatID with
  | none => some s
  | some chatSubs =>
    match mapGet chatSubs userID with
    | none => some s
    | some msgChan =>
      match closeChan s.chans msgChan with
      | none => none
      | some chans =>
        let chatSubs1 := mapDelete chatSubs userID
        if chatSubs1.length = 0 then
          some ⟨chans, mapDelete s.chatSubscriptions chatID, s.waiting, s.spawned⟩
        else
          some ⟨chans, mapSet s.chatSubscriptions chatID chatSubs1, s.waiting, s.spawned⟩

/-- The loop `for userID, msgChan := range chatSubs` of `BroadcastMessage`. -/
def broadcastLoop (chatID : String) (message : ChatMessage) :
    GoMap Nat → List Chan → List (String × String) → Option (List Chan × List (String × String))
  | [], chans, sp => some (chans, sp)
  | (userID, msgChan) :: rest, chans, sp =>
    match trySend chans msgChan message with
    | none => none
    | some (chans1, true) => broadcastLoop chatID message rest chans1 sp
    | some (chans1, false) => broadcastLoop chatID message rest chans1 (sp ++ [(chatID, userID)])

/-- The method `BroadcastMessage`. -/
def BroadcastMessage (s : realtimeService) (chatID : String) (message : ChatMessage) :
    Option realtimeService :=
  match mapGet s.chatSubscriptions chatID with
  | none => some s
  | some chatSubs =>
    match broadcastLoop chatID message chatSubs s.chans s.spawned with
    | none => none
    | some (chans, sp) => some ⟨chans, s.chatSubscriptions, s.waiting, sp⟩

/-- The method `GetSubscriberCount`. -/
def GetSubscriberCount (s : realtimeService) (chatID : String) : Nat :=
  match mapGet s.chatSubscriptions chatID with
  | none => 0
  | some chatSubs => chatSubs.length

/-- The method `GetTotalSubscriptions`. -/
def GetTotalSubscriptions (s : realtimeService) : Nat :=
  s.chatSubscriptions.foldl (fun total p => total + p.2.length) 0

/-- A spawned goroutine `go s.UnsubscribeFromChat(chatID, userID)` runs. -/
def runSpawned (s : realtimeService) (i : Nat) : Option realtimeService :=
  match s.spawned[i]? with
  | none => some s
  | some (chatID, userID) =>
    UnsubscribeFromChat ⟨s.chans, s.chatSubscriptions, s.waiting, s.spawned.eraseIdx i⟩
      chatID userID

/-- The context `ctx` is done: every goroutine blocked on `<-ctx.Done()` proceeds to
its call of `UnsubscribeFromChat`. -/
def ctxDone (s : realtimeService) (ctx : Nat) : realtimeService :=
  ⟨s.chans, s.chatSubscriptions, s.waiting.filter (fun w => !decide (w.1 = ctx)),
    s.spawned ++ (s.waiting.filter (fun w => decide (w.1 = ctx))).map (fun w => w.2)⟩

/-- A consumer receives from the channel at index `c` (`msg, ok := <-msgChan`), when
an element is buffered. -/
def recvChan (s : realtimeService) (c : Nat) : realtimeService :=
  match s.chans[c]? with
  | none => s
  | some ch => ⟨s.chans.set c ⟨ch.buf.tail, ch.cap, ch.closed⟩, s.chatSubscriptions,
      s.waiting, s.spawned⟩

/-- The operations that act on the registry. -/
inductive Op where
  | subscribe (ctx : Nat) (chatID userID : String)
  | unsubscribe (chatID userID : String)
  | broadcast (chatID : String) (message : ChatMessage)
  | spawned (i : Nat)
  | done (ctx : Nat)
  | recv (c : Nat)
  deriving DecidableEq, Repr

/-- One operation on the service; `none` when it panics. -/
def step (s : realtimeService) : Op → Option realtimeService
  | .subscribe ctx chatID userID => some (SubscribeToChat s ctx chatID userID).1
  | .unsubscribe chatID userID => UnsubscribeFromChat s chatID userID
  | .broadcast chatID message => BroadcastMessage s chatID message
  | .spawned i => runSpawned s i
  | .done ctx => some (ctxDone s ctx)
  | .recv c => some (recvChan s c)

/-- A sequence of operations, from left to right. -/
def run : realtimeService → List Op → Option realtimeService
  | s, [] => some s
  | s, op :: ops =>
    match step s op with
    | none => none
    | some s1 => run s1 ops

/-- The states the service reaches from `NewRealtimeService`. -/
inductive Reachable : realtimeService → Prop where
  | init : Reachable NewRealtimeService
  | step {s s1 : realtimeService} (op : Op) : Reachable s → step s op = some s1 → Reachable s1

/-- Successive broadcasts `e1 .. ek` to one chat. -/
def broadcastAll (chatID : String) : realtimeService → List ChatMessage → Option realtimeService
  | s, [] => some s
  | s, e :: es =>
    match BroadcastMessage s chatID e with
    | none => none
    | some s1 => broadcastAll chatID s1 es

/-! ## SHA-256 and hexadecimal encoding

The library functions `sha256.Sum256` and `hex.EncodeToString` used by `SendMessage`.
Bytes and 32-bit words are natural numbers. -/

/-- Addition of 32-bit words. -/
def add32 (a b : Nat) : Nat := (a + b) % 4294967296

/-- Rotation to the right of a 32-bit word. -/
def rotr32 (x n : Nat) : Nat := ((x >>> n) ||| (x <<< (32 - n))) % 4294967296

/-- The 64 round constants of SHA-256. -/
def sha256K : List Nat :=
  [0x428a2f98, 0x71374491, 0xb5c0fbcf, 0xe9b5dba5, 0x3956c25b, 0x59f111f1, 0x923f82a4, 0xab1c5ed5,
   0xd807aa98, 0x12835b01, 0x243185be, 0x550c7dc3, 0x72be5d74, 0x80deb1fe, 0x9bdc06a7, 0xc19bf174,
   0xe49b69c1, 0xefbe4786, 0x0fc19dc6, 0x240ca1cc, 0x2de92c6f, 0x4a7484aa, 0x5cb0a9dc, 0x76f988da,
   0x983e5152, 0xa831c66d, 0xb00327c8, 0xbf597fc7, 0xc6e00bf3, 0xd5a79147, 0x06ca6351, 0x14292967,
   0x27b70a85, 0x2e1b2138, 0x4d2c6dfc, 0x53380d13, 0x650a7354, 0x766a0abb, 0x81c2c92e, 0x92722c85,
   0xa2bfe8a1, 0xa81a664b, 0xc24b8b70, 0xc76c51a3, 0xd192e819, 0xd6990624, 0xf40e3585, 0x106aa070,
   0x19a4c116, 0x1e376c08, 0x2748774c, 0x34b0bcb5, 0x391c0cb3, 0x4ed8aa4a, 0x5b9cca4f, 0x682e6ff3,
   0x748f82ee, 0x78a5636f, 0x84c87814, 0x8cc70208, 0x90befffa, 0xa4506ceb, 0xbef9a3f7, 0xc67178f2]

/-- The hash value of SHA-256: eight 32-bit words. -/
structure Sha256State where
  a : Nat
  b : Nat
  c : Nat
  d : Nat
  e : Nat
  f : Nat
  g : Nat
  h : Nat
  deriving DecidableEq, Repr

/-- The initial hash value of SHA-256. -/
def sha256Init : Sha256State :=
  ⟨0x6a09e667, 0xbb67ae85, 0x3c6ef372, 0xa54ff53a, 0x510e527f, 0x9b05688c, 0x1f83d9ab, 0x5be0cd19⟩

/-- Padding: a bit 1, zeros up to 56 modulo 64 bytes, the bit length on 8 bytes. -/
def sha256Pad (msg : List Nat) : List Nat :=
  let bits := 8 * msg.length
  msg ++ [0x80] ++ List.replicate ((119 - msg.length % 64) % 64) 0 ++
    (List.range 8).map (fun i => (bits >>> (8 * (7 - i))) % 256)

/-- The big-endian 32-bit words of a block of bytes. -/
def beWords : Nat → List Nat → List Nat
  | 0, _ => []
  | n + 1, bs =>
    (bs.getD 0 0 * 16777216 + bs.getD 1 0 * 65536 + bs.getD 2 0 * 256 + bs.getD 3 0)
      :: beWords n (bs.drop 4)

/-- The message schedule: `n` more words after the words `w`. -/
def sha256Schedule : Nat → List Nat → List Nat
  | 0, w => w
  | n + 1, w =>
    let i := w.length
    let w15 := w.getD (i - 15) 0
    let w2 := w.getD (i - 2) 0
    let s0 := rotr32 w15 7 ^^^ rotr32 w15 18 ^^^ (w15 >>> 3)
    let s1 := rotr32 w2 17 ^^^ rotr32 w2 19 ^^^ (w2 >>> 10)
    sha256Schedule n (w ++ [add32 (add32 (add32 (w.getD (i - 16) 0) s0) (w.getD (i - 7) 0)) s1])

/-- One round of the compression function. -/
def sha256Round (st : Sha256State) (kw : Nat × Nat) : Sha256State :=
  let s1 := rotr32 st.e 6 ^^^ rotr32 st.e 11 ^^^ rotr32 st.e 25
  let ch := (st.e &&& st.f) ^^^ ((4294967295 - st.e) &&& st.g)
  let t1 := add32 (add32 (add32 (add32 st.h s1) ch) kw.1) kw.2
  let s0 := rotr32 st.a 2 ^^^ rotr32 st.a 13 ^^^ rotr32 st.a 22
  let maj := (st.a &&& st.b) ^^^ (st.a &&& st.c) ^^^ (st.b &&& st.c)
  let t2 := add32 s0 maj
  ⟨add32 t1 t2, st.a, st.b, st.c, add32 st.d t1, st.e, st.f, st.g⟩

/-- The compression of one 64-byte block into the hash value. -/
def sha256Block (st : Sha256State) (block : List Nat) : Sha256State :=
  let w := sha256Schedule 48 (beWords 16 block)
  let r := (sha256K.zip w).foldl sha256Round st
  ⟨add32 st.a r.a, add32 st.b r.b, add32 st.c r.c, add32 st.d r.d,
   add32 st.e r.e, add32 st.f r.f, add32 st.g r.g, add32 st.h r.h⟩

/-- The blocks of a padded message, one after the other. -/
def sha256Blocks : Nat → Sha256State → List Nat → Sha256State
  | 0, st, _ => st
  | n + 1, st, bs => sha256Blocks n (sha256Block st (bs.take 64)) (bs.drop 64)

/-- The four bytes of a 32-bit word, big-endian. -/
def beBytes (w : Nat) : List Nat :=
  [(w >>> 24) % 256, (w >>> 16) % 256, (w >>> 8) % 256, w % 256]

/-- The function `sha256.Sum256`: the 32 bytes of the digest. -/
def Sum256 (msg : List Nat) : List Nat :=
  let p := sha256Pad msg
  let r := sha256Blocks (p.length / 64) sha256Init p
  beBytes r.a ++ beBytes r.b ++ beBytes r.c ++ beBytes r.d ++
    beBytes r.e ++ beBytes r.f ++ beBytes r.g ++ beBytes r.h

/-- The hexadecimal digit of a value below 16, in lower case. -/
def hexDigit (n : Nat) : Char := "0123456789abcdef".data.getD n '0'

/-- The function `hex.EncodeToString`. -/
def EncodeToString (bs : List Nat) : String :=
  String.mk (bs.flatMap (fun b => [hexDigit (b / 16), hexDigit (b % 16)]))

/-- The conversion `[]byte(s)`: the UTF-8 bytes of a string. -/
def bytesOf (s : String) : List Nat := (s.data.flatMap String.utf8EncodeChar).map UInt8.toNat

/-! ## Models -/

/-- The struct `models.User`. -/
structure User where
  ID : String
  Username : String
  Email : String
  PasswordHash : String
  CreatedAt : Nat
  UpdatedAt : Nat
  deriving DecidableEq, Repr

/-- The constant `MessageStatusSent`. -/
def MessageStatusSent : String := "SENT"

/-- The constant `MessageStatusRead`. -/
def MessageStatusRead : String := "READ"

/-- The constant `MessageStatusDelivered`. -/
def MessageStatusDelivered : String := "DELIVERED"

/-- The struct `models.Message`; `User` is a pointer, `none` when nil. -/
structure Message where
  ID : String
  IdempotencyKey : String
  UserID : String
  ChatID : String
  Body : String
  Status : String
  CreatedAt : Nat
  UpdatedAt : Nat
  User : Option User
  deriving DecidableEq, Repr

/-- The zero value `models.Message{}`. -/
def Message.zero : Message := ⟨"", "", "", "", "", "", 0, 0, none⟩

/-- The struct `models.SendMessageRequest`. -/
structure SendMessageRequest where
  UserID : String
  ChatID : String
  Content : String
  IdempotencyKey : String
  deriving DecidableEq, Repr

/-- The struct `models.SendMessageResponse`. -/
structure SendMessageResponse where
  MessageID : String
  deriving DecidableEq, Repr

/-! ## The cache collaborator

The Redis server behind `*redis.Client`: a clock, the keys with their instant of
expiry (`none`: the key does not expire), and whether the commands `EXISTS` and `SET`
currently fail.  Instants and durations are in nanoseconds. -/

/-- The Redis server. -/
structure Redis where
  now : Nat
  keys : GoMap (Option Nat)
  existsErr : Option String
  setErr : Option String
  deriving DecidableEq, Repr

/-- The call `client.Exists(ctx, key).Result()`: the number of live keys among the
arguments, or the error. -/
def Redis.Exists (r : Redis) (key : String) : Int × Option String :=
  match r.existsErr with
  | some err => (0, some err)
  | none =>
    match mapGet r.keys key with
    | none => (0, none)
    | some none => (1, none)
    | some (some expiry) => if r.now < expiry then (1, none) else (0, none)

/-- The call `client.Set(ctx, key, "1", ttl).Err()`; a duration that is not positive
sets the key without expiry. -/
def Redis.Set (r : Redis) (key : String) (ttl : Int) : Redis × Option String :=
  match r.setErr with
  | some err => (r, some err)
  | none =>
    (⟨r.now, mapSet r.keys key (if 0 < ttl then some (r.now + ttl.toNat) else none),
      r.existsErr, r.setErr⟩, none)

/-- Time passes on the Redis server. -/
def Redis.advance (r : Redis) (dt : Nat) : Redis :=
  ⟨r.now + dt, r.keys, r.existsErr, r.setErr⟩

/-- The struct `IdempotencyService`; the client is the Redis server passed to the
methods, `ttl` is a `time.Duration`. -/
structure IdempotencyService where
  ttl : Int
  deriving DecidableEq, Repr

/-- The constant `time.Minute`. -/
def Minute : Int := 60000000000

/-- A 64-bit signed integer after overflow. -/
def wrapInt64 (x : Int) : Int := (x + 9223372036854775808) % 18446744073709551616 - 9223372036854775808

/-- The constructor `NewIdempotencyService`. -/
def NewIdempotencyService (ttlMinutes : Int) : IdempotencyService :=
  let ttlMinutes := if ttlMinutes ≤ 0 then 10 else ttlMinutes
  ⟨wrapInt64 (ttlMinutes * Minute)⟩

/-- The method `GetTTL`. -/
def IdempotencyService.GetTTL (s : IdempotencyService) : Int := s.ttl

/-- The method `CheckAndSetIdempotency`: the Redis server afterwards, the flag and the
error. -/
def CheckAndSetIdempotency (s : IdempotencyService) (r : Redis) (key : String) :
    Redis × Bool × Option String :=
  let redisKey := "idempotency:" ++ key
  match r.Exists redisKey with
  | (_, some err) => (r, false, some ("failed to check idempotency: " ++ err))
  | (count, none) =>
    if count > 0 then (r, true, none)
    else
      match r.Set redisKey s.ttl with
      | (r1, some err) => (r1, false, some ("failed to set idempotency key: " ++ err))
      | (r1, none) => (r1, false, none)

/-! ## The storage collaborator

The repository `messagesRepository` over its database: the rows of the table
`messages`, the user names of the table `users` by user id, the identifiers that
`ulid.MustNew` produces, the database clock, and whether statements and queries
currently fail. -/

/-- The struct `messagesRepository` with the database behind it. -/
structure messagesRepository where
  rows : List Message
  users : GoMap String
  ulid : Nat → String
  issued : Nat
  now : Nat
  execErr : Option String
  queryErr : Option String

/-- The method `Send` of the repository: the identifier is returned also when the
statement fails. -/
def messagesRepository.Send (r : messagesRepository) (req : Message) :
    messagesRepository × String × Option String :=
  let id := r.ulid r.issued
  match r.execErr with
  | some err => (⟨r.rows, r.users, r.ulid, r.issued + 1, r.now, r.execErr, r.queryErr⟩, id, some err)
  | none =>
    (⟨r.rows ++ [⟨id, req.IdempotencyKey, req.UserID, req.ChatID, req.Body, req.Status,
        r.now, r.now, none⟩], r.users, r.ulid, r.issued + 1, r.now, r.execErr, r.queryErr⟩,
      id, none)

/-- The method `Get` of the repository: the row joined with its user, the zero message
without error when no row matches. -/
def messagesRepository.Get (r : messagesRepository) (messageID : String) :
    Message × Option String :=
  match r.queryErr with
  | some err => (Message.zero, some err)
  | none =>
    match r.rows.find? (fun m => decide (m.ID = messageID)) with
    | none => (Message.zero, none)
    | some m =>
      match mapGet r.users m.UserID with
      | none => (Message.zero, none)
      | some username =>
        (⟨m.ID, m.IdempotencyKey, m.UserID, m.ChatID, m.Body, m.Status, m.CreatedAt,
          m.UpdatedAt, some ⟨"", username, "", "", 0, 0⟩⟩, none)

/-! ## The messages service -/

/-- The method `ConvertToChatMessage`. -/
def ConvertToChatMessage (msg : Message) : ChatMessage :=
  let username :=
    match msg.User with
    | some user => user.Username
    | none => ""
  ⟨msg.ID, msg.ChatID, msg.UserID, username, msg.Body, msg.CreatedAt, msg.Status,
    .MessageTypeNew⟩

/-- The struct `messagesService` with the state of its collaborators; `cache` is the
Redis server of both `cache` and `idempotency`, `realtime` is `none` when nil. -/
structure messagesService where
  messagesRepo : messagesRepository
  cache : Redis
  idempotency : IdempotencyService
  realtime : Option realtimeService

/-- The constructor `NewMessagesService`. -/
def NewMessagesService (messagesRepo : messagesRepository) (cacheClient : Redis)
    (ttlMinutes : Int) (realtime : Option realtimeService) : messagesService :=
  ⟨messagesRepo, cacheClient, NewIdempotencyService ttlMinutes, realtime⟩

/-- The idempotency key of `SendMessage` (lines 41 to 45): the key of the request, or
the hexadecimal SHA-256 digest of user id, chat id and content when it is empty. -/
def idempotencyKeyOf (req : SendMessageRequest) : String :=
  if req.IdempotencyKey = "" then
    EncodeToString (Sum256 (bytesOf (req.UserID ++ req.ChatID ++ req.Content)))
  else req.IdempotencyKey

/-- The error of `SendMessage` on a duplicate submission. -/
def errDuplicate : String := "message with idempotency key already exists"

/-- The broadcast step of `SendMessage` (lines 73 to 82); `none` when the broadcast
panics. -/
def sendBroadcast (repo : messagesRepository) (realtime : Option realtimeService)
    (chatID messageID : String) : Option (Option realtimeService) :=
  match realtime with
  | none => some none
  | some rt =>
    match repo.Get messageID with
    | (_, some _) => some (some rt)
    | (msg, none) =>
      match BroadcastMessage rt chatID (ConvertToChatMessage msg) with
      | none => none
      | some rt1 => some (some rt1)

/-- The method `SendMessage`: the service afterwards, the response and the error;
`none` when the call panics. -/
def SendMessage (s : messagesService) (req : SendMessageRequest) :
    Option (messagesService × SendMessageResponse × Option String) :=
  let idempotencyKey := idempotencyKeyOf req
  match CheckAndSetIdempotency s.idempotency s.cache idempotencyKey with
  | (cache1, _, some err) => some (⟨s.messagesRepo, cache1, s.idempotency, s.realtime⟩, ⟨""⟩, some err)
  | (cache1, true, none) =>
    some (⟨s.messagesRepo, cache1, s.idempotency, s.realtime⟩, ⟨""⟩, some errDuplicate)
  | (cache1, false, none) =>
    let message : Message :=
      ⟨"", idempotencyKey, req.UserID, req.ChatID, req.Content, MessageStatusSent, 0, 0, none⟩
    match s.messagesRepo.Send message with
    | (repo1, _, some err) => some (⟨repo1, cache1, s.idempotency, s.realtime⟩, ⟨""⟩, some err)
    | (repo1, messageID, none) =>
      match sendBroadcast repo1 s.realtime req.ChatID messageID with
      | none => none
      | some realtime1 => some (⟨repo1, cache1, s.idempotency, realtime1⟩, ⟨messageID⟩, none)

/-- Time passes on the cache of the service. -/
def messagesService.advance (s : messagesService) (dt : Nat) : messagesService :=
  ⟨s.messagesRepo, s.cache.advance dt, s.idempotency, s.realtime⟩

/-! ## Call sequences on one key -/

/-- A call on one `(chat, subscriber)` key: `SubscribeToChat` with its context, or
`UnsubscribeFromChat`. -/
inductive Call where
  | subscribe (ctx : Nat)
  | unsubscribe
  deriving DecidableEq, Repr

/-- The registry operation of a call on the key `(chatID, userID)`. -/
def Call.toOp (chatID userID : String) : Call → Op
  | .subscribe ctx => .subscribe ctx chatID userID
  | .unsubscribe => .unsubscribe chatID userID

/-- A sequence of calls on the key `(chatID, userID)`, run on the service. -/
def runCalls (chatID userID : String) (s : realtimeService) (calls : List Call) :
    Option realtimeService :=
  run s (calls.map (Call.toOp chatID userID))

/-- The net count of testable property 1, in the words of the spec: every Subscribe
call counts +1, an Unsubscribe call counts -1 unless it is made while the pair is not
subscribed. -/
def netCalls (chatID userID : String) : realtimeService → List Call → Int
  | _, [] => 0
  | s, .subscribe ctx :: rest =>
    1 + netCalls chatID userID (SubscribeToChat s ctx chatID userID).1 rest
  | s, .unsubscribe :: rest =>
    match UnsubscribeFromChat s chatID userID with
    | none => 0
    | some s1 => (if isSubscribed s chatID userID then -1 else 0) + netCalls chatID userID s1 rest

/-- The net count in which, besides, a Subscribe call made while the pair is already
subscribed is not counted. -/
def netEffectiveCalls (chatID userID : String) : realtimeService → List Call → Int
  | _, [] => 0
  | s, .subscribe ctx :: rest =>
    (if isSubscribed s chatID userID then 0 else 1) +
      netEffectiveCalls chatID userID (SubscribeToChat s ctx chatID userID).1 rest
  | s, .unsubscribe :: rest =>
    match UnsubscribeFromChat s chatID userID with
    | none => 0
    | some s1 =>
      (if isSubscribed s chatID userID then -1 else 0) + netEffectiveCalls chatID userID s1 rest

/-! ## Example data

The envelopes and states of the examples (testable property 6 of the spec and the
saturation scenario of property 3). -/

/-- An envelope broadcast to chat "c1". -/
def env1 : ChatMessage := ⟨"m1", "c1", "u1", "alice", "hello", 0, "SENT", .MessageTypeNew⟩

/-- A second envelope broadcast to chat "c1". -/
def env2 : ChatMessage := ⟨"m2", "c1", "u2", "bob", "hi", 1, "SENT", .MessageTypeNew⟩

/-- Users "u1" and "u2" subscribe to chat "c1". -/
def twoSubscribersOps : List Op := [.subscribe 0 "c1" "u1", .subscribe 1 "c1" "u2"]

/-- The state after `twoSubscribersOps`. -/
def twoSubscribers : realtimeService :=
  ⟨[makeChan, makeChan], [("c1", [("u1", 0), ("u2", 1)])],
    [(0, "c1", "u1"), (1, "c1", "u2")], []⟩

/-- User "u1" subscribes to chat "c1" and does not read while 100 envelopes are
broadcast; then "u2" subscribes. -/
def fullQueueOps : List Op :=
  .subscribe 0 "c1" "u1" :: (List.replicate 100 (.broadcast "c1" env1) ++ [.subscribe 1 "c1" "u2"])

/-- The state after `fullQueueOps`: the queue of "u1" holds 100 envelopes. -/
def fullQueue : realtimeService :=
  ⟨[⟨List.replicate 100 env1, 100, false⟩, makeChan], [("c1", [("u1", 0), ("u2", 1)])],
    [(0, "c1", "u1"), (1, "c1", "u2")], []⟩

/-- A messages service over an empty cache and an empty storage, with a TTL of 10
minutes and a realtime service without subscribers. -/
def sendService : messagesService :=
  NewMessagesService ⟨[], [("u1", "alice")], fun _ => "01ARZ3NDEKTSV4RRFFQ69G5FAV", 0, 0, none, none⟩
    ⟨0, [], none, none⟩ 10 (some NewRealtimeService)

/-- A request of user "u1" without an idempotency key. -/
def sendRequest : SendMessageRequest := ⟨"u1", "c1", "hello", ""⟩

/-! ## Sequential and concurrent calls of `CheckAndSetIdempotency` -/

/-- Sequential calls of `CheckAndSetIdempotency` on one key, each one some time after
the one before: the cache afterwards and what each call returned. -/
def checkAfter (s : IdempotencyService) (key : String) :
    Redis → List Nat → Redis × List (Bool × Option String)
  | r, [] => (r, [])
  | r, dt :: dts =>
    match CheckAndSetIdempotency s (r.advance dt) key with
    | (r1, flag, err) =>
      match checkAfter s key r1 dts with
      | (r2, out) => (r2, (flag, err) :: out)

/-- Where a call of `CheckAndSetIdempotency` stands: before its `EXISTS` command, between
`EXISTS` (which found no key) and `SET`, or returned. -/
inductive CheckCall where
  | start
  | checked
  | returned (flag : Bool) (err : Option String)
  deriving DecidableEq, Repr

/-- The next Redis command of a call of `CheckAndSetIdempotency` (lines 30 to 48): each
command is one round trip to the server, and other clients run between the two. -/
def CheckCall.step (s : IdempotencyService) (key : String) (r : Redis) :
    CheckCall → Redis × CheckCall
  | .start =>
    match r.Exists ("idempotency:" ++ key) with
    | (_, some err) => (r, .returned false (some ("failed to check idempotency: " ++ err)))
    | (count, none) => if count > 0 then (r, .returned true none) else (r, .checked)
  | .checked =>
    match r.Set ("idempotency:" ++ key) s.ttl with
    | (r1, some err) => (r1, .returned false (some ("failed to set idempotency key: " ++ err)))
    | (r1, none) => (r1, .returned false none)
  | .returned flag err => (r, .returned flag err)

/-- Two concurrent calls of `CheckAndSetIdempotency` with one key under a schedule:
`true` lets the first call run its next command, `false` the second. -/
def interleave (s : IdempotencyService) (key : String) :
    Redis → CheckCall → CheckCall → List Bool → Redis × CheckCall × CheckCall
  | r, a, b, [] => (r, a, b)
  | r, a, b, true :: sched =>
    match CheckCall.step s key r a with
    | (r1, a1) => interleave s key r1 a1 b sched
  | r, a, b, false :: sched =>
    match CheckCall.step s key r b with
    | (r1, b1) => interleave s key r1 a b1 sched

/-! ## The calls of the messages service to its collaborators -/

/-- A call of the messages service to one of its collaborators. -/
inductive CollabCall where
  | checkAndSet (key : String)
  | send (message : Message)
  | get (messageID : String)
  | broadcast (chatID : String) (message : ChatMessage)
  | markAsRead (messageID userID : String)
  | markAsDelivered (messageID : String)
  deriving DecidableEq, Repr

/-- The broadcast step of `SendMessage` (lines 73 to 82) with the calls it makes. -/
def sendBroadcastTraced (repo : messagesRepository) (realtime : Option realtimeService)
    (chatID messageID : String) : Option (Option realtimeService) × List CollabCall :=
  match realtime with
  | none => (some none, [])
  | some rt =>
    match repo.Get messageID with
    | (_, some _) => (some (some rt), [.get messageID])
    | (msg, none) =>
      match BroadcastMessage rt chatID (ConvertToChatMessage msg) with
      | none => (none, [.get messageID, .broadcast chatID (ConvertToChatMessage msg)])
      | some rt1 =>
        (some (some rt1), [.get messageID, .broadcast chatID (ConvertToChatMessage msg)])

/-- The method `SendMessage` with the calls it makes to its collaborators, in order. -/
def SendMessageTraced (s : messagesService) (req : SendMessageRequest) :
    Option (messagesService × SendMessageResponse × Option String) × List CollabCall :=
  let idempotencyKey := idempotencyKeyOf req
  match CheckAndSetIdempotency s.idempotency s.cache idempotencyKey with
  | (cache1, _, some err) =>
    (some (⟨s.messagesRepo, cache1, s.idempotency, s.realtime⟩, ⟨""⟩, some err),
      [.checkAndSet idempotencyKey])
  | (cache1, true, none) =>
    (some (⟨s.messagesRepo, cache1, s.idempotency, s.realtime⟩, ⟨""⟩, some errDuplicate),
      [.checkAndSet idempotencyKey])
  | (cache1, false, none) =>
    let message : Message :=
      ⟨"", idempotencyKey, req.UserID, req.ChatID, req.Content, MessageStatusSent, 0, 0, none⟩
    match s.messagesRepo.Send message with
    | (repo1, _, some err) =>
      (some (⟨repo1, cache1, s.idempotency, s.realtime⟩, ⟨""⟩, some err),
        [.checkAndSet idempotencyKey, .send message])
    | (repo1, messageID, none) =>
      match sendBroadcastTraced repo1 s.realtime req.ChatID messageID with
      | (none, calls) => (none, [.checkAndSet idempotencyKey, .send message] ++ calls)
      | (some realtime1, calls) =>
        (some (⟨repo1, cache1, s.idempotency, realtime1⟩, ⟨messageID⟩, none),
          [.checkAndSet idempotencyKey, .send message] ++ calls)

/-- The envelopes that a list of calls broadcasts, with their chats. -/
def broadcastsOf : List CollabCall → List (String × ChatMessage)
  | [] => []
  | .broadcast chatID message :: calls => (chatID, message) :: broadcastsOf calls
  | _ :: calls => broadcastsOf calls

/-- The calls to the storage collaborator among a list of calls. -/
def storageCallsOf : List CollabCall → List CollabCall
  | [] => []
  | .checkAndSet _ :: calls => storageCallsOf calls
  | .broadcast _ _ :: calls => storageCallsOf calls
  | call :: calls => call :: storageCallsOf calls

/-! ## Status updates -/

/-- The struct `models.UpdateMessageStatusRequest`. -/
structure UpdateMessageStatusRequest where
  UserID : String
  MessageID : String
  Status : String
  deriving DecidableEq, Repr

/-- The struct `models.UpdateMessageStatusResponse`. -/
structure UpdateMessageStatusResponse where
  MessageID : String
  Status : String
  deriving DecidableEq, Repr

/-- The method `MarkAsRead` of the repository; `usersChats` are the rows (user id, chat
id) of the table `users_chats` of the same database. -/
def messagesRepository.MarkAsRead (r : messagesRepository) (usersChats : List (String × String))
    (messageID userID : String) : messagesRepository × Option String :=
  match r.execErr with
  | some err => (r, some err)
  | none =>
    (⟨r.rows.map (fun m =>
        if m.ID = messageID ∧ (userID, m.ChatID) ∈ usersChats then
          ⟨m.ID, m.IdempotencyKey, m.UserID, m.ChatID, m.Body, MessageStatusRead, m.CreatedAt,
            r.now, m.User⟩
        else m),
      r.users, r.ulid, r.issued, r.now, r.execErr, r.queryErr⟩, none)

/-- The method `MarkAsDelivered` of the repository. -/
def messagesRepository.MarkAsDelivered (r : messagesRepository) (messageID : String) :
    messagesRepository × Option String :=
  match r.execErr with
  | some err => (r, some err)
  | none =>
    (⟨r.rows.map (fun m =>
        if m.ID = messageID then
          ⟨m.ID, m.IdempotencyKey, m.UserID, m.ChatID, m.Body, MessageStatusDelivered,
            m.CreatedAt, r.now, m.User⟩
        else m),
      r.users, r.ulid, r.issued, r.now, r.execErr, r.queryErr⟩, none)

/-- The method `UpdateMessageStatus` of the messages service: the repository afterwards,
the response, the error and the calls made to the repository. -/
def UpdateMessageStatus (repo : messagesRepository) (usersChats : List (String × String))
    (req : UpdateMessageStatusRequest) :
    messagesRepository × UpdateMessageStatusResponse × Option String × List CollabCall :=
  if req.Status = MessageStatusRead then
    match repo.MarkAsRead usersChats req.MessageID req.UserID with
    | (repo1, some err) => (repo1, ⟨"", ""⟩, some err, [.markAsRead req.MessageID req.UserID])
    | (repo1, none) =>
      (repo1, ⟨req.MessageID, req.Status⟩, none, [.markAsRead req.MessageID req.UserID])
  else if req.Status = MessageStatusDelivered then
    match repo.MarkAsDelivered req.MessageID with
    | (repo1, some err) => (repo1, ⟨"", ""⟩, some err, [.markAsDelivered req.MessageID])
    | (repo1, none) =>
      (repo1, ⟨req.MessageID, req.Status⟩, none, [.markAsDelivered req.MessageID])
  else (repo, ⟨"", ""⟩, some ("invalid status: " ++ req.Status), [])

/-! ## The gRPC handlers -/

/-- The status codes of `google.golang.org/grpc/codes` that the handlers use. -/
inductive Code where
  | OK
  | InvalidArgument
  | NotFound
  | Unauthenticated
  | Internal
  deriving DecidableEq, Repr

/-- An error made by `status.Error` or `status.Errorf`. -/
structure Status where
  code : Code
  message : String
  deriving DecidableEq, Repr

/-- A value stored in a context: a string, or a value of another type. -/
inductive CtxValue where
  | str (s : String)
  | other
  deriving DecidableEq, Repr

/-- A `context.Context`: its identity (which `Done` channel it has) and its values by
key of type `contextKey`. -/
structure Context where
  id : Nat
  values : GoMap CtxValue
  deriving DecidableEq, Repr

/-- The type assertion `v.(string)` in its two-valued form. -/
def assertString : Option CtxValue → String × Bool
  | some (.str s) => (s, true)
  | _ => ("", false)

/-- The function `jwt.GetUserFromContext`: user id, user name, email and error.  The
fallback keys `contextKey("user_id")` and so on equal the constants `userIDKey` and so
on, so each fallback repeats the first lookup. -/
def GetUserFromContext (ctx : Context) : String × String × String × Option String :=
  match assertString (mapGet ctx.values "user_id") with
  | (userID, ok) =>
    if (!ok || userID = "") &&
        ((!(assertString (mapGet ctx.values "user_id")).2) ||
          (assertString (mapGet ctx.values "user_id")).1 = "") then
      ("", "", "", some "user_id not found in context")
    else
      match assertString (mapGet ctx.values "username") with
      | (username, ok1) =>
        if !ok1 && !(assertString (mapGet ctx.values "username")).2 then
          ("", "", "", some "username not found in context")
        else
          match assertString (mapGet ctx.values "email") with
          | (email, ok2) =>
            if !ok2 && !(assertString (mapGet ctx.values "email")).2 then
              ("", "", "", some "email not found in context")
            else (userID, username, email, none)

/-- The message `pb.SendMessageRequest`. -/
structure pb.SendMessageRequest where
  ChatId : String
  Content : String
  IdempotencyKey : String
  deriving DecidableEq, Repr

/-- The message `pb.Message`. -/
structure pb.Message where
  Id : String
  ChatId : String
  UserId : String
  Content : String
  SentAt : Nat
  Status : String
  deriving DecidableEq, Repr

/-- The message `pb.SendMessageResponse`. -/
structure pb.SendMessageResponse where
  Message : pb.Message
  deriving DecidableEq, Repr

/-- The message `pb.SubscribeToChatRequest`. -/
structure pb.SubscribeToChatRequest where
  ChatId : String
  deriving DecidableEq, Repr

/-- The message `pb.ChatMessage`. -/
structure pb.ChatMessage where
  MessageId : String
  ChatId : String
  UserId : String
  Username : String
  Content : String
  SentAt : Nat
  Status : String
  deriving DecidableEq, Repr

/-- The handler `MessagesGRPCServer.SendMessage`; `now` is `timestamppb.Now()`.  The
response is `none` when nil; the result is `none` when the call panics. -/
def MessagesGRPCServer.SendMessage (s : messagesService) (ctx : Context) (now : Nat)
    (req : pb.SendMessageRequest) :
    Option (messagesService × Option pb.SendMessageResponse × Option Status) :=
  if req.ChatId = "" ∨ req.Content = "" ∨ req.IdempotencyKey = "" then
    some (s, none,
      some ⟨.InvalidArgument, "chat_id, content, and idempotency_key are required"⟩)
  else
    match GetUserFromContext ctx with
    | (_, _, _, some err) =>
      some (s, none, some ⟨.Unauthenticated, "failed to get user from context: " ++ err⟩)
    | (userID, _, _, none) =>
      match MessagingApp.SendMessage s ⟨userID, req.ChatId, req.Content, req.IdempotencyKey⟩ with
      | none => none
      | some (s1, _, some err) =>
        some (s1, none, some ⟨.Internal, "failed to send message: " ++ err⟩)
      | some (s1, resp, none) =>
        some (s1, some ⟨⟨resp.MessageID, req.ChatId, userID, req.Content, now, "SENT"⟩⟩, none)

/-- An error of `stream.Send`: `io.EOF` or another error. -/
inductive StreamErr where
  | EOF
  | other (msg : String)
  deriving DecidableEq, Repr

/-- The text of an error of `stream.Send`. -/
def StreamErr.Error : StreamErr → String
  | .EOF => "EOF"
  | .other msg => msg

/-- The server stream of `SubscribeToChat`: its context, the envelopes written to the
outbound stream so far, and the error that `Send` returns at present, if any. -/
structure ServerStream where
  ctx : Context
  sent : List pb.ChatMessage
  sendErr : Option StreamErr
  deriving DecidableEq, Repr

/-- The call `stream.Send(m)`. -/
def ServerStream.Send (stream : ServerStream) (m : pb.ChatMessage) :
    ServerStream × Option StreamErr :=
  match stream.sendErr with
  | some err => (stream, some err)
  | none => (⟨stream.ctx, stream.sent ++ [m], stream.sendErr⟩, none)

/-- A delivery session: in its loop with its channel, or returned with its error (`none`
when it returned nil). -/
inductive Session where
  | streaming (chatID userID : String) (msgChan : Nat)
  | closed (err : Option Status)
  deriving DecidableEq, Repr

/-- The handler `MessagesGRPCServer.SubscribeToChat` up to its loop (lines 130 to 162);
`now` is `timestamppb.Now()`. -/
def MessagesGRPCServer.SubscribeToChat (rt : realtimeService) (stream : ServerStream)
    (now : Nat) (req : pb.SubscribeToChatRequest) : realtimeService × ServerStream × Session :=
  if req.ChatId = "" then
    (rt, stream, .closed (some ⟨.InvalidArgument, "chat_id is required"⟩))
  else
    match GetUserFromContext stream.ctx with
    | (_, _, _, some err) =>
      (rt, stream, .closed (some ⟨.Unauthenticated, "failed to get user from context: " ++ err⟩))
    | (userID, username, _, none) =>
      match MessagingApp.SubscribeToChat rt stream.ctx.id req.ChatId userID with
      | (rt1, msgChan) =>
        match stream.Send
          ⟨"connection", req.ChatId, userID, username, "Connected to chat", now, "CONNECTED"⟩ with
        | (stream1, some err) =>
          (rt1, stream1, .closed (some
            ⟨.Internal, "failed to send connection message: " ++ err.Error⟩))
        | (stream1, none) => (rt1, stream1, .streaming req.ChatId userID msgChan)

/-- The case that a `select` of the loop takes. -/
inductive SelectCase where
  | msgChan
  | ctxDone
  deriving DecidableEq, Repr

/-- One iteration of the loop of `MessagesGRPCServer.SubscribeToChat` (lines 164 to
195) that takes the given case.  The case `msgChan` is ready when an envelope is
buffered or the channel is closed; otherwise the iteration waits. -/
def MessagesGRPCServer.SubscribeToChatLoop (rt : realtimeService) (stream : ServerStream) :
    Session → SelectCase → realtimeService × ServerStream × Session
  | .closed err, _ => (rt, stream, .closed err)
  | .streaming _ _ _, .ctxDone => (rt, stream, .closed none)
  | .streaming chatID userID msgChan, .msgChan =>
    match rt.chans[msgChan]? with
    | none => (rt, stream, .streaming chatID userID msgChan)
    | some ch =>
      match ch.buf with
      | [] =>
        if ch.closed then (rt, stream, .closed none)
        else (rt, stream, .streaming chatID userID msgChan)
      | msg :: _ =>
        match stream.Send ⟨msg.MessageID, msg.ChatID, msg.SenderID, msg.SenderUsername,
          msg.Content, msg.SentAt, msg.Status⟩ with
        | (stream1, none) => (recvChan rt msgChan, stream1, .streaming chatID userID msgChan)
        | (stream1, some .EOF) => (recvChan rt msgChan, stream1, .closed none)
        | (stream1, some err) =>
          (recvChan rt msgChan, stream1,
            .closed (some ⟨.Internal, "failed to send message: " ++ err.Error⟩))

/-- What happens around a delivery session: its loop runs an iteration, another task
acts on the realtime service, or the transport starts or stops failing. -/
inductive SessionEvent where
  | select (c : SelectCase)
  | registry (op : Op)
  | transport (err : Option StreamErr)
  deriving DecidableEq, Repr

/-- A delivery session under a sequence of events; `none` when a registry operation
panics. -/
def runSession : realtimeService × ServerStream × Session → List SessionEvent →
    Option (realtimeService × ServerStream × Session)
  | st, [] => some st
  | (rt, stream, sess), .select c :: evs =>
    runSession (MessagesGRPCServer.SubscribeToChatLoop rt stream sess c) evs
  | (rt, stream, sess), .registry op :: evs =>
    match step rt op with
    | none => none
    | some rt1 => runSession (rt1, stream, sess) evs
  | (rt, stream, sess), .transport err :: evs =>
    runSession (rt, ⟨stream.ctx, stream.sent, err⟩, sess) evs

/-! ## A delivery session with the cancellation of its context -/

/-- The calls of `UnsubscribeFromChat` that the goroutines of `SubscribeToChat` blocked on
the `Done` channel of `ctx` make when they are released, as pairs (chat, user). -/
def waitingOn (rt : realtimeService) (ctx : Nat) : List (String × String) :=
  (rt.waiting.filter (fun w => decide (w.1 = ctx))).map (fun w => w.2)

/-- A delivery session with what surrounds it: the realtime service, the server stream,
the session, whether the context of the stream is cancelled (its `Done` channel is
closed), and the calls of `UnsubscribeFromChat` that the cancellation has released. -/
structure Connection where
  rt : realtimeService
  stream : ServerStream
  session : Session
  cancelled : Bool
  released : List (String × String)
  deriving DecidableEq, Repr

/-- Whether the `select` of the loop can take a case: `<-ctx.Done()` once the context is
cancelled, `<-msgChan` when an envelope is buffered or the channel is closed. -/
def SelectCase.ready (sc : SelectCase) (conn : Connection) : Bool :=
  match sc with
  | .ctxDone => conn.cancelled
  | .msgChan =>
    match conn.session with
    | .closed _ => false
    | .streaming _ _ queue =>
      match conn.rt.chans[queue]? with
      | none => false
      | some ch => !ch.buf.isEmpty || ch.closed

/-- One event around a delivery session.  The `select` takes a case only when the case
is ready, otherwise the loop keeps waiting; the operation `done` on the context of the
stream cancels it, which releases the goroutines blocked on it; `none` when a registry
operation panics. -/
def Connection.step (conn : Connection) : SessionEvent → Option Connection
  | .select sc =>
    if sc.ready conn then
      match MessagesGRPCServer.SubscribeToChatLoop conn.rt conn.stream conn.session sc with
      | (rt1, stream1, session1) => some ⟨rt1, stream1, session1, conn.cancelled, conn.released⟩
    else some conn
  | .registry op =>
    match MessagingApp.step conn.rt op with
    | none => none
    | some rt1 =>
      if op = .done conn.stream.ctx.id then
        some ⟨rt1, conn.stream, conn.session, true,
          conn.released ++ waitingOn conn.rt conn.stream.ctx.id⟩
      else some ⟨rt1, conn.stream, conn.session, conn.cancelled, conn.released⟩
  | .transport err =>
    some ⟨conn.rt, ⟨conn.stream.ctx, conn.stream.sent, err⟩, conn.session, conn.cancelled,
      conn.released⟩

/-- A sequence of events around a delivery session, from left to right. -/
def Connection.run : Connection → List SessionEvent → Option Connection
  | conn, [] => some conn
  | conn, ev :: evs =>
    match conn.step ev with
    | none => none
    | some conn1 => Connection.run conn1 evs

/-- Whether every case of a sequence of `select` cases is ready when its turn comes. -/
def allReady : Connection → List SelectCase → Bool
  | _, [] => true
  | conn, sc :: cs =>
    sc.ready conn &&
      match conn.step (.select sc) with
      | none => false
      | some conn1 => allReady conn1 cs

/-- The handler `MessagesGRPCServer.SubscribeToChat` up to its loop, on a context that
is not cancelled. -/
def Connection.accept (rt : realtimeService) (stream : ServerStream) (now : Nat)
    (req : pb.SubscribeToChatRequest) : Connection :=
  match MessagesGRPCServer.SubscribeToChat rt stream now req with
  | (rt1, stream1, session) => ⟨rt1, stream1, session, false, []⟩

/-- The handler `MessagesGRPCServer.SendMessage` with the calls that the messages
service makes to its collaborators. -/
def MessagesGRPCServer.SendMessageTraced (s : messagesService) (ctx : Context) (now : Nat)
    (req : pb.SendMessageRequest) :
    Option (messagesService × Option pb.SendMessageResponse × Option Status) × List CollabCall :=
  if req.ChatId = "" ∨ req.Content = "" ∨ req.IdempotencyKey = "" then
    (some (s, none,
      some ⟨.InvalidArgument, "chat_id, content, and idempotency_key are required"⟩), [])
  else
    match GetUserFromContext ctx with
    | (_, _, _, some err) =>
      (some (s, none, some ⟨.Unauthenticated, "failed to get user from context: " ++ err⟩), [])
    | (userID, _, _, none) =>
      match MessagingApp.SendMessageTraced s
        ⟨userID, req.ChatId, req.Content, req.IdempotencyKey⟩ with
      | (none, calls) => (none, calls)
      | (some (s1, _, some err), calls) =>
        (some (s1, none, some ⟨.Internal, "failed to send message: " ++ err⟩), calls)
      | (some (s1, resp, none), calls) =>
        (some (s1, some ⟨⟨resp.MessageID, req.ChatId, userID, req.Content, now, "SENT"⟩⟩, none),
          calls)

/-! ## The authentication interceptors -/

/-- The struct `jwt.Claims`. -/
structure Claims where
  UserID : String
  Username : String
  Email : String
  Exp : Int
  Iat : Int
  deriving DecidableEq, Repr

/-- The function `shouldSkipAuth`. -/
def shouldSkipAuth (method : String) : Bool :=
  ["/messaging.UsersService/CreateUser", "/messaging.UsersService/Login"].any
    (fun skipMethod => decide (method = skipMethod))

/-- The function `strings.HasPrefix`. -/
def HasPrefix (s pre : String) : Bool :=
  pre.toList.isPrefixOf s.toList

/-- The function `strings.TrimPrefix`. -/
def TrimPrefix (s pre : String) : String :=
  if HasPrefix s pre then String.mk (s.toList.drop pre.toList.length) else s

/-- The method `extractAndValidateToken`.  `md` is the incoming metadata of the context
(`none` when the context has none) and `validateToken` the method `ValidateToken` of
the JWT service, which returns claims exactly when it returns no error. -/
def extractAndValidateToken (validateToken : String → Except String Claims)
    (md : Option (GoMap (List String))) : Except String Claims :=
  match md with
  | none => .error "no metadata found"
  | some md =>
    match (match mapGet md "authorization" with
      | none => []
      | some values => values) with
    | [] => .error "no authorization header found"
    | authHeader :: _ =>
      if !(HasPrefix authHeader "Bearer ") then .error "invalid authorization header format"
      else if TrimPrefix authHeader "Bearer " = "" then .error "empty token"
      else
        match validateToken (TrimPrefix authHeader "Bearer ") with
        | .error err => .error ("invalid token: " ++ err)
        | .ok claims => .ok claims

/-- What an interceptor does with a call: it calls the handler with a context, or it
returns an error without calling the handler. -/
inductive Intercepted where
  | handler (ctx : Context)
  | rejected (err : Status)
  deriving DecidableEq, Repr

/-- The context that the interceptors pass to the handler: the four `context.WithValue`
calls. -/
def withClaims (ctx : Context) (claims : Claims) : Context :=
  ⟨ctx.id, mapSet (mapSet (mapSet (mapSet ctx.values "user_id" (.str claims.UserID))
    "username" (.str claims.Username)) "email" (.str claims.Email)) "jwt_claims" .other⟩

/-- The method `Interceptor.UnaryInterceptor`. -/
def Interceptor.UnaryInterceptor (validateToken : String → Except String Claims)
    (ctx : Context) (md : Option (GoMap (List String))) (FullMethod : String) : Intercepted :=
  if shouldSkipAuth FullMethod then .handler ctx
  else
    match extractAndValidateToken validateToken md with
    | .error err => .rejected ⟨.Unauthenticated, "authentication failed: " ++ err⟩
    | .ok claims => .handler (withClaims ctx claims)

/-- The method `Interceptor.StreamInterceptor`; the context is that of the server stream,
and the handler gets the stream wrapped with the new context. -/
def Interceptor.StreamInterceptor (validateToken : String → Except String Claims)
    (ctx : Context) (md : Option (GoMap (List String))) (FullMethod : String) : Intercepted :=
  if shouldSkipAuth FullMethod then .handler ctx
  else
    match extractAndValidateToken validateToken md with
    | .error err => .rejected ⟨.Unauthenticated, "authentication failed: " ++ err⟩
    | .ok claims => .handler (withClaims ctx claims)

/-! ## The chats service -/

/-- The zero value `models.User{}`. -/
def User.zero : User := ⟨"", "", "", "", 0, 0⟩

/-- The struct `usersRepository` with the table `users` behind it. -/
structure usersRepository where
  rows : List User
  queryErr : Option String
  deriving DecidableEq, Repr

/-- The method `GetByEmail` of the users repository: the zero user without error when no
row matches. -/
def usersRepository.GetByEmail (r : usersRepository) (email : String) : User × Option String :=
  match r.queryErr with
  | some err => (User.zero, some err)
  | none =>
    match r.rows.find? (fun user => decide (user.Email = email)) with
    | none => (User.zero, none)
    | some user => (user, none)

/-- The struct `models.Chat`. -/
structure Chat where
  ID : String
  Name : String
  CreatedAt : Nat
  UpdatedAt : Nat
  deriving DecidableEq, Repr

/-- The struct `models.UserChat`, a row of the table `users_chats`. -/
structure UserChat where
  ID : String
  UserID : String
  ChatID : String
  CreatedAt : Nat
  UpdatedAt : Nat
  deriving DecidableEq, Repr

/-- The struct `chatsRepository` with the tables `chats` and `users_chats` behind it, the
identifiers that `ulid.MustNew` produces, the database clock, and the outcomes of the
next statements (an absent outcome is a success). -/
structure chatsRepository where
  chats : List Chat
  usersChats : List UserChat
  ulid : Nat → String
  issued : Nat
  now : Nat
  faults : List (Option String)

/-- The method `Create` of the chats repository. -/
def chatsRepository.Create (r : chatsRepository) (req : Chat) :
    chatsRepository × String × Option String :=
  match r.faults.headD none with
  | some err =>
    (⟨r.chats, r.usersChats, r.ulid, r.issued + 1, r.now, r.faults.tail⟩, r.ulid r.issued,
      some err)
  | none =>
    (⟨r.chats ++ [⟨r.ulid r.issued, req.Name, r.now, r.now⟩], r.usersChats, r.ulid,
      r.issued + 1, r.now, r.faults.tail⟩, r.ulid r.issued, none)

/-- The method `AddUserToChat` of the chats repository. -/
def chatsRepository.AddUserToChat (r : chatsRepository) (userID chatID : String) :
    chatsRepository × Option String :=
  match r.faults.headD none with
  | some err => (⟨r.chats, r.usersChats, r.ulid, r.issued + 1, r.now, r.faults.tail⟩, some err)
  | none =>
    (⟨r.chats, r.usersChats ++ [⟨r.ulid r.issued, userID, chatID, r.now, r.now⟩], r.ulid,
      r.issued + 1, r.now, r.faults.tail⟩, none)

/-- The struct `chatsService` with the state of its repositories. -/
structure chatsService where
  chatsRepo : chatsRepository
  usersRepo : usersRepository

/-- The struct `models.CreateChatRequest`. -/
structure CreateChatRequest where
  UserID : String
  Name : String
  Email : String
  deriving DecidableEq, Repr

/-- The struct `models.CreateChatResponse`. -/
structure CreateChatResponse where
  ChatId : String
  deriving DecidableEq, Repr

/-- The method `chatsService.CreateChat`.  On line 41 the variable `err` is nil, so the
branch of a user that is not found returns the empty response and no error. -/
def CreateChat (s : chatsService) (req : CreateChatRequest) :
    chatsService × CreateChatResponse × Option String :=
  match s.usersRepo.GetByEmail req.Email with
  | (_, some err) => (s, ⟨""⟩, some err)
  | (toUser, none) =>
    if toUser.ID = "" then (s, ⟨""⟩, none)
    else
      match s.chatsRepo.Create ⟨"", req.Name, 0, 0⟩ with
      | (repo1, _, some err) => (⟨repo1, s.usersRepo⟩, ⟨""⟩, some err)
      | (repo1, chatID, none) =>
        match repo1.AddUserToChat req.UserID chatID with
        | (repo2, some err) => (⟨repo2, s.usersRepo⟩, ⟨""⟩, some err)
        | (repo2, none) =>
          match repo2.AddUserToChat toUser.ID chatID with
          | (repo3, some err) => (⟨repo3, s.usersRepo⟩, ⟨""⟩, some err)
          | (repo3, none) => (⟨repo3, s.usersRepo⟩, ⟨chatID⟩, none)

/-- The message `pb.CreateChatRequest`. -/
structure pb.CreateChatRequest where
  Name : String
  Email : String
  deriving DecidableEq, Repr

/-- The message `pb.CreateChatResponse`. -/
structure pb.CreateChatResponse where
  ChatId : String
  deriving DecidableEq, Repr

/-- The handler `ChatsGRPCServer.CreateChat`. -/
def ChatsGRPCServer.CreateChat (s : chatsService) (ctx : Context) (req : pb.CreateChatRequest) :
    chatsService × Option pb.CreateChatResponse × Option Status :=
  if req.Name = "" ∨ req.Email = "" then
    (s, none, some ⟨.InvalidArgument, "name and user_ids are required"⟩)
  else
    match GetUserFromContext ctx with
    | (_, _, _, some err) =>
      (s, none, some ⟨.Unauthenticated, "failed to get user from context: " ++ err⟩)
    | (userID, _, _, none) =>
      match MessagingApp.CreateChat s ⟨userID, req.Name, req.Email⟩ with
      | (s1, _, some err) => (s1, none, some ⟨.Internal, "failed to create chat: " ++ err⟩)
      | (s1, resp, none) => (s1, some ⟨resp.ChatId⟩, none)

/-- A chats service whose table `users` holds the user "u1" only. -/
def chatDirectory : chatsService :=
  ⟨⟨[], [], fun _ => "01BX5ZZKBKACTAV9WEVGEMMVRZ", 0, 0, []⟩,
    ⟨[⟨"u1", "alice", "alice@example.com", "", 0, 0⟩], none⟩⟩

/-- A validation of tokens that accepts the token "good" only. -/
def validateGood (tokenString : String) : Except String Claims :=
  if tokenString = "good" then .ok ⟨"u1", "alice", "alice@example.com", 0, 0⟩
  else .error "invalid token: signature is invalid"

/-- The service `sendService` with the full queue of "u1" and the empty queue of "u2"
subscribed to chat "c1". -/
def fullQueueService : messagesService :=
  ⟨sendService.messagesRepo, sendService.cache, sendService.idempotency, some fullQueue⟩

/-- A request of user "u1" with the idempotency key "k1". -/
def keyedRequest : SendMessageRequest := ⟨"u1", "c1", "hello", "k1"⟩

/-- A messages service whose storage has no row in `users` for the sender "u1", with
"u1" and "u2" subscribed to chat "c1". -/
def noUserRowService : messagesService :=
  ⟨⟨[], [], fun _ => "01ARZ3NDEKTSV4RRFFQ69G5FAV", 0, 0, none, none⟩, ⟨0, [], none, none⟩,
    NewIdempotencyService 10, some twoSubscribers⟩

/-- The context of a call authenticated as user "u1". -/
def userContext : Context :=
  ⟨1, [("user_id", .str "u1"), ("username", .str "alice"), ("email", .str "alice@example.com")]⟩

/-- The service `sendService` with the key "k1" live in its cache. -/
def duplicateService : messagesService :=
  ⟨sendService.messagesRepo, ⟨0, [("idempotency:k1", some 1000)], none, none⟩,
    sendService.idempotency, sendService.realtime⟩

/-- The service `sendService` with a cache whose `EXISTS` command fails. -/
def cacheDownService : messagesService :=
  ⟨sendService.messagesRepo, ⟨0, [], some "connection refused", none⟩,
    sendService.idempotency, sendService.realtime⟩

/-- A fresh server stream of a call authenticated as user "u1". -/
def userStream : ServerStream := ⟨userContext, [], none⟩

/-- The stream `userStream` over a transport that fails. -/
def brokenStream : ServerStream := ⟨userContext, [], some (.other "transport is closing")⟩

/-- A request of user "ab" in chat "c" without an idempotency key. -/
def requestAbC : SendMessageRequest := ⟨"ab", "c", "hello", ""⟩

/-- A request of user "a" in chat "bc" without an idempotency key. -/
def requestABc : SendMessageRequest := ⟨"a", "bc", "hello", ""⟩

/-- The service `sendService` with a storage whose statements fail. -/
def storageDownService : messagesService :=
  ⟨⟨[], [("u1", "alice")], fun _ => "01ARZ3NDEKTSV4RRFFQ69G5FAV", 0, 0, some "connection reset",
    none⟩, sendService.cache, sendService.idempotency, sendService.realtime⟩

/-- User "u1" subscribes to chat "c1" with context 1 and one envelope is broadcast. -/
def oneEnvelopeOps : List Op := [.subscribe 1 "c1" "u1", .broadcast "c1" env1]

/-- The state after `oneEnvelopeOps`: the queue of "u1" holds one envelope. -/
def oneEnvelope : realtimeService :=
  ⟨[⟨[env1], 100, false⟩], [("c1", [("u1", 0)])], [(1, "c1", "u1")], []⟩

/-- The operations `oneEnvelopeOps` followed by `UnsubscribeFromChat("c1", "u1")`. -/
def closedQueueOps : List Op := oneEnvelopeOps ++ [.unsubscribe "c1" "u1"]

/-- The state after `closedQueueOps`: the queue of "u1" is closed and still holds the
envelope. -/
def closedQueue : realtimeService :=
  ⟨[⟨[env1], 100, true⟩], [], [(1, "c1", "u1")], []⟩

/-- The stream of user "u1" after the acknowledgement, over a transport on which `Send`
returns `io.EOF`. -/
def eofStream : ServerStream :=
  ⟨userContext, [⟨"connection", "c1", "u1", "alice", "Connected to chat", 5, "CONNECTED"⟩],
    some .EOF⟩

/-- The stream of user "u1" after the acknowledgement, over a working transport. -/
def ackedStream : ServerStream :=
  ⟨userContext, [⟨"connection", "c1", "u1", "alice", "Connected to chat", 5, "CONNECTED"⟩], none⟩

/-- The invariant of the registry: no chat entry is empty, the user keys of a chat
are distinct, distinct pairs hold distinct channels, every registered channel is
allocated and open, and every channel has capacity 100 and at most 100 elements. -/
structure Inv (s : realtimeService) : Prop where
  nonempty : ∀ c m, mapGet s.chatSubscriptions c = some m → m ≠ []
  keys : ∀ c m, mapGet s.chatSubscriptions c = some m → (m.map Prod.fst).Nodup
  inj : ∀ c u c1 u1 k, subscription s c u = some k → subscription s c1 u1 = some k →
    c = c1 ∧ u = u1
  live : ∀ c u k, subscription s c u = some k → ∃ ch, s.chans[k]? = some ch ∧ ch.closed = false
  bounded : ∀ ch ∈ s.chans, ch.cap = 100 ∧ ch.buf.length ≤ 100

/-- What an operation may do to one channel: it keeps the capacity and does not overfill
the buffer. -/
def ChanStep (ch ch1 : Chan) : Prop :=
  ch1.cap = ch.cap ∧ (ch.buf.length ≤ ch.cap → ch1.buf.length ≤ ch1.cap)

/-! ## Lemmas on maps -/

theorem mapGet_mapSet {β : Type} (m : GoMap β) (k k1 : String) (v : β) :
    mapGet (mapSet m k v) k1 = if k = k1 then some v else mapGet m k1 := by
  induction m with
  | nil => simp [mapSet, mapGet]
  | cons p m ih =>
    obtain ⟨a, w⟩ := p
    by_cases h : a = k
    · subst h
      by_cases h1 : a = k1 <;> simp [mapSet, mapGet, h1]
    · by_cases h1 : a = k1
      · subst h1
        have : ¬ k = a := fun e => h e.symm
        simp [mapSet, mapGet, h, this]
      · simp [mapSet, mapGet, h, h1, ih]

theorem mapGet_mapDelete {β : Type} (m : GoMap β) (k k1 : String) :
    mapGet (mapDelete m k) k1 = if k = k1 then none else mapGet m k1 := by
  induction m with
  | nil => simp [mapDelete, mapGet]
  | cons p m ih =>
    obtain ⟨a, w⟩ := p
    unfold mapDelete at ih ⊢
    by_cases h : a = k
    · subst h
      by_cases h1 : a = k1
      · subst h1
        simpa [List.filter, mapGet] using ih
      · simpa [List.filter, mapGet, h1] using ih
    · by_cases h1 : a = k1
      · subst h1
        have : ¬ k = a := fun e => h e.symm
        simp [List.filter, mapGet, h, this]
      · simp [List.filter, mapGet, h, h1, ih]

theorem mapSet_ne_nil {β : Type} (m : GoMap β) (k : String) (v : β) : mapSet m k v ≠ [] := by
  cases m with
  | nil => simp [mapSet]
  | cons p m =>
    obtain ⟨a, w⟩ := p
    by_cases h : a = k <;> simp [mapSet, h]

theorem mapSet_keys {β : Type} (m : GoMap β) (k : String) (v : β) (a : String) :
    a ∈ (mapSet m k v).map Prod.fst ↔ a = k ∨ a ∈ m.map Prod.fst := by
  induction m with
  | nil => simp [mapSet]
  | cons p m ih =>
    obtain ⟨b, w⟩ := p
    by_cases h : b = k
    · subst h
      simp [mapSet]
    · simp only [mapSet, h, if_false, List.map_cons, List.mem_cons, ih]
      tauto

theorem mapSet_nodup {β : Type} (m : GoMap β) (k : String) (v : β)
    (h : (m.map Prod.fst).Nodup) : ((mapSet m k v).map Prod.fst).Nodup := by
  induction m with
  | nil => simp [mapSet]
  | cons p m ih =>
    obtain ⟨b, w⟩ := p
    simp only [List.map_cons, List.nodup_cons] at h
    by_cases hb : b = k
    · subst hb
      simpa [mapSet] using h
    · simp only [mapSet, hb, if_false, List.map_cons, List.nodup_cons]
      refine ⟨?_, ih h.2⟩
      intro hm
      rcases (mapSet_keys m k v b).1 hm with e | e
      · exact hb e
      · exact h.1 e

theorem mapDelete_nodup {β : Type} (m : GoMap β) (k : String)
    (h : (m.map Prod.fst).Nodup) : ((mapDelete m k).map Prod.fst).Nodup := by
  unfold mapDelete
  exact (List.Nodup.sublist ((List.filter_sublist m).map Prod.fst) h)

theorem mem_of_mapGet {β : Type} (m : GoMap β) (k : String) (v : β)
    (h : mapGet m k = some v) : (k, v) ∈ m := by
  induction m with
  | nil => simp [mapGet] at h
  | cons p m ih =>
    obtain ⟨a, w⟩ := p
    by_cases e : a = k
    · subst e
      simp [mapGet] at h
      simp [h]
    · simp only [mapGet, e, if_false] at h
      exact List.mem_cons_of_mem _ (ih h)

theorem mapGet_of_mem {β : Type} (m : GoMap β) (k : String) (v : β)
    (hn : (m.map Prod.fst).Nodup) (h : (k, v) ∈ m) : mapGet m k = some v := by
  induction m with
  | nil => simp at h
  | cons p m ih =>
    obtain ⟨a, w⟩ := p
    simp only [List.map_cons, List.nodup_cons] at hn
    rcases List.mem_cons.1 h with e | e
    · cases e
      simp [mapGet]
    · have hk : k ∈ m.map Prod.fst := List.mem_map.2 ⟨(k, v), e, rfl⟩
      have : ¬ a = k := fun x => hn.1 (x ▸ hk)
      simp only [mapGet, this, if_false]
      exact ih hn.2 e

theorem mapGet_head {β : Type} (p : String × β) (m : GoMap β) :
    mapGet (p :: m) p.1 = some p.2 := by
  obtain ⟨a, w⟩ := p
  simp [mapGet]

/-! ## The effect of the operations on the registry -/

theorem subscription_SubscribeToChat (s : realtimeService) (ctx : Nat) (c u c1 u1 : String) :
    subscription (SubscribeToChat s ctx c u).1 c1 u1 =
      if c = c1 ∧ u = u1 then some s.chans.length else subscription s c1 u1 := by
  unfold SubscribeToChat subscription
  simp only [mapGet_mapSet]
  by_cases hc : c = c1
  · subst hc
    cases hm : mapGet s.chatSubscriptions c <;> by_cases hu : u = u1 <;>
      simp [mapGet_mapSet, hu, mapGet]
  · simp [hc]

theorem UnsubscribeFromChat_absent (s : realtimeService) (c u : String)
    (h : subscription s c u = none) : UnsubscribeFromChat s c u = some s := by
  unfold subscription at h
  unfold UnsubscribeFromChat
  cases hm : mapGet s.chatSubscriptions c with
  | none => rfl
  | some m =>
    rw [hm] at h
    simp only at h
    simp [h]

/-- What a call of `UnsubscribeFromChat` that returns did. -/
theorem UnsubscribeFromChat_cases (s s1 : realtimeService) (c u : String)
    (h : UnsubscribeFromChat s c u = some s1) :
    (subscription s c u = none ∧ s1 = s) ∨
    (∃ m k ch, mapGet s.chatSubscriptions c = some m ∧ mapGet m u = some k ∧
      s.chans[k]? = some ch ∧ ch.closed = false ∧
      s1.chans = s.chans.set k ⟨ch.buf, ch.cap, true⟩ ∧
      s1.chatSubscriptions =
        (if (mapDelete m u).length = 0 then mapDelete s.chatSubscriptions c
         else mapSet s.chatSubscriptions c (mapDelete m u)) ∧
      s1.waiting = s.waiting ∧ s1.spawned = s.spawned) := by
  unfold UnsubscribeFromChat at h
  cases hm : mapGet s.chatSubscriptions c with
  | none =>
    left
    rw [hm] at h
    simp only [Option.some.injEq] at h
    exact ⟨by simp [subscription, hm], h.symm⟩
  | some m =>
    rw [hm] at h
    simp only at h
    cases hk : mapGet m u with
    | none =>
      left
      rw [hk] at h
      simp only [Option.some.injEq] at h
      exact ⟨by simp [subscription, hm, hk], h.symm⟩
    | some k =>
      right
      rw [hk] at h
      simp only at h
      unfold closeChan at h
      cases hch : s.chans[k]? with
      | none => simp [hch] at h
      | some ch =>
        rw [hch] at h
        simp only at h
        cases hcl : ch.closed with
        | true => simp [hcl] at h
        | false =>
          simp only [hcl, Bool.false_eq_true, if_false] at h
          refine ⟨m, k, ch, rfl, hk, hch, hcl, ?_⟩
          by_cases hl : (mapDelete m u).length = 0
          · simp only [hl, if_true, Option.some.injEq] at h
            subst h
            simp [hl]
          · simp only [hl, if_false, Option.some.injEq] at h
            subst h
            simp [hl]

theorem mapGet_eq_none_of_nil {β : Type} (m : GoMap β) (k : String) (h : m.length = 0) :
    mapGet m k = none := by
  have : m = [] := List.length_eq_zero.1 h
  subst this
  rfl

theorem subscription_UnsubscribeFromChat (s s1 : realtimeService) (c u c1 u1 : String)
    (h : UnsubscribeFromChat s c u = some s1) :
    subscription s1 c1 u1 = if c = c1 ∧ u = u1 then none else subscription s c1 u1 := by
  rcases UnsubscribeFromChat_cases s s1 c u h with ⟨hn, rfl⟩ | ⟨m, k, ch, hm, hk, _, _, _, hs, _, _⟩
  · by_cases e : c = c1 ∧ u = u1
    · obtain ⟨rfl, rfl⟩ := e
      simp [hn]
    · simp [e]
  · unfold subscription
    rw [hs]
    by_cases hl : (mapDelete m u).length = 0
    · simp only [hl, if_true, mapGet_mapDelete]
      by_cases hc : c = c1
      · subst hc
        simp only [if_true, hm, true_and]
        by_cases hu : u = u1
        · simp [hu]
        · have := mapGet_eq_none_of_nil (mapDelete m u) u1 hl
          rw [mapGet_mapDelete] at this
          simp only [hu, if_false] at this
          simp [hu, this]
      · simp [hc]
    · simp only [hl, if_false, mapGet_mapSet]
      by_cases hc : c = c1
      · subst hc
        simp only [if_true, hm, true_and, mapGet_mapDelete]
      · simp [hc]

theorem BroadcastMessage_chatSubscriptions (s s1 : realtimeService) (c : String) (e : ChatMessage)
    (h : BroadcastMessage s c e = some s1) :
    s1.chatSubscriptions = s.chatSubscriptions ∧ s1.waiting = s.waiting := by
  unfold BroadcastMessage at h
  cases hm : mapGet s.chatSubscriptions c with
  | none =>
    rw [hm] at h
    simp only [Option.some.injEq] at h
    subst h
    exact ⟨rfl, rfl⟩
  | some m =>
    rw [hm] at h
    simp only at h
    cases hb : broadcastLoop c e m s.chans s.spawned with
    | none => simp [hb] at h
    | some r =>
      obtain ⟨chans, sp⟩ := r
      rw [hb] at h
      simp only [Option.some.injEq] at h
      subst h
      exact ⟨rfl, rfl⟩

/-! ## The effect of the operations on the channels -/

theorem getElem?_set_at (l : List Chan) (j : Nat) (ch a : Chan) (h : l[j]? = some ch) :
    (l.set j a)[j]? = some a := by
  obtain ⟨hlt, _⟩ := List.getElem?_eq_some.1 h
  exact List.getElem?_set_self hlt

theorem trySend_open (chans : List Chan) (j : Nat) (e : ChatMessage) (ch : Chan)
    (h : chans[j]? = some ch) (hc : ch.closed = false) :
    trySend chans j e =
      if ch.buf.length < ch.cap then some (chans.set j ⟨ch.buf ++ [e], ch.cap, false⟩, true)
      else some (chans, false) := by
  unfold trySend
  rw [h]
  simp [hc]

/-- A broadcast over distinct open channels does not panic: it appends the message to
every channel with room, leaves a full channel as it is and spawns the goroutine
that unsubscribes its user, and touches no other channel. -/
theorem broadcastLoop_spec (c : String) (e : ChatMessage) :
    ∀ (m : GoMap Nat) (chans : List Chan) (sp : List (String × String)),
    (m.map Prod.snd).Nodup →
    (∀ p ∈ m, ∃ ch, chans[p.2]? = some ch ∧ ch.closed = false) →
    ∃ chans1 sp1, broadcastLoop c e m chans sp = some (chans1, sp1) ∧
      (∀ j, j ∉ m.map Prod.snd → chans1[j]? = chans[j]?) ∧
      (∀ p ∈ m, ∀ ch, chans[p.2]? = some ch →
        (ch.buf.length < ch.cap → chans1[p.2]? = some ⟨ch.buf ++ [e], ch.cap, false⟩) ∧
        (¬ ch.buf.length < ch.cap → chans1[p.2]? = some ch ∧ (c, p.1) ∈ sp1)) ∧
      (∀ x ∈ sp, x ∈ sp1) ∧
      ((∀ p ∈ m, ∀ ch, chans[p.2]? = some ch → ch.buf.length < ch.cap) → sp1 = sp) := by
  intro m
  induction m with
  | nil =>
    intro chans sp _ _
    exact ⟨chans, sp, rfl, fun _ _ => rfl, fun p hp => by simp at hp, fun _ hx => hx,
      fun _ => rfl⟩
  | cons q rest ih =>
    intro chans sp hnd hopen
    obtain ⟨u, j⟩ := q
    simp only [List.map_cons, List.nodup_cons] at hnd
    obtain ⟨hj, hrest⟩ := hnd
    obtain ⟨ch, hch, hcl⟩ := hopen (u, j) (List.mem_cons_self _ _)
    have hne : ∀ p ∈ rest, p.2 ≠ j := by
      intro p hp e1
      exact hj (e1 ▸ List.mem_map.2 ⟨p, hp, rfl⟩)
    by_cases hroom : ch.buf.length < ch.cap
    · -- the send case runs
      have hsend := trySend_open chans j e ch hch hcl
      simp only [hroom, if_true] at hsend
      have hopen1 : ∀ p ∈ rest, ∃ ch1,
          (chans.set j ⟨ch.buf ++ [e], ch.cap, false⟩)[p.2]? = some ch1 ∧ ch1.closed = false := by
        intro p hp
        obtain ⟨ch1, h1, h2⟩ := hopen p (List.mem_cons_of_mem _ hp)
        refine ⟨ch1, ?_, h2⟩
        rw [List.getElem?_set_ne (fun e1 => hne p hp e1.symm)]
        exact h1
      obtain ⟨chans1, sp1, hloop, hA, hB, hC, hD⟩ :=
        ih (chans.set j ⟨ch.buf ++ [e], ch.cap, false⟩) sp hrest hopen1
      refine ⟨chans1, sp1, ?_, ?_, ?_, hC, ?_⟩
      · simp only [broadcastLoop, hsend]
        exact hloop
      · intro i hi
        simp only [List.map_cons, List.mem_cons, not_or] at hi
        rw [hA i hi.2, List.getElem?_set_ne (fun e1 => hi.1 e1.symm)]
      · intro p hp ch0 hch0
        rcases List.mem_cons.1 hp with e1 | hp1
        · subst e1
          simp only at hch0 ⊢
          rw [hch] at hch0
          cases hch0
          refine ⟨fun _ => ?_, fun hn => absurd hroom hn⟩
          rw [hA j hj]
          exact getElem?_set_at chans j ch _ hch
        · have hch1 : (chans.set j ⟨ch.buf ++ [e], ch.cap, false⟩)[p.2]? = some ch0 := by
            rw [List.getElem?_set_ne (fun e1 => hne p hp1 e1.symm)]
            exact hch0
          exact hB p hp1 ch0 hch1
      · intro hall
        apply hD
        intro p hp ch0 hch0
        rw [List.getElem?_set_ne (fun e1 => hne p hp e1.symm)] at hch0
        exact hall p (List.mem_cons_of_mem _ hp) ch0 hch0
    · -- the channel is full: the default case runs
      have hsend := trySend_open chans j e ch hch hcl
      simp only [hroom, if_false] at hsend
      obtain ⟨chans1, sp1, hloop, hA, hB, hC, hD⟩ :=
        ih chans (sp ++ [(c, u)]) hrest (fun p hp => hopen p (List.mem_cons_of_mem _ hp))
      refine ⟨chans1, sp1, ?_, ?_, ?_, ?_, ?_⟩
      · simp only [broadcastLoop, hsend]
        exact hloop
      · intro i hi
        simp only [List.map_cons, List.mem_cons, not_or] at hi
        exact hA i hi.2
      · intro p hp ch0 hch0
        rcases List.mem_cons.1 hp with e1 | hp1
        · subst e1
          simp only at hch0 ⊢
          rw [hch] at hch0
          cases hch0
          refine ⟨fun h => absurd h hroom, fun _ => ⟨?_, hC _ (by simp)⟩⟩
          rw [hA j hj]
          exact hch
        · exact hB p hp1 ch0 hch0
      · intro x hx
        exact hC x (List.mem_append_left _ hx)
      · intro hall
        exact absurd (hall (u, j) (List.mem_cons_self _ _) ch hch) hroom

theorem trySend_pointwise (chans chans1 : List Chan) (j : Nat) (e : ChatMessage) (b : Bool)
    (h : trySend chans j e = some (chans1, b)) :
    chans1.length = chans.length ∧
    ∀ (i : Nat) (ch : Chan), chans[i]? = some ch → ∃ ch1, chans1[i]? = some ch1 ∧
      ch1.closed = ch.closed ∧
      ChanStep ch ch1 := by
  unfold trySend at h
  cases hj : chans[j]? with
  | none =>
    rw [hj] at h
    simp only [Option.some.injEq, Prod.mk.injEq] at h
    obtain ⟨rfl, _⟩ := h
    exact ⟨rfl, fun i ch hi => ⟨ch, hi, rfl, rfl, fun x => x⟩⟩
  | some cj =>
    rw [hj] at h
    simp only at h
    by_cases hcl : cj.closed = true
    · simp [hcl] at h
    · by_cases hroom : cj.buf.length < cj.cap
      · simp only [hcl, hroom, if_true, if_false, Option.some.injEq, Prod.mk.injEq] at h
        obtain ⟨rfl, _⟩ := h
        refine ⟨by simp, fun i ch hi => ?_⟩
        by_cases hij : j = i
        · subst hij
          rw [hj] at hi
          cases hi
          refine ⟨_, getElem?_set_at chans j cj _ hj, ?_, rfl, fun _ => ?_⟩
          · simp only [Bool.not_eq_true] at hcl
            simp [hcl]
          · simp only [List.length_append, List.length_singleton]
            omega
        · exact ⟨ch, by rw [List.getElem?_set_ne hij]; exact hi, rfl, rfl, fun x => x⟩
      · simp only [hcl, hroom, if_false, Option.some.injEq, Prod.mk.injEq] at h
        obtain ⟨rfl, _⟩ := h
        exact ⟨rfl, fun i ch hi => ⟨ch, hi, rfl, rfl, fun x => x⟩⟩

theorem broadcastLoop_pointwise (c : String) (e : ChatMessage) :
    ∀ (m : GoMap Nat) (chans : List Chan) (sp : List (String × String))
      (chans1 : List Chan) (sp1 : List (String × String)),
    broadcastLoop c e m chans sp = some (chans1, sp1) →
    chans1.length = chans.length ∧
    ∀ (i : Nat) (ch : Chan), chans[i]? = some ch → ∃ ch1, chans1[i]? = some ch1 ∧
      ch1.closed = ch.closed ∧
      ChanStep ch ch1 := by
  intro m
  induction m with
  | nil =>
    intro chans sp chans1 sp1 h
    simp only [broadcastLoop, Option.some.injEq, Prod.mk.injEq] at h
    obtain ⟨rfl, _⟩ := h
    exact ⟨rfl, fun i ch hi => ⟨ch, hi, rfl, rfl, fun x => x⟩⟩
  | cons q rest ih =>
    intro chans sp chans1 sp1 h
    obtain ⟨u, j⟩ := q
    simp only [broadcastLoop] at h
    cases ht : trySend chans j e with
    | none => simp [ht] at h
    | some r =>
      obtain ⟨chans2, b⟩ := r
      obtain ⟨hlen, hpt⟩ := trySend_pointwise chans chans2 j e b ht
      rw [ht] at h
      have hrec : ∃ sp2, broadcastLoop c e rest chans2 sp2 = some (chans1, sp1) := by
        cases b
        · exact ⟨_, h⟩
        · exact ⟨_, h⟩
      obtain ⟨sp2, hrec⟩ := hrec
      obtain ⟨hlen1, hpt1⟩ := ih chans2 sp2 chans1 sp1 hrec
      refine ⟨hlen1.trans hlen, fun i ch hi => ?_⟩
      obtain ⟨ch2, h2, hc2, hs2⟩ := hpt i ch hi
      obtain ⟨ch1, h1, hc1, hs1⟩ := hpt1 i ch2 h2
      refine ⟨ch1, h1, hc1.trans hc2, hs1.1.trans hs2.1, fun hle => ?_⟩
      exact hs1.2 (hs2.1 ▸ hs2.2 hle)

/-! ## The invariant holds in every reachable state -/

theorem subscription_congr (s s1 : realtimeService)
    (h : s1.chatSubscriptions = s.chatSubscriptions) (c u : String) :
    subscription s1 c u = subscription s c u := by
  unfold subscription
  rw [h]

theorem Inv_init : Inv NewRealtimeService := by
  refine ⟨?_, ?_, ?_, ?_, ?_⟩ <;> simp [NewRealtimeService, mapGet, subscription]

theorem Inv_of_pointwise (s s1 : realtimeService) (hI : Inv s)
    (hsubs : s1.chatSubscriptions = s.chatSubscriptions)
    (hlen : s1.chans.length = s.chans.length)
    (hpt : ∀ (i : Nat) (ch : Chan), s.chans[i]? = some ch →
      ∃ ch1, s1.chans[i]? = some ch1 ∧ ch1.closed = ch.closed ∧ ChanStep ch ch1) : Inv s1 := by
  refine ⟨?_, ?_, ?_, ?_, ?_⟩
  · intro c m hm
    rw [hsubs] at hm
    exact hI.nonempty c m hm
  · intro c m hm
    rw [hsubs] at hm
    exact hI.keys c m hm
  · intro c u c1 u1 k h1 h2
    rw [subscription_congr s s1 hsubs] at h1 h2
    exact hI.inj c u c1 u1 k h1 h2
  · intro c u k h1
    rw [subscription_congr s s1 hsubs] at h1
    obtain ⟨ch, hch, hcl⟩ := hI.live c u k h1
    obtain ⟨ch1, h2, h3, _⟩ := hpt k ch hch
    exact ⟨ch1, h2, h3.trans hcl⟩
  · intro ch1 hmem
    obtain ⟨i, hi⟩ := List.mem_iff_getElem?.1 hmem
    obtain ⟨hlt, _⟩ := List.getElem?_eq_some.1 hi
    rw [hlen] at hlt
    have hch : s.chans[i]? = some (s.chans[i]) := List.getElem?_eq_getElem hlt
    obtain ⟨ch2, h2, _, h4⟩ := hpt i _ hch
    rw [hi] at h2
    cases h2
    have hb := hI.bounded _ (List.getElem_mem hlt)
    have hcap : ch1.cap = 100 := h4.1.trans hb.1
    refine ⟨hcap, ?_⟩
    have := h4.2 (by omega)
    omega

theorem Inv_SubscribeToChat (s : realtimeService) (ctx : Nat) (c u : String) (hI : Inv s) :
    Inv (SubscribeToChat s ctx c u).1 := by
  have hfresh : ∀ c1 u1, subscription s c1 u1 ≠ some s.chans.length := by
    intro c1 u1 h
    obtain ⟨ch, hch, _⟩ := hI.live c1 u1 _ h
    obtain ⟨hlt, _⟩ := List.getElem?_eq_some.1 hch
    exact Nat.lt_irrefl _ hlt
  refine ⟨?_, ?_, ?_, ?_, ?_⟩
  · intro c1 m hm
    simp only [SubscribeToChat, mapGet_mapSet] at hm
    by_cases hc : c = c1
    · simp only [hc, if_true, Option.some.injEq] at hm
      rw [← hm]
      exact mapSet_ne_nil _ _ _
    · simp only [hc, if_false] at hm
      exact hI.nonempty c1 m hm
  · intro c1 m hm
    simp only [SubscribeToChat, mapGet_mapSet] at hm
    by_cases hc : c = c1
    · simp only [hc, if_true, Option.some.injEq] at hm
      rw [← hm]
      apply mapSet_nodup
      subst hc
      cases hg : mapGet s.chatSubscriptions c with
      | none => simp
      | some m0 => exact hI.keys c m0 hg
    · simp only [hc, if_false] at hm
      exact hI.keys c1 m hm
  · intro c1 u1 c2 u2 k h1 h2
    rw [subscription_SubscribeToChat] at h1 h2
    by_cases e1 : c = c1 ∧ u = u1
    · by_cases e2 : c = c2 ∧ u = u2
      · exact ⟨e1.1.symm.trans e2.1, e1.2.symm.trans e2.2⟩
      · rw [if_pos e1] at h1
        rw [if_neg e2] at h2
        cases h1
        exact absurd h2 (hfresh c2 u2)
    · by_cases e2 : c = c2 ∧ u = u2
      · rw [if_neg e1] at h1
        rw [if_pos e2] at h2
        cases h2
        exact absurd h1 (hfresh c1 u1)
      · rw [if_neg e1] at h1
        rw [if_neg e2] at h2
        exact hI.inj c1 u1 c2 u2 k h1 h2
  · intro c1 u1 k h1
    rw [subscription_SubscribeToChat] at h1
    by_cases e1 : c = c1 ∧ u = u1
    · rw [if_pos e1] at h1
      cases h1
      exact ⟨makeChan, by simp [SubscribeToChat], rfl⟩
    · rw [if_neg e1] at h1
      obtain ⟨ch, hch, hcl⟩ := hI.live c1 u1 k h1
      obtain ⟨hlt, _⟩ := List.getElem?_eq_some.1 hch
      refine ⟨ch, ?_, hcl⟩
      simp only [SubscribeToChat]
      rw [List.getElem?_append_left hlt]
      exact hch
  · intro ch hmem
    simp only [SubscribeToChat, List.mem_append, List.mem_singleton] at hmem
    rcases hmem with h | h
    · exact hI.bounded ch h
    · subst h
      simp [makeChan]

theorem Inv_UnsubscribeFromChat (s s1 : realtimeService) (c u : String) (hI : Inv s)
    (h : UnsubscribeFromChat s c u = some s1) : Inv s1 := by
  have hsub := subscription_UnsubscribeFromChat s s1 c u
  rcases UnsubscribeFromChat_cases s s1 c u h with
    ⟨_, rfl⟩ | ⟨m, k, ch, hm, hk, hch, hcl, hchans, hsubs, _, _⟩
  · exact hI
  have hsk : subscription s c u = some k := by simp [subscription, hm, hk]
  have hold : ∀ c1 u1 k1, subscription s1 c1 u1 = some k1 →
      ¬ (c = c1 ∧ u = u1) ∧ subscription s c1 u1 = some k1 := by
    intro c1 u1 k1 h1
    rw [hsub c1 u1 h] at h1
    by_cases e : c = c1 ∧ u = u1
    · simp [e] at h1
    · simp only [e, if_false] at h1
      exact ⟨e, h1⟩
  refine ⟨?_, ?_, ?_, ?_, ?_⟩
  · intro c1 m1 hm1
    rw [hsubs] at hm1
    by_cases hl : (mapDelete m u).length = 0
    · simp only [hl, if_true, mapGet_mapDelete] at hm1
      by_cases hc : c = c1
      · simp [hc] at hm1
      · simp only [hc, if_false] at hm1
        exact hI.nonempty c1 m1 hm1
    · simp only [hl, if_false, mapGet_mapSet] at hm1
      by_cases hc : c = c1
      · simp only [hc, if_true, Option.some.injEq] at hm1
        subst hm1
        intro hnil
        exact hl (by simp [hnil])
      · simp only [hc, if_false] at hm1
        exact hI.nonempty c1 m1 hm1
  · intro c1 m1 hm1
    rw [hsubs] at hm1
    by_cases hl : (mapDelete m u).length = 0
    · simp only [hl, if_true, mapGet_mapDelete] at hm1
      by_cases hc : c = c1
      · simp [hc] at hm1
      · simp only [hc, if_false] at hm1
        exact hI.keys c1 m1 hm1
    · simp only [hl, if_false, mapGet_mapSet] at hm1
      by_cases hc : c = c1
      · simp only [hc, if_true, Option.some.injEq] at hm1
        subst hm1
        exact mapDelete_nodup m u (hI.keys c m hm)
      · simp only [hc, if_false] at hm1
        exact hI.keys c1 m1 hm1
  · intro c1 u1 c2 u2 k1 h1 h2
    exact hI.inj c1 u1 c2 u2 k1 (hold c1 u1 k1 h1).2 (hold c2 u2 k1 h2).2
  · intro c1 u1 k1 h1
    obtain ⟨hne, h2⟩ := hold c1 u1 k1 h1
    obtain ⟨ch1, hch1, hcl1⟩ := hI.live c1 u1 k1 h2
    refine ⟨ch1, ?_, hcl1⟩
    rw [hchans, List.getElem?_set_ne]
    · exact hch1
    · intro e
      subst e
      exact hne (hI.inj c u c1 u1 k hsk h2)
  · intro ch1 hmem
    rw [hchans] at hmem
    rcases List.mem_or_eq_of_mem_set hmem with h1 | h1
    · exact hI.bounded ch1 h1
    · subst h1
      obtain ⟨hlt, hget⟩ := List.getElem?_eq_some.1 hch
      have := hI.bounded ch (hget ▸ List.getElem_mem hlt)
      exact this

theorem Inv_BroadcastMessage (s s1 : realtimeService) (c : String) (e : ChatMessage)
    (hI : Inv s) (h : BroadcastMessage s c e = some s1) : Inv s1 := by
  unfold BroadcastMessage at h
  cases hm : mapGet s.chatSubscriptions c with
  | none =>
    rw [hm] at h
    simp only [Option.some.injEq] at h
    exact h ▸ hI
  | some m =>
    rw [hm] at h
    simp only at h
    cases hb : broadcastLoop c e m s.chans s.spawned with
    | none => simp [hb] at h
    | some r =>
      obtain ⟨chans, sp⟩ := r
      rw [hb] at h
      simp only [Option.some.injEq] at h
      subst h
      obtain ⟨hlen, hpt⟩ := broadcastLoop_pointwise c e m s.chans s.spawned chans sp hb
      exact Inv_of_pointwise s _ hI rfl hlen hpt

theorem Inv_recvChan (s : realtimeService) (c : Nat) (hI : Inv s) : Inv (recvChan s c) := by
  unfold recvChan
  cases hc : s.chans[c]? with
  | none => exact hI
  | some ch =>
    refine Inv_of_pointwise s _ hI rfl (by simp) (fun i ch0 hi => ?_)
    by_cases hci : c = i
    · subst hci
      rw [hc] at hi
      cases hi
      refine ⟨_, getElem?_set_at s.chans c ch _ hc, rfl, rfl, fun hle => ?_⟩
      simp only [List.length_tail]
      omega
    · exact ⟨ch0, by simp only [List.getElem?_set_ne hci]; exact hi, rfl, rfl, fun x => x⟩

theorem Inv_step (s s1 : realtimeService) (op : Op) (hI : Inv s) (h : step s op = some s1) :
    Inv s1 := by
  cases op with
  | subscribe ctx c u =>
    simp only [step, Option.some.injEq] at h
    exact h ▸ Inv_SubscribeToChat s ctx c u hI
  | unsubscribe c u => exact Inv_UnsubscribeFromChat s s1 c u hI h
  | broadcast c e => exact Inv_BroadcastMessage s s1 c e hI h
  | spawned i =>
    simp only [step, runSpawned] at h
    cases hs : s.spawned[i]? with
    | none =>
      rw [hs] at h
      simp only [Option.some.injEq] at h
      exact h ▸ hI
    | some p =>
      obtain ⟨c, u⟩ := p
      rw [hs] at h
      simp only at h
      refine Inv_UnsubscribeFromChat _ s1 c u ?_ h
      exact Inv_of_pointwise s _ hI rfl rfl (fun i ch hi => ⟨ch, hi, rfl, rfl, fun x => x⟩)
  | done ctx =>
    simp only [step, Option.some.injEq] at h
    subst h
    exact Inv_of_pointwise s _ hI rfl rfl (fun i ch hi => ⟨ch, hi, rfl, rfl, fun x => x⟩)
  | recv c =>
    simp only [step, Option.some.injEq] at h
    exact h ▸ Inv_recvChan s c hI

theorem Inv_of_Reachable (s : realtimeService) (h : Reachable s) : Inv s := by
  induction h with
  | init => exact Inv_init
  | step op _ hstep ih => exact Inv_step _ _ op ih hstep

theorem Reachable_run (s s1 : realtimeService) (ops : List Op) (h : Reachable s)
    (hr : run s ops = some s1) : Reachable s1 := by
  induction ops generalizing s with
  | nil =>
    simp only [run, Option.some.injEq] at hr
    exact hr ▸ h
  | cons op ops ih =>
    simp only [run] at hr
    cases hs : step s op with
    | none => simp [hs] at hr
    | some s2 =>
      rw [hs] at hr
      exact ih s2 (Reachable.step op h hs) hr

/-! ## Broadcasts in a state that satisfies the invariant -/

theorem Inv_values_nodup (s : realtimeService) (hI : Inv s) (c : String) (m : GoMap Nat)
    (hm : mapGet s.chatSubscriptions c = some m) : (m.map Prod.snd).Nodup := by
  have hk := hI.keys c m hm
  refine List.Nodup.map_on ?_ (List.Nodup.of_map Prod.fst hk)
  intro p hp q hq hpq
  have h1 : subscription s c p.1 = some p.2 := by
    simp [subscription, hm, mapGet_of_mem m p.1 p.2 hk hp]
  have h2 : subscription s c q.1 = some p.2 := by
    simp [subscription, hm, mapGet_of_mem m q.1 q.2 hk hq, hpq]
  exact Prod.ext (hI.inj c p.1 c q.1 p.2 h1 h2).2 hpq

/-- One broadcast in a state that satisfies the invariant. -/
theorem BroadcastMessage_spec (s : realtimeService) (hI : Inv s) (c : String) (e : ChatMessage) :
    ∃ s1, BroadcastMessage s c e = some s1 ∧
      s1.chatSubscriptions = s.chatSubscriptions ∧ s1.waiting = s.waiting ∧
      (∀ k : Nat, (∀ u, subscription s c u ≠ some k) → s1.chans[k]? = s.chans[k]?) ∧
      (∀ u k ch, subscription s c u = some k → s.chans[k]? = some ch →
        (ch.buf.length < ch.cap → s1.chans[k]? = some ⟨ch.buf ++ [e], ch.cap, false⟩) ∧
        (¬ ch.buf.length < ch.cap → s1.chans[k]? = some ch ∧ (c, u) ∈ s1.spawned)) ∧
      (∀ x ∈ s.spawned, x ∈ s1.spawned) ∧
      ((∀ u k ch, subscription s c u = some k → s.chans[k]? = some ch →
        ch.buf.length < ch.cap) → s1.spawned = s.spawned) := by
  cases hm : mapGet s.chatSubscriptions c with
  | none =>
    have hno : ∀ u, subscription s c u = none := fun u => by simp [subscription, hm]
    refine ⟨s, by simp [BroadcastMessage, hm], rfl, rfl, fun _ _ => rfl, ?_, fun _ hx => hx,
      fun _ => rfl⟩
    intro u k ch hsub
    rw [hno u] at hsub
    cases hsub
  | some m =>
    have hk := hI.keys c m hm
    have hsubm : ∀ u k, subscription s c u = some k ↔ (u, k) ∈ m := by
      intro u k
      simp only [subscription, hm]
      exact ⟨mem_of_mapGet m u k, mapGet_of_mem m u k hk⟩
    have hopen : ∀ p ∈ m, ∃ ch, s.chans[p.2]? = some ch ∧ ch.closed = false :=
      fun p hp => hI.live c p.1 p.2 ((hsubm p.1 p.2).2 hp)
    obtain ⟨chans1, sp1, hloop, hA, hB, hC, hD⟩ :=
      broadcastLoop_spec c e m s.chans s.spawned (Inv_values_nodup s hI c m hm) hopen
    refine ⟨⟨chans1, s.chatSubscriptions, s.waiting, sp1⟩, by simp [BroadcastMessage, hm, hloop],
      rfl, rfl, ?_, ?_, hC, ?_⟩
    · intro k hk1
      apply hA
      intro hmem
      obtain ⟨p, hp, rfl⟩ := List.mem_map.1 hmem
      exact hk1 p.1 ((hsubm p.1 p.2).2 hp)
    · intro u k ch hsub hch
      exact hB (u, k) ((hsubm u k).1 hsub) ch hch
    · intro hall
      apply hD
      intro p hp ch hch
      exact hall p.1 p.2 ch ((hsubm p.1 p.2).2 hp) hch

/-- Successive broadcasts to one chat whose queues all have room for them. -/
theorem broadcastAll_spec (c : String) (es : List ChatMessage) :
    ∀ (s : realtimeService), Inv s →
    (∀ u k ch, subscription s c u = some k → s.chans[k]? = some ch →
      ch.buf.length + es.length ≤ ch.cap) →
    ∃ s1, broadcastAll c s es = some s1 ∧ Inv s1 ∧
      s1.chatSubscriptions = s.chatSubscriptions ∧ s1.spawned = s.spawned ∧
      (∀ u k ch, subscription s c u = some k → s.chans[k]? = some ch →
        s1.chans[k]? = some ⟨ch.buf ++ es, ch.cap, false⟩) ∧
      (∀ k : Nat, (∀ u, subscription s c u ≠ some k) → s1.chans[k]? = s.chans[k]?) := by
  induction es with
  | nil =>
    intro s hI _
    refine ⟨s, rfl, hI, rfl, rfl, ?_, fun _ _ => rfl⟩
    intro u k ch hsub hch
    obtain ⟨ch1, hch1, hcl⟩ := hI.live c u k hsub
    rw [hch] at hch1
    cases hch1
    rw [hch, List.append_nil, ← hcl]
  | cons e es ih =>
    intro s hI hroom
    obtain ⟨s1, hb, hsubs, _, hA, hB, _, hD⟩ := BroadcastMessage_spec s hI c e
    have hlt : ∀ u k ch, subscription s c u = some k → s.chans[k]? = some ch →
        ch.buf.length < ch.cap := by
      intro u k ch hsub hch
      have := hroom u k ch hsub hch
      simp only [List.length_cons] at this
      omega
    have hI1 := Inv_BroadcastMessage s s1 c e hI hb
    have hsame : ∀ u, subscription s1 c u = subscription s c u :=
      fun u => subscription_congr s s1 hsubs c u
    have hroom1 : ∀ u k ch, subscription s1 c u = some k → s1.chans[k]? = some ch →
        ch.buf.length + es.length ≤ ch.cap := by
      intro u k ch1 hsub hch1
      rw [hsame u] at hsub
      obtain ⟨ch, hch, _⟩ := hI.live c u k hsub
      have h1 := (hB u k ch hsub hch).1 (hlt u k ch hsub hch)
      rw [hch1] at h1
      cases h1
      have := hroom u k ch hsub hch
      simp only [List.length_cons, List.length_append, List.length_nil] at this ⊢
      omega
    obtain ⟨s2, hall, hI2, hsubs2, hsp2, hA2, hB2⟩ := ih s1 hI1 hroom1
    refine ⟨s2, by simp [broadcastAll, hb, hall], hI2, hsubs2.trans hsubs,
      hsp2.trans (hD hlt), ?_, ?_⟩
    · intro u k ch hsub hch
      have h1 := (hB u k ch hsub hch).1 (hlt u k ch hsub hch)
      have h2 := hA2 u k _ ((hsame u).trans hsub) h1
      rw [h2]
      simp
    · intro k hk1
      rw [hB2 k (fun u => by rw [hsame u]; exact hk1 u), hA k hk1]

/-- Broadcasts to any chats do not touch a channel that is not registered. -/
theorem broadcasts_unregistered (k : Nat) (bs : List (String × ChatMessage)) :
    ∀ (s s3 : realtimeService), Inv s → (∀ c u, subscription s c u ≠ some k) →
    run s (bs.map (fun b => Op.broadcast b.1 b.2)) = some s3 →
    s3.chans[k]? = s.chans[k]? ∧ ∀ c u, subscription s3 c u = subscription s c u := by
  induction bs with
  | nil =>
    intro s s3 _ _ h
    simp only [List.map_nil, run, Option.some.injEq] at h
    subst h
    exact ⟨rfl, fun _ _ => rfl⟩
  | cons b bs ih =>
    intro s s3 hI hun h
    simp only [List.map_cons, run, step] at h
    obtain ⟨s1, hb, hsubs, _, hA, _, _, _⟩ := BroadcastMessage_spec s hI b.1 b.2
    rw [hb] at h
    simp only at h
    have hsame : ∀ c u, subscription s1 c u = subscription s c u :=
      fun c u => subscription_congr s s1 hsubs c u
    obtain ⟨h1, h2⟩ := ih s1 s3 (Inv_BroadcastMessage s s1 b.1 b.2 hI hb)
      (fun c u => by rw [hsame c u]; exact hun c u) h
    exact ⟨h1.trans (hA k (hun b.1)), fun c u => (h2 c u).trans (hsame c u)⟩

/-! ## The claims on the registry -/

theorem UnsubscribeFromChat_total (s : realtimeService) (c u : String) (hI : Inv s) :
    ∃ s1, UnsubscribeFromChat s c u = some s1 := by
  cases hs : subscription s c u with
  | none => exact ⟨s, UnsubscribeFromChat_absent s c u hs⟩
  | some k =>
    obtain ⟨ch, hch, hcl⟩ := hI.live c u k hs
    unfold subscription at hs
    unfold UnsubscribeFromChat
    cases hm : mapGet s.chatSubscriptions c with
    | none => simp [hm] at hs
    | some m =>
      rw [hm] at hs
      simp only at hs
      simp only [hs, closeChan, hch, hcl]
      by_cases hl : (mapDelete m u).length = 0 <;> simp [hl]

/-- C1, the code at the failing input: subscribing the pair ("c1", "u1") a second time
installs a second queue and leaves the first queue open, so two open queues exist
for the pair; the first queue is never closed by `SubscribeToChat`. -/
theorem C1_resubscribe_leaves_previous_queue_open :
    subscription (SubscribeToChat NewRealtimeService 0 "c1" "u1").1 "c1" "u1" = some 0 ∧
    (SubscribeToChat (SubscribeToChat NewRealtimeService 0 "c1" "u1").1 1 "c1" "u1").2 = 1 ∧
    subscription (SubscribeToChat (SubscribeToChat NewRealtimeService 0 "c1" "u1").1 1 "c1" "u1").1
      "c1" "u1" = some 1 ∧
    (SubscribeToChat (SubscribeToChat NewRealtimeService 0 "c1" "u1").1 1 "c1" "u1").1.chans
      = [⟨[], 100, false⟩, ⟨[], 100, false⟩] := by
  decide

/-- C2: `UnsubscribeFromChat` on a pair that is not registered changes nothing, a second
call in a row changes nothing more (the state after two calls is the state after
one), and in every reachable state the call returns, so the queue is closed once. -/
theorem C2_UnsubscribeFromChat_idempotent (s : realtimeService) (c u : String) :
    (subscription s c u = none → UnsubscribeFromChat s c u = some s) ∧
    ((UnsubscribeFromChat s c u).bind (fun s1 => UnsubscribeFromChat s1 c u)
      = UnsubscribeFromChat s c u) ∧
    (Reachable s → ∃ s1, UnsubscribeFromChat s c u = some s1 ∧
      UnsubscribeFromChat s1 c u = some s1) := by
  have hsecond : ∀ s1, UnsubscribeFromChat s c u = some s1 →
      UnsubscribeFromChat s1 c u = some s1 := by
    intro s1 h
    apply UnsubscribeFromChat_absent
    rw [subscription_UnsubscribeFromChat s s1 c u c u h]
    simp
  refine ⟨UnsubscribeFromChat_absent s c u, ?_, ?_⟩
  · cases h : UnsubscribeFromChat s c u with
    | none => rfl
    | some s1 => simpa using hsecond s1 h
  · intro hr
    obtain ⟨s1, h1⟩ := UnsubscribeFromChat_total s c u (Inv_of_Reachable s hr)
    exact ⟨s1, h1, hsecond s1 h1⟩

theorem C2_UnsubscribeFromChat_idempotent_witness :
    subscription NewRealtimeService "c1" "u1" = none ∧
    UnsubscribeFromChat NewRealtimeService "c1" "u1" = some NewRealtimeService :=
  ⟨by decide, (C2_UnsubscribeFromChat_idempotent NewRealtimeService "c1" "u1").1 (by decide)⟩

/-- C3: in every reachable state a chat id is a key of the registry exactly when some
user is subscribed to it (equivalently `GetSubscriberCount` is at least 1), no chat
entry holds an empty subscriber map, and unsubscribing the last subscriber of a chat
removes the chat entry. -/
theorem C3_chat_entry_iff_subscriber (s : realtimeService) (h : Reachable s) (c : String) :
    ((mapGet s.chatSubscriptions c).isSome = true ↔ ∃ u, isSubscribed s c u = true) ∧
    ((mapGet s.chatSubscriptions c).isSome = true ↔ 1 ≤ GetSubscriberCount s c) ∧
    (∀ m, mapGet s.chatSubscriptions c = some m → m ≠ []) ∧
    (∀ u, isSubscribed s c u = true → GetSubscriberCount s c = 1 →
      ∃ s1, UnsubscribeFromChat s c u = some s1 ∧ mapGet s1.chatSubscriptions c = none) := by
  have hI := Inv_of_Reachable s h
  refine ⟨?_, ?_, hI.nonempty c, ?_⟩
  · constructor
    · intro hk
      cases hm : mapGet s.chatSubscriptions c with
      | none => simp [hm] at hk
      | some m =>
        cases m with
        | nil => exact absurd rfl (hI.nonempty c [] hm)
        | cons p rest =>
          refine ⟨p.1, ?_⟩
          simp [isSubscribed, subscription, hm, mapGet_head]
    · rintro ⟨u, hu⟩
      unfold isSubscribed subscription at hu
      cases hm : mapGet s.chatSubscriptions c with
      | none => simp [hm] at hu
      | some m => rfl
  · unfold GetSubscriberCount
    cases hm : mapGet s.chatSubscriptions c with
    | none => simp
    | some m =>
      have := hI.nonempty c m hm
      cases m with
      | nil => exact absurd rfl this
      | cons p rest => simp
  · intro u hu hcount
    obtain ⟨s1, h1⟩ := UnsubscribeFromChat_total s c u hI
    refine ⟨s1, h1, ?_⟩
    unfold isSubscribed at hu
    rcases UnsubscribeFromChat_cases s s1 c u h1 with
      ⟨hn, _⟩ | ⟨m, k, ch, hm, hk, _, _, _, hsubs, _, _⟩
    · simp [hn] at hu
    · unfold GetSubscriberCount at hcount
      rw [hm] at hcount
      simp only at hcount
      obtain ⟨p, rfl⟩ := List.length_eq_one.1 hcount
      obtain ⟨a, w⟩ := p
      have ha : a = u := by
        by_contra hne
        simp [mapGet, hne] at hk
      subst ha
      have hl : (mapDelete [(a, w)] a).length = 0 := by simp [mapDelete]
      rw [hsubs, if_pos hl, mapGet_mapDelete]
      simp

theorem C3_chat_entry_iff_subscriber_witness :
    ((mapGet (SubscribeToChat NewRealtimeService 0 "c1" "u1").1.chatSubscriptions "c1").isSome
        = true ↔ ∃ u, isSubscribed (SubscribeToChat NewRealtimeService 0 "c1" "u1").1 "c1" u
        = true) :=
  (C3_chat_entry_iff_subscriber (SubscribeToChat NewRealtimeService 0 "c1" "u1").1
    (Reachable.step (.subscribe 0 "c1" "u1") Reachable.init rfl) "c1").1

/-- C6: a broadcast to a chat without subscribers returns and leaves the whole service
state (the registry and every queue) as it was. -/
theorem C6_broadcast_without_subscribers (s : realtimeService) (c : String) (e : ChatMessage)
    (h : GetSubscriberCount s c = 0) : BroadcastMessage s c e = some s := by
  unfold GetSubscriberCount at h
  unfold BroadcastMessage
  cases hm : mapGet s.chatSubscriptions c with
  | none => rfl
  | some m =>
    rw [hm] at h
    simp only at h
    have : m = [] := List.length_eq_zero.1 h
    subst this
    rfl

theorem C6_broadcast_without_subscribers_witness :
    (UnsubscribeFromChat (SubscribeToChat NewRealtimeService 0 "c1" "u1").1 "c1" "u1").bind
      (fun s => BroadcastMessage s "c1" ⟨"m2", "c1", "u2", "bob", "hi", 0, "SENT", .MessageTypeNew⟩)
    = UnsubscribeFromChat (SubscribeToChat NewRealtimeService 0 "c1" "u1").1 "c1" "u1" := by
  have h := C6_broadcast_without_subscribers
    ⟨[⟨[], 100, true⟩], [], [(0, "c1", "u1")], []⟩ "c1"
    ⟨"m2", "c1", "u2", "bob", "hi", 0, "SENT", .MessageTypeNew⟩ (by decide)
  have hu : UnsubscribeFromChat (SubscribeToChat NewRealtimeService 0 "c1" "u1").1 "c1" "u1"
      = some ⟨[⟨[], 100, true⟩], [], [(0, "c1", "u1")], []⟩ := by decide
  rw [hu]
  exact h

/-- C8: `SubscribeToChat` returns a fresh channel (not allocated before) that is empty,
open, of capacity 100 and registered for the pair; in every reachable state each
registered queue has capacity 100 and holds at most 100 messages; and after
`BroadcastMessage` no queue is longer than 100. -/
theorem C8_queue_capacity (s : realtimeService) (h : Reachable s) :
    (∀ ctx c u, s.chans[(SubscribeToChat s ctx c u).2]? = none ∧
      (SubscribeToChat s ctx c u).1.chans[(SubscribeToChat s ctx c u).2]? = some ⟨[], 100, false⟩ ∧
      subscription (SubscribeToChat s ctx c u).1 c u = some (SubscribeToChat s ctx c u).2) ∧
    (∀ c u k ch, subscription s c u = some k → s.chans[k]? = some ch →
      ch.cap = 100 ∧ ch.buf.length ≤ 100) ∧
    (∀ c e s1, BroadcastMessage s c e = some s1 → ∀ ch ∈ s1.chans, ch.buf.length ≤ 100) := by
  have hI := Inv_of_Reachable s h
  refine ⟨?_, ?_, ?_⟩
  · intro ctx c u
    refine ⟨?_, ?_, ?_⟩
    · simp [SubscribeToChat]
    · simp [SubscribeToChat, makeChan]
    · rw [subscription_SubscribeToChat]
      simp [SubscribeToChat]
  · intro c u k ch _ hch
    exact hI.bounded ch (List.mem_iff_getElem?.2 ⟨k, hch⟩)
  · intro c e s1 hb ch hmem
    exact ((Inv_BroadcastMessage s s1 c e hI hb).bounded ch hmem).2

theorem C8_queue_capacity_witness :
    Reachable (SubscribeToChat NewRealtimeService 0 "c1" "u1").1 ∧
    (SubscribeToChat (SubscribeToChat NewRealtimeService 0 "c1" "u1").1 1 "c1" "u2").1.chans[
      (SubscribeToChat (SubscribeToChat NewRealtimeService 0 "c1" "u1").1 1 "c1" "u2").2]?
      = some ⟨[], 100, false⟩ :=
  ⟨Reachable.step (.subscribe 0 "c1" "u1") Reachable.init rfl,
   ((C8_queue_capacity (SubscribeToChat NewRealtimeService 0 "c1" "u1").1
      (Reachable.step (.subscribe 0 "c1" "u1") Reachable.init rfl)).1 1 "c1" "u2").2.1⟩

theorem run_twoSubscribersOps : run NewRealtimeService twoSubscribersOps = some twoSubscribers := by
  decide

theorem run_fullQueueOps : run NewRealtimeService fullQueueOps = some fullQueue := by
  decide

/-- C4: in a reachable state, when every queue of the chat has room for `e1 .. ek`, the
broadcasts `e1 .. ek` all return, evict nobody, and leave each subscriber's queue equal
to its previous contents followed by `e1 .. ek` in the order of the broadcasts; the
queues of other chats are untouched. -/
theorem C4_broadcast_delivers_in_order (s : realtimeService) (h : Reachable s) (c : String)
    (es : List ChatMessage)
    (hroom : ∀ u k ch, subscription s c u = some k → s.chans[k]? = some ch →
      ch.buf.length + es.length ≤ 100) :
    ∃ s1, broadcastAll c s es = some s1 ∧
      s1.chatSubscriptions = s.chatSubscriptions ∧ s1.spawned = s.spawned ∧
      (∀ u k, subscription s c u = some k →
        ∃ ch, s.chans[k]? = some ch ∧ s1.chans[k]? = some ⟨ch.buf ++ es, 100, false⟩) ∧
      (∀ k : Nat, (∀ u, subscription s c u ≠ some k) → s1.chans[k]? = s.chans[k]?) := by
  have hI := Inv_of_Reachable s h
  have hcap : ∀ (k : Nat) (ch : Chan), s.chans[k]? = some ch → ch.cap = 100 :=
    fun k ch hch => (hI.bounded ch (List.mem_iff_getElem?.2 ⟨k, hch⟩)).1
  obtain ⟨s1, hall, _, hsubs, hsp, hA, hB⟩ := broadcastAll_spec c es s hI (by
    intro u k ch hsub hch
    rw [hcap k ch hch]
    exact hroom u k ch hsub hch)
  refine ⟨s1, hall, hsubs, hsp, ?_, hB⟩
  intro u k hsub
  obtain ⟨ch, hch, _⟩ := hI.live c u k hsub
  refine ⟨ch, hch, ?_⟩
  rw [hA u k ch hsub hch, hcap k ch hch]

theorem C4_broadcast_delivers_in_order_witness :
    Reachable twoSubscribers ∧
    ∃ s1, broadcastAll "c1" twoSubscribers [env1, env2] = some s1 ∧
      s1.chans[0]? = some ⟨[env1, env2], 100, false⟩ ∧
      s1.chans[1]? = some ⟨[env1, env2], 100, false⟩ := by
  have hr : Reachable twoSubscribers :=
    Reachable_run _ _ _ Reachable.init run_twoSubscribersOps
  refine ⟨hr, ?_⟩
  obtain ⟨s1, h1, _, _, h2, _⟩ := C4_broadcast_delivers_in_order twoSubscribers hr "c1"
    [env1, env2] (by
      intro u k ch _ hch
      have hmem : ch ∈ twoSubscribers.chans := List.mem_iff_getElem?.2 ⟨k, hch⟩
      simp only [twoSubscribers, List.mem_cons, List.mem_singleton, List.not_mem_nil,
        or_false, or_self] at hmem
      subst hmem
      decide)
  refine ⟨s1, h1, ?_, ?_⟩
  · obtain ⟨ch, hch, hres⟩ := h2 "u1" 0 (by decide)
    have : ch = makeChan := by
      have h0 : twoSubscribers.chans[0]? = some makeChan := by decide
      rw [h0] at hch
      exact (Option.some.inj hch).symm
    subst this
    exact hres
  · obtain ⟨ch, hch, hres⟩ := h2 "u2" 1 (by decide)
    have : ch = makeChan := by
      have h0 : twoSubscribers.chans[1]? = some makeChan := by decide
      rw [h0] at hch
      exact (Option.some.inj hch).symm
    subst this
    exact hres

/-- C5: in a reachable state in which the queue of subscriber `u` of chat `c` holds 100
envelopes, `BroadcastMessage` to `c` returns, leaves that queue as it was (the envelope
is not enqueued on it), spawns the goroutine that calls `UnsubscribeFromChat(c, u)`,
and appends the envelope to the queue of every subscriber of `c` that has room.  A
broadcast that follows at once finds the queue still full and enqueues nothing on it.
When the spawned goroutine runs, the queue of `u` is closed and its entry removed, and
no later broadcast to any chat enqueues on it or registers the pair again. -/
theorem C5_full_queue_is_evicted (s : realtimeService) (h : Reachable s) (c u : String)
    (k : Nat) (ch : Chan) (e : ChatMessage)
    (hsub : subscription s c u = some k) (hch : s.chans[k]? = some ch)
    (hfull : ch.buf.length = 100) :
    ∃ s1, BroadcastMessage s c e = some s1 ∧
      s1.chans[k]? = some ch ∧ s1.chatSubscriptions = s.chatSubscriptions ∧
      (∀ v j cj, subscription s c v = some j → s.chans[j]? = some cj → cj.buf.length < 100 →
        s1.chans[j]? = some ⟨cj.buf ++ [e], 100, false⟩) ∧
      (∀ e2 s1b, BroadcastMessage s1 c e2 = some s1b → s1b.chans[k]? = some ch) ∧
      ∃ i, s1.spawned[i]? = some (c, u) ∧
      ∃ s2, runSpawned s1 i = some s2 ∧
        subscription s2 c u = none ∧ s2.chans[k]? = some ⟨ch.buf, 100, true⟩ ∧
        ∀ (bs : List (String × ChatMessage)) (s3 : realtimeService),
          run s2 (bs.map (fun b => Op.broadcast b.1 b.2)) = some s3 →
          s3.chans[k]? = some ⟨ch.buf, 100, true⟩ ∧ subscription s3 c u = none := by
  have hI := Inv_of_Reachable s h
  have hcap : ∀ (j : Nat) (cj : Chan), s.chans[j]? = some cj → cj.cap = 100 :=
    fun j cj hj => (hI.bounded cj (List.mem_iff_getElem?.2 ⟨j, hj⟩)).1
  obtain ⟨s1, hb, hsubs, _, _, hB, _, _⟩ := BroadcastMessage_spec s hI c e
  have hnot : ¬ ch.buf.length < ch.cap := by
    rw [hcap k ch hch, hfull]
    exact Nat.lt_irrefl _
  obtain ⟨hkeep, hsp⟩ := (hB u k ch hsub hch).2 hnot
  obtain ⟨i, hi⟩ := List.mem_iff_getElem?.1 hsp
  have hI1 := Inv_BroadcastMessage s s1 c e hI hb
  have hsub1 : subscription s1 c u = some k := (subscription_congr s s1 hsubs c u).trans hsub
  -- the state in which the spawned goroutine runs
  have hIr : Inv ⟨s1.chans, s1.chatSubscriptions, s1.waiting, s1.spawned.eraseIdx i⟩ :=
    Inv_of_pointwise s1 _ hI1 rfl rfl (fun i ch hi => ⟨ch, hi, rfl, rfl, fun x => x⟩)
  obtain ⟨s2, hun⟩ := UnsubscribeFromChat_total
    ⟨s1.chans, s1.chatSubscriptions, s1.waiting, s1.spawned.eraseIdx i⟩ c u hIr
  have hrun : runSpawned s1 i = some s2 := by simp [runSpawned, hi, hun]
  have hI2 := Inv_UnsubscribeFromChat
    ⟨s1.chans, s1.chatSubscriptions, s1.waiting, s1.spawned.eraseIdx i⟩ s2 c u hIr hun
  have hsub2 : ∀ c1 u1, subscription s2 c1 u1 =
      if c = c1 ∧ u = u1 then none else subscription s1 c1 u1 :=
    fun c1 u1 => subscription_UnsubscribeFromChat
      ⟨s1.chans, s1.chatSubscriptions, s1.waiting, s1.spawned.eraseIdx i⟩ s2 c u c1 u1 hun
  have hgone : subscription s2 c u = none := by simp [hsub2]
  have hclosed : s2.chans[k]? = some ⟨ch.buf, 100, true⟩ := by
    rcases UnsubscribeFromChat_cases
        ⟨s1.chans, s1.chatSubscriptions, s1.waiting, s1.spawned.eraseIdx i⟩ s2 c u hun with
      ⟨hn, _⟩ | ⟨m, k1, ch1, hm, hk1, hch1, _, hchans, _, _, _⟩
    · have : subscription s1 c u = none := hn
      rw [hsub1] at this
      cases this
    · have hk : subscription s1 c u = some k1 := by
        simp only [subscription]
        simp only at hm
        rw [hm]
        exact hk1
      rw [hsub1] at hk
      cases hk
      simp only at hch1 hchans
      rw [hkeep] at hch1
      cases hch1
      rw [hchans, getElem?_set_at s1.chans k ch _ hkeep, hcap k ch hch]
  have hunreg : ∀ c1 u1, subscription s2 c1 u1 ≠ some k := by
    intro c1 u1 h2
    rw [hsub2] at h2
    by_cases e1 : c = c1 ∧ u = u1
    · rw [if_pos e1] at h2
      cases h2
    · rw [if_neg e1] at h2
      exact e1 (hI1.inj c u c1 u1 k hsub1 h2)
  refine ⟨s1, hb, hkeep, hsubs, ?_, ?_, i, hi, s2, hrun, hgone, hclosed, ?_⟩
  · intro v j cj hv hj hlt
    have := (hB v j cj hv hj).1 (by rw [hcap j cj hj]; exact hlt)
    rw [this, hcap j cj hj]
  · intro e2 s1b hb2
    obtain ⟨s1c, hb3, _, _, _, hB3, _, _⟩ := BroadcastMessage_spec s1 hI1 c e2
    rw [hb2] at hb3
    cases hb3
    exact ((hB3 u k ch hsub1 hkeep).2 hnot).1
  · intro bs s3 hrun3
    obtain ⟨h1, h2⟩ := broadcasts_unregistered k bs s2 s3 hI2 hunreg hrun3
    exact ⟨h1.trans hclosed, (h2 c u).trans hgone⟩

theorem C5_full_queue_is_evicted_witness :
    Reachable fullQueue ∧
    ∃ s1, BroadcastMessage fullQueue "c1" env2 = some s1 ∧
      s1.chans[0]? = some ⟨List.replicate 100 env1, 100, false⟩ ∧
      s1.chans[1]? = some ⟨[env2], 100, false⟩ := by
  have hr : Reachable fullQueue := Reachable_run _ _ _ Reachable.init run_fullQueueOps
  refine ⟨hr, ?_⟩
  obtain ⟨s1, h1, h2, _, h3, _, _⟩ := C5_full_queue_is_evicted fullQueue hr "c1" "u1" 0
    ⟨List.replicate 100 env1, 100, false⟩ env2 (by decide) (by decide) (by simp)
  exact ⟨s1, h1, h2, h3 "u2" 1 makeChan (by decide) (by decide) (by decide)⟩

/-- The net count of effective calls is the change of the registry's view. -/
theorem netEffectiveCalls_spec (c u : String) (calls : List Call) :
    ∀ (s : realtimeService), Inv s →
    ∃ s1, runCalls c u s calls = some s1 ∧ Inv s1 ∧
      netEffectiveCalls c u s calls =
        (if isSubscribed s1 c u then 1 else 0) - (if isSubscribed s c u then 1 else 0) := by
  induction calls with
  | nil =>
    intro s hI
    exact ⟨s, rfl, hI, by simp [netEffectiveCalls]⟩
  | cons call rest ih =>
    intro s hI
    cases call with
    | subscribe ctx =>
      obtain ⟨s1, hrun, hI1, hnet⟩ :=
        ih (SubscribeToChat s ctx c u).1 (Inv_SubscribeToChat s ctx c u hI)
      have hsub : isSubscribed (SubscribeToChat s ctx c u).1 c u = true := by
        simp [isSubscribed, subscription_SubscribeToChat]
      refine ⟨s1, ?_, hI1, ?_⟩
      · simpa [runCalls, run, step, Call.toOp] using hrun
      · simp only [netEffectiveCalls, hnet, hsub, if_true]
        by_cases hs : isSubscribed s c u = true <;>
          by_cases hs1 : isSubscribed s1 c u = true <;> simp [hs, hs1]
    | unsubscribe =>
      obtain ⟨s0, hun⟩ := UnsubscribeFromChat_total s c u hI
      obtain ⟨s1, hrun, hI1, hnet⟩ := ih s0 (Inv_UnsubscribeFromChat s s0 c u hI hun)
      have hsub : isSubscribed s0 c u = false := by
        simp [isSubscribed, subscription_UnsubscribeFromChat s s0 c u c u hun]
      refine ⟨s1, ?_, hI1, ?_⟩
      · simpa [runCalls, run, step, Call.toOp, hun] using hrun
      · simp only [netEffectiveCalls, hun, hnet, hsub]
        by_cases hs : isSubscribed s c u = true <;>
          by_cases hs1 : isSubscribed s1 c u = true <;> simp [hs, hs1]

/-- C7, the claim as stated fails: after two Subscribe calls on one key the pair is
subscribed, while the net count of the claim is 2, which is even. -/
theorem C7_net_parity_fails_on_resubscribe :
    (runCalls "c1" "u1" NewRealtimeService [.subscribe 0, .subscribe 1]).map
      (fun s => isSubscribed s "c1" "u1") = some true ∧
    netCalls "c1" "u1" NewRealtimeService [.subscribe 0, .subscribe 1] = 2 ∧
    ¬ (netCalls "c1" "u1" NewRealtimeService [.subscribe 0, .subscribe 1] % 2 = 1) := by
  decide

/-- C7, amended: every finite sequence of Subscribe and Unsubscribe calls on one key,
started on the empty registry, runs to a state in which the pair is subscribed exactly
when the net count is odd, where neither an Unsubscribe call made while the pair is not
subscribed nor a Subscribe call made while it is already subscribed is counted. -/
theorem C7_subscribed_iff_effective_net_odd (c u : String) (calls : List Call) :
    ∃ s, runCalls c u NewRealtimeService calls = some s ∧
      (isSubscribed s c u = true ↔ netEffectiveCalls c u NewRealtimeService calls % 2 = 1) := by
  obtain ⟨s, hrun, _, hnet⟩ := netEffectiveCalls_spec c u calls NewRealtimeService Inv_init
  refine ⟨s, hrun, ?_⟩
  have h0 : isSubscribed NewRealtimeService c u = false := by
    simp [isSubscribed, subscription, NewRealtimeService, mapGet]
  rw [hnet, h0]
  by_cases hs : isSubscribed s c u = true <;> simp [hs]

/-! ## The idempotent send gate -/

theorem Redis_Exists_snd (r : Redis) (k : String) (h : r.existsErr = none) :
    (r.Exists k).2 = none := by
  unfold Redis.Exists
  rw [h]
  cases mapGet r.keys k with
  | none => rfl
  | some v =>
    cases v with
    | none => rfl
    | some expiry => by_cases hlt : r.now < expiry <;> simp [hlt]

theorem CheckAndSetIdempotency_new (svc : IdempotencyService) (r : Redis) (key : String)
    (he : r.existsErr = none) (hs : r.setErr = none)
    (hnew : (r.Exists ("idempotency:" ++ key)).1 = 0) :
    CheckAndSetIdempotency svc r key =
      (⟨r.now, mapSet r.keys ("idempotency:" ++ key)
          (if 0 < svc.ttl then some (r.now + svc.ttl.toNat) else none), none, none⟩,
        false, none) := by
  have h2 := Redis_Exists_snd r ("idempotency:" ++ key) he
  have hx : r.Exists ("idempotency:" ++ key) = (0, none) := Prod.ext hnew h2
  simp only [CheckAndSetIdempotency]
  rw [hx]
  simp [Redis.Set, hs, he]

theorem CheckAndSetIdempotency_duplicate (svc : IdempotencyService) (r : Redis) (key : String)
    (he : r.existsErr = none) (hdup : (r.Exists ("idempotency:" ++ key)).1 = 1) :
    CheckAndSetIdempotency svc r key = (r, true, none) := by
  have h2 := Redis_Exists_snd r ("idempotency:" ++ key) he
  have hx : r.Exists ("idempotency:" ++ key) = (1, none) := Prod.ext hdup h2
  simp only [CheckAndSetIdempotency]
  rw [hx]
  simp

theorem sendBroadcast_total (repo : messagesRepository) (realtime : Option realtimeService)
    (chatID messageID : String) (hrt : ∀ rt, realtime = some rt → Reachable rt) :
    ∃ realtime1, sendBroadcast repo realtime chatID messageID = some realtime1 := by
  unfold sendBroadcast
  cases realtime with
  | none => exact ⟨none, rfl⟩
  | some rt =>
    cases hg : repo.Get messageID with
    | mk msg err =>
      cases err with
      | some e => exact ⟨some rt, rfl⟩
      | none =>
        obtain ⟨rt1, hb, _⟩ := BroadcastMessage_spec rt (Inv_of_Reachable rt (hrt rt rfl)) chatID
          (ConvertToChatMessage msg)
        exact ⟨some rt1, by simp [hb]⟩

/-- A send whose key is live in the cache is rejected and changes nothing. -/
theorem SendMessage_duplicate (s : messagesService) (req : SendMessageRequest)
    (he : s.cache.existsErr = none)
    (hdup : (s.cache.Exists ("idempotency:" ++ idempotencyKeyOf req)).1 = 1) :
    SendMessage s req = some (s, ⟨""⟩, some errDuplicate) := by
  have h2 := CheckAndSetIdempotency_duplicate s.idempotency s.cache (idempotencyKeyOf req) he hdup
  simp only [SendMessage, h2]

/-- A send whose key is not live in the cache, with a cache and a storage that do not
fail, records the key, persists the message and returns its identifier. -/
theorem SendMessage_admitted (s : messagesService) (req : SendMessageRequest)
    (hcache : s.cache.existsErr = none ∧ s.cache.setErr = none)
    (hstore : s.messagesRepo.execErr = none)
    (hnew : (s.cache.Exists ("idempotency:" ++ idempotencyKeyOf req)).1 = 0)
    (hrt : ∀ rt, s.realtime = some rt → Reachable rt) :
    ∃ realtime1, SendMessage s req = some (⟨
      ⟨s.messagesRepo.rows ++ [⟨s.messagesRepo.ulid s.messagesRepo.issued, idempotencyKeyOf req,
        req.UserID, req.ChatID, req.Content, MessageStatusSent, s.messagesRepo.now,
        s.messagesRepo.now, none⟩], s.messagesRepo.users, s.messagesRepo.ulid,
        s.messagesRepo.issued + 1, s.messagesRepo.now, none, s.messagesRepo.queryErr⟩,
      ⟨s.cache.now, mapSet s.cache.keys ("idempotency:" ++ idempotencyKeyOf req)
        (if 0 < s.idempotency.ttl then some (s.cache.now + s.idempotency.ttl.toNat) else none),
        none, none⟩, s.idempotency, realtime1⟩,
      ⟨s.messagesRepo.ulid s.messagesRepo.issued⟩, none) := by
  have h1 := CheckAndSetIdempotency_new s.idempotency s.cache (idempotencyKeyOf req)
    hcache.1 hcache.2 hnew
  obtain ⟨realtime1, hbroad⟩ := sendBroadcast_total
    ⟨s.messagesRepo.rows ++ [⟨s.messagesRepo.ulid s.messagesRepo.issued, idempotencyKeyOf req,
      req.UserID, req.ChatID, req.Content, MessageStatusSent, s.messagesRepo.now,
      s.messagesRepo.now, none⟩], s.messagesRepo.users, s.messagesRepo.ulid,
      s.messagesRepo.issued + 1, s.messagesRepo.now, none,
      s.messagesRepo.queryErr⟩ s.realtime req.ChatID
    (s.messagesRepo.ulid s.messagesRepo.issued) hrt
  exact ⟨realtime1, by simp only [SendMessage, h1, messagesRepository.Send, hstore, hbroad]⟩

/-- C9: with a cache and a storage that do not fail, a first `SendMessage` with an empty
idempotency key whose derived key is not in the cache returns the new message id and
persists one row; a second `SendMessage` with the same request, `dt` later and before
the record expires, returns the duplicate-submission error with an empty response and
leaves the whole state as it was: no row is added and no identifier is issued, so the
storage `Send` is not called.  The two calls persist exactly one message. -/
theorem C9_second_send_is_duplicate (s : messagesService) (req : SendMessageRequest) (dt : Nat)
    (hkey : req.IdempotencyKey = "")
    (hcache : s.cache.existsErr = none ∧ s.cache.setErr = none)
    (hstore : s.messagesRepo.execErr = none)
    (hnew : (s.cache.Exists ("idempotency:" ++ EncodeToString
      (Sum256 (bytesOf (req.UserID ++ req.ChatID ++ req.Content))))).1 = 0)
    (hrt : ∀ rt, s.realtime = some rt → Reachable rt)
    (hwin : 0 < s.idempotency.ttl → (dt : Int) < s.idempotency.ttl) :
    ∃ s1 row,
      SendMessage s req = some (s1, ⟨s.messagesRepo.ulid s.messagesRepo.issued⟩, none) ∧
      s1.messagesRepo.rows = s.messagesRepo.rows ++ [row] ∧
      s1.messagesRepo.issued = s.messagesRepo.issued + 1 ∧
      row.ID = s.messagesRepo.ulid s.messagesRepo.issued ∧
      row.UserID = req.UserID ∧ row.ChatID = req.ChatID ∧ row.Body = req.Content ∧
      SendMessage (s1.advance dt) req = some (s1.advance dt, ⟨""⟩, some errDuplicate) ∧
      (s1.advance dt).messagesRepo.rows = s.messagesRepo.rows ++ [row] ∧
      (s1.advance dt).messagesRepo.issued = s.messagesRepo.issued + 1 := by
  have hk : idempotencyKeyOf req =
      EncodeToString (Sum256 (bytesOf (req.UserID ++ req.ChatID ++ req.Content))) := by
    simp [idempotencyKeyOf, hkey]
  rw [← hk] at hnew
  obtain ⟨realtime1, hfirst⟩ := SendMessage_admitted s req hcache hstore hnew hrt
  refine ⟨_, _, hfirst, rfl, rfl, rfl, rfl, rfl, rfl, ?_, rfl, rfl⟩
  apply SendMessage_duplicate
  · rfl
  · simp only [messagesService.advance, Redis.advance, Redis.Exists, mapGet_mapSet, if_true]
    by_cases ht : 0 < s.idempotency.ttl
    · have hlt := hwin ht
      have : s.cache.now + dt < s.cache.now + s.idempotency.ttl.toNat := by omega
      simp [ht, this]
    · simp [ht]

theorem C9_second_send_is_duplicate_witness :
    ∃ s1 row,
      SendMessage sendService sendRequest = some (s1, ⟨"01ARZ3NDEKTSV4RRFFQ69G5FAV"⟩, none) ∧
      s1.messagesRepo.rows = [row] ∧
      SendMessage (s1.advance 1000) sendRequest = some (s1.advance 1000, ⟨""⟩, some errDuplicate) := by
  obtain ⟨s1, row, h1, h2, _, _, _, _, _, h3, _, _⟩ :=
    C9_second_send_is_duplicate sendService sendRequest 1000 rfl ⟨rfl, rfl⟩ rfl rfl
      (fun rt h => by cases h; exact Reachable.init) (fun _ => by decide)
  exact ⟨s1, row, h1, h2, h3⟩

/-! ## The derived idempotency key -/

theorem bytesOf_append (a b : String) : bytesOf (a ++ b) = bytesOf a ++ bytesOf b := by
  simp [bytesOf]

theorem hexDigit_mem (n : Nat) : hexDigit n ∈ "0123456789abcdef".data := by
  rcases Nat.lt_or_ge n 16 with h | h
  · interval_cases n <;> decide
  · have : hexDigit n = '0' := by
      unfold hexDigit
      exact List.getD_eq_default _ _ h
    rw [this]
    decide

theorem EncodeToString_length (bs : List Nat) : (EncodeToString bs).length = 2 * bs.length := by
  unfold EncodeToString
  rw [String.length_mk]
  induction bs with
  | nil => rfl
  | cons b bs ih =>
    simp only [List.flatMap_cons, List.length_append, List.length_cons, List.length_nil, ih]
    omega

theorem EncodeToString_hex (bs : List Nat) :
    ∀ ch ∈ (EncodeToString bs).data, ch ∈ "0123456789abcdef".data := by
  intro ch hch
  simp only [EncodeToString, List.mem_flatMap, List.mem_cons, List.mem_singleton,
    List.not_mem_nil, or_false] at hch
  obtain ⟨b, _, h | h⟩ := hch <;> rw [h] <;> exact hexDigit_mem _

theorem Sum256_length (msg : List Nat) : (Sum256 msg).length = 32 := by
  simp [Sum256, beBytes]

theorem Sum256_byte (msg : List Nat) : ∀ b ∈ Sum256 msg, b < 256 := by
  intro b hb
  simp only [Sum256, beBytes, List.mem_append, List.mem_cons, List.mem_singleton,
    List.not_mem_nil, or_false] at hb
  rcases hb with ((((((h | h) | h) | h) | h) | h) | h) | h <;>
    rcases h with h | h | h | h <;> rw [h] <;> exact Nat.mod_lt _ (by decide)

/-- What a successful `CheckAndSetIdempotency` that reports a new key did to the cache. -/
theorem CheckAndSetIdempotency_new_sets (svc : IdempotencyService) (r r1 : Redis) (key : String)
    (h : CheckAndSetIdempotency svc r key = (r1, false, none)) :
    mapGet r1.keys ("idempotency:" ++ key) ≠ none := by
  simp only [CheckAndSetIdempotency] at h
  cases hx : r.Exists ("idempotency:" ++ key) with
  | mk count err =>
    rw [hx] at h
    cases err with
    | some e => simp at h
    | none =>
      simp only at h
      by_cases hc : count > 0
      · simp [hc] at h
      · simp only [hc, if_false] at h
        unfold Redis.Set at h
        cases hs : r.setErr with
        | some e => simp [hs] at h
        | none =>
          simp only [hs, Prod.mk.injEq, and_true] at h
          rw [← h]
          simp [mapGet_mapSet]

/-- C10: the idempotency key of `SendMessage` is the key of the request when that is not
empty, and otherwise the hexadecimal SHA-256 digest of the bytes of the user id followed
by the bytes of the chat id and of the content, which has 64 characters, all of them
among `0123456789abcdef`.  This key is the one checked against (and set in) the cache,
and the one stored in the row that a successful send persists. -/
theorem C10_idempotency_key_derivation (s : messagesService) (req : SendMessageRequest) :
    (req.IdempotencyKey ≠ "" → idempotencyKeyOf req = req.IdempotencyKey) ∧
    (req.IdempotencyKey = "" →
      idempotencyKeyOf req = EncodeToString
        (Sum256 (bytesOf req.UserID ++ bytesOf req.ChatID ++ bytesOf req.Content)) ∧
      (idempotencyKeyOf req).length = 64 ∧
      ∀ ch ∈ (idempotencyKeyOf req).data, ch ∈ "0123456789abcdef".data) ∧
    (∀ s1 resp err, SendMessage s req = some (s1, resp, err) →
      s1.cache = (CheckAndSetIdempotency s.idempotency s.cache (idempotencyKeyOf req)).1 ∧
      (err = none →
        mapGet s1.cache.keys ("idempotency:" ++ idempotencyKeyOf req) ≠ none ∧
        ∃ row, s1.messagesRepo.rows = s.messagesRepo.rows ++ [row] ∧
          row.IdempotencyKey = idempotencyKeyOf req)) := by
  refine ⟨?_, ?_, ?_⟩
  · intro h
    simp [idempotencyKeyOf, h]
  · intro h
    have hk : idempotencyKeyOf req = EncodeToString
        (Sum256 (bytesOf req.UserID ++ bytesOf req.ChatID ++ bytesOf req.Content)) := by
      simp [idempotencyKeyOf, h, bytesOf_append]
    refine ⟨hk, ?_, ?_⟩
    · rw [hk, EncodeToString_length, Sum256_length]
    · rw [hk]
      exact EncodeToString_hex _
  · intro s1 resp err h
    simp only [SendMessage] at h
    cases hc : CheckAndSetIdempotency s.idempotency s.cache (idempotencyKeyOf req) with
    | mk cache1 p =>
      obtain ⟨flag, e⟩ := p
      rw [hc] at h
      cases e with
      | some e1 =>
        simp only [Option.some.injEq, Prod.mk.injEq] at h
        obtain ⟨rfl, _, rfl⟩ := h
        exact ⟨rfl, fun h0 => by cases h0⟩
      | none =>
        cases flag with
        | true =>
          simp only [Option.some.injEq, Prod.mk.injEq] at h
          obtain ⟨rfl, _, rfl⟩ := h
          exact ⟨rfl, fun h0 => by cases h0⟩
        | false =>
          simp only [messagesRepository.Send] at h
          cases hx : s.messagesRepo.execErr with
          | some e2 =>
            simp only [hx, Option.some.injEq, Prod.mk.injEq] at h
            obtain ⟨rfl, _, rfl⟩ := h
            exact ⟨rfl, fun h0 => by cases h0⟩
          | none =>
            simp only [hx] at h
            cases hb : sendBroadcast
              ⟨s.messagesRepo.rows ++ [⟨s.messagesRepo.ulid s.messagesRepo.issued,
                idempotencyKeyOf req, req.UserID, req.ChatID, req.Content, MessageStatusSent,
                s.messagesRepo.now, s.messagesRepo.now, none⟩], s.messagesRepo.users,
                s.messagesRepo.ulid, s.messagesRepo.issued + 1, s.messagesRepo.now,
                none, s.messagesRepo.queryErr⟩ s.realtime req.ChatID
              (s.messagesRepo.ulid s.messagesRepo.issued) with
            | none => simp [hb] at h
            | some realtime1 =>
              simp only [hb, Option.some.injEq, Prod.mk.injEq] at h
              obtain ⟨rfl, _, _⟩ := h
              exact ⟨rfl, fun _ => ⟨CheckAndSetIdempotency_new_sets _ _ _ _ hc, _, rfl, rfl⟩⟩

theorem C10_idempotency_key_derivation_witness :
    sendRequest.IdempotencyKey = "" ∧ (idempotencyKeyOf sendRequest).length = 64 :=
  ⟨rfl, ((C10_idempotency_key_derivation sendService sendRequest).2.1 rfl).2.1⟩

set_option maxRecDepth 1000000 in
/-- The implementation of SHA-256 on the test vector of FIPS 180-4 and on a request. -/
theorem Sum256_test_vectors :
    EncodeToString (Sum256 (bytesOf "abc")) =
      "ba7816bf8f01cfea414140de5dae2223b00361a396177a9cb410ff61f20015ad" ∧
    idempotencyKeyOf sendRequest =
      "7e5e51505852424d03a02a9245dd6ddca8d0d7032cc95f992df9dd8f3f2192cd" := by
  decide

/-! ## The idempotency record over time -/

/-- The two commands of a call, run without another client in between, are the method
`CheckAndSetIdempotency`. -/
theorem CheckCall_step_step (s : IdempotencyService) (key : String) (r : Redis) :
    CheckCall.step s key (CheckCall.step s key r .start).1 (CheckCall.step s key r .start).2 =
      ((CheckAndSetIdempotency s r key).1,
        .returned (CheckAndSetIdempotency s r key).2.1 (CheckAndSetIdempotency s r key).2.2) := by
  simp only [CheckCall.step, CheckAndSetIdempotency]
  cases hx : r.Exists ("idempotency:" ++ key) with
  | mk count err =>
    cases err with
    | some e => simp [CheckCall.step]
    | none =>
      by_cases hc : count > 0
      · simp [hc, CheckCall.step]
      · simp only [hc, if_false, CheckCall.step]
        cases hs : r.Set ("idempotency:" ++ key) s.ttl with
        | mk r1 e1 =>
          cases e1 <;> simp

theorem Redis_Exists_live (r : Redis) (k : String) (expiry : Nat) (he : r.existsErr = none)
    (hk : mapGet r.keys k = some (some expiry)) (hlt : r.now < expiry) :
    r.Exists k = (1, none) := by
  simp [Redis.Exists, he, hk, hlt]

theorem Redis_Exists_expired (r : Redis) (k : String) (expiry : Nat) (he : r.existsErr = none)
    (hk : mapGet r.keys k = some (some expiry)) (hge : expiry ≤ r.now) :
    r.Exists k = (0, none) := by
  have : ¬ r.now < expiry := Nat.not_lt.2 hge
  simp [Redis.Exists, he, hk, this]

/-- Calls before the expiry all report a duplicate and change nothing but the clock. -/
theorem checkAfter_live (s : IdempotencyService) (key : String) (expiry : Nat) :
    ∀ (dts : List Nat) (r : Redis), r.existsErr = none →
    mapGet r.keys ("idempotency:" ++ key) = some (some expiry) →
    r.now + dts.sum < expiry →
    checkAfter s key r dts = (r.advance dts.sum, dts.map (fun _ => (true, none))) := by
  intro dts
  induction dts with
  | nil =>
    intro r _ _ _
    simp [checkAfter, Redis.advance]
  | cons dt dts ih =>
    intro r he hk hlt
    simp only [List.sum_cons] at hlt
    have hx : ((r.advance dt).Exists ("idempotency:" ++ key)).1 = 1 := by
      rw [Redis_Exists_live (r.advance dt) _ expiry he hk (by simp only [Redis.advance]; omega)]
    have h1 := CheckAndSetIdempotency_duplicate s (r.advance dt) key he hx
    have h2 := ih (r.advance dt) he hk (by simp only [Redis.advance]; omega)
    simp only [checkAfter]
    rw [h1]
    simp only [h2]
    simp [Redis.advance, Nat.add_assoc]

/-- C11: over a cache without errors and a service with a positive TTL, the first
`CheckAndSetIdempotency` on a key that is not live returns false and records the key
with expiry now + TTL; every later call before the expiry returns true and leaves the
record as it is (the expiry is not extended); the first call at or after the expiry
returns false again and records a new expiry. -/
theorem C11_new_once_per_window (s : IdempotencyService) (r : Redis) (key : String)
    (herr : r.existsErr = none ∧ r.setErr = none) (httl : 0 < s.ttl)
    (hnew : (r.Exists ("idempotency:" ++ key)).1 = 0) :
    ∃ r1, CheckAndSetIdempotency s r key = (r1, false, none) ∧
      r1.now = r.now ∧
      mapGet r1.keys ("idempotency:" ++ key) = some (some (r.now + s.ttl.toNat)) ∧
      (∀ dts : List Nat, dts.sum < s.ttl.toNat →
        checkAfter s key r1 dts = (r1.advance dts.sum, dts.map (fun _ => (true, none)))) ∧
      (∀ dt : Nat, s.ttl.toNat ≤ dt →
        ∃ r2, CheckAndSetIdempotency s (r1.advance dt) key = (r2, false, none) ∧
          mapGet r2.keys ("idempotency:" ++ key) = some (some (r.now + dt + s.ttl.toNat))) := by
  have h1 := CheckAndSetIdempotency_new s r key herr.1 herr.2 hnew
  simp only [httl, if_true] at h1
  have hk : mapGet (mapSet r.keys ("idempotency:" ++ key) (some (r.now + s.ttl.toNat)))
      ("idempotency:" ++ key) = some (some (r.now + s.ttl.toNat)) := by
    simp [mapGet_mapSet]
  refine ⟨_, h1, rfl, hk, ?_, ?_⟩
  · intro dts hlt
    exact checkAfter_live s key (r.now + s.ttl.toNat) dts _ rfl hk
      (by simp only []; omega)
  · intro dt hge
    have hx := Redis_Exists_expired
      (Redis.advance ⟨r.now, mapSet r.keys ("idempotency:" ++ key) (some (r.now + s.ttl.toNat)),
        none, none⟩ dt) ("idempotency:" ++ key) (r.now + s.ttl.toNat) rfl hk
      (by simp only [Redis.advance]; omega)
    have h2 := CheckAndSetIdempotency_new s
      (Redis.advance ⟨r.now, mapSet r.keys ("idempotency:" ++ key) (some (r.now + s.ttl.toNat)),
        none, none⟩ dt) key rfl rfl (by rw [hx])
    simp only [httl, if_true] at h2
    exact ⟨_, h2, by simp [mapGet_mapSet, Redis.advance]⟩

theorem C11_new_once_per_window_witness :
    ∃ r1, CheckAndSetIdempotency (NewIdempotencyService 10) ⟨0, [], none, none⟩ "k1"
        = (r1, false, none) ∧
      checkAfter (NewIdempotencyService 10) "k1" r1 [1000, 2000]
        = (r1.advance 3000, [(true, none), (true, none)]) := by
  obtain ⟨r1, h1, _, _, h2, _⟩ := C11_new_once_per_window (NewIdempotencyService 10)
    ⟨0, [], none, none⟩ "k1" ⟨rfl, rfl⟩ (by decide) rfl
  exact ⟨r1, h1, h2 [1000, 2000] (by decide)⟩

/-- C12, the code at the failing input: two concurrent calls with the key "k1" absent
from the cache, scheduled so that both run `EXISTS` before either runs `SET`, both
return false ('new'); run one after the other, the second returns true. -/
theorem C12_interleaved_calls_both_new :
    interleave (NewIdempotencyService 10) "k1" ⟨0, [], none, none⟩ .start .start
        [true, false, true, false]
      = (⟨0, [("idempotency:k1", some 600000000000)], none, none⟩,
          .returned false none, .returned false none) ∧
    interleave (NewIdempotencyService 10) "k1" ⟨0, [], none, none⟩ .start .start
        [true, true, false, false]
      = (⟨0, [("idempotency:k1", some 600000000000)], none, none⟩,
          .returned false none, .returned true none) := by
  decide

/-! ## The send gate and its collaborators -/

theorem sendBroadcastTraced_fst (repo : messagesRepository) (realtime : Option realtimeService)
    (chatID messageID : String) :
    (sendBroadcastTraced repo realtime chatID messageID).1 =
      sendBroadcast repo realtime chatID messageID := by
  unfold sendBroadcastTraced sendBroadcast
  cases realtime with
  | none => rfl
  | some rt =>
    cases hg : repo.Get messageID with
    | mk msg err =>
      cases err with
      | some e => rfl
      | none =>
        simp only
        cases BroadcastMessage rt chatID (ConvertToChatMessage msg) <;> rfl

/-- The traced method returns what `SendMessage` returns. -/
theorem SendMessageTraced_fst (s : messagesService) (req : SendMessageRequest) :
    (SendMessageTraced s req).1 = SendMessage s req := by
  simp only [SendMessageTraced, SendMessage]
  cases hc : CheckAndSetIdempotency s.idempotency s.cache (idempotencyKeyOf req) with
  | mk cache1 p =>
    obtain ⟨flag, e⟩ := p
    cases e with
    | some e1 => cases flag <;> rfl
    | none =>
      cases flag with
      | true => rfl
      | false =>
        simp only
        cases hs : s.messagesRepo.Send ⟨"", idempotencyKeyOf req, req.UserID, req.ChatID,
          req.Content, MessageStatusSent, 0, 0, none⟩ with
        | mk repo1 q =>
          obtain ⟨messageID, e2⟩ := q
          cases e2 with
          | some e3 => rfl
          | none =>
            simp only
            rw [← sendBroadcastTraced_fst]
            cases hb : sendBroadcastTraced repo1 s.realtime req.ChatID messageID with
            | mk res calls =>
              cases res <;> rfl

/-- An error of `CheckAndSetIdempotency` leaves the cache as it was. -/
theorem CheckAndSetIdempotency_error (svc : IdempotencyService) (r r1 : Redis) (key : String)
    (flag : Bool) (e : String) (h : CheckAndSetIdempotency svc r key = (r1, flag, some e)) :
    r1 = r ∧ flag = false := by
  simp only [CheckAndSetIdempotency] at h
  cases hx : r.Exists ("idempotency:" ++ key) with
  | mk count err =>
    rw [hx] at h
    cases err with
    | some e1 =>
      simp only [Prod.mk.injEq] at h
      exact ⟨h.1.symm, h.2.1.symm⟩
    | none =>
      simp only at h
      by_cases hc : count > 0
      · simp [hc] at h
      · simp only [hc, if_false] at h
        unfold Redis.Set at h
        cases hs : r.setErr with
        | some e2 =>
          simp only [hs, Prod.mk.injEq] at h
          exact ⟨h.1.symm, h.2.1.symm⟩
        | none => simp [hs] at h

/-- C13: when the idempotency check fails, or the check finds no key and the idempotency
set fails, `SendMessage` returns the cache error with an empty response and leaves the
whole state as it was; its only call to a collaborator is `CheckAndSetIdempotency`, so
the storage `Send` is not called and nothing is broadcast.  The same holds whenever
`CheckAndSetIdempotency` returns an error. -/
theorem C13_cache_failure_aborts_send (s : messagesService) (req : SendMessageRequest) :
    (∀ e, s.cache.existsErr = some e →
      SendMessageTraced s req =
        (some (s, ⟨""⟩, some ("failed to check idempotency: " ++ e)),
          [.checkAndSet (idempotencyKeyOf req)])) ∧
    (∀ e, s.cache.existsErr = none →
      (s.cache.Exists ("idempotency:" ++ idempotencyKeyOf req)).1 = 0 →
      s.cache.setErr = some e →
      SendMessageTraced s req =
        (some (s, ⟨""⟩, some ("failed to set idempotency key: " ++ e)),
          [.checkAndSet (idempotencyKeyOf req)])) ∧
    (∀ cache1 flag e,
      CheckAndSetIdempotency s.idempotency s.cache (idempotencyKeyOf req) = (cache1, flag, some e) →
      SendMessage s req = some (s, ⟨""⟩, some e) ∧
      storageCallsOf (SendMessageTraced s req).2 = [] ∧
      broadcastsOf (SendMessageTraced s req).2 = []) := by
  refine ⟨?_, ?_, ?_⟩
  · intro e he
    have hc : CheckAndSetIdempotency s.idempotency s.cache (idempotencyKeyOf req) =
        (s.cache, false, some ("failed to check idempotency: " ++ e)) := by
      simp [CheckAndSetIdempotency, Redis.Exists, he]
    simp only [SendMessageTraced, hc]
  · intro e he hcount hs
    have h2 := Redis_Exists_snd s.cache ("idempotency:" ++ idempotencyKeyOf req) he
    have hx : s.cache.Exists ("idempotency:" ++ idempotencyKeyOf req) = (0, none) :=
      Prod.ext hcount h2
    have hc : CheckAndSetIdempotency s.idempotency s.cache (idempotencyKeyOf req) =
        (s.cache, false, some ("failed to set idempotency key: " ++ e)) := by
      simp only [CheckAndSetIdempotency]
      rw [hx]
      simp [Redis.Set, hs]
    simp only [SendMessageTraced, hc]
  · intro cache1 flag e hc
    obtain ⟨rfl, rfl⟩ := CheckAndSetIdempotency_error _ _ _ _ _ _ hc
    refine ⟨?_, ?_, ?_⟩
    · simp only [SendMessage, hc]
    · simp only [SendMessageTraced, hc, storageCallsOf]
    · simp only [SendMessageTraced, hc, broadcastsOf]

theorem C13_cache_failure_aborts_send_witness :
    SendMessageTraced
      ⟨sendService.messagesRepo, ⟨0, [], some "connection refused", none⟩,
        sendService.idempotency, sendService.realtime⟩ keyedRequest =
      (some (⟨sendService.messagesRepo, ⟨0, [], some "connection refused", none⟩,
          sendService.idempotency, sendService.realtime⟩, ⟨""⟩,
          some ("failed to check idempotency: " ++ "connection refused")),
        [.checkAndSet (idempotencyKeyOf keyedRequest)]) :=
  (C13_cache_failure_aborts_send
    ⟨sendService.messagesRepo, ⟨0, [], some "connection refused", none⟩,
      sendService.idempotency, sendService.realtime⟩ keyedRequest).1 "connection refused" rfl

/-- C14: when the idempotency key of the request is live in the cache (and the cache
answers), `SendMessage` returns the duplicate-submission error with an empty response
and leaves the whole state as it was (the registry and every queue included); its only
call to a collaborator is `CheckAndSetIdempotency`: neither `Send` nor `Get` is called
and nothing is broadcast. -/
theorem C14_duplicate_is_rejected (s : messagesService) (req : SendMessageRequest)
    (he : s.cache.existsErr = none)
    (hdup : (s.cache.Exists ("idempotency:" ++ idempotencyKeyOf req)).1 = 1) :
    SendMessageTraced s req =
      (some (s, ⟨""⟩, some errDuplicate), [.checkAndSet (idempotencyKeyOf req)]) ∧
    SendMessage s req = some (s, ⟨""⟩, some errDuplicate) ∧
    storageCallsOf (SendMessageTraced s req).2 = [] ∧
    broadcastsOf (SendMessageTraced s req).2 = [] := by
  have h2 := CheckAndSetIdempotency_duplicate s.idempotency s.cache (idempotencyKeyOf req) he hdup
  have h3 : SendMessageTraced s req =
      (some (s, ⟨""⟩, some errDuplicate), [.checkAndSet (idempotencyKeyOf req)]) := by
    simp only [SendMessageTraced, h2]
  refine ⟨h3, SendMessage_duplicate s req he hdup, ?_, ?_⟩
  · rw [h3]
    rfl
  · rw [h3]
    rfl

theorem C14_duplicate_is_rejected_witness :
    SendMessage
      ⟨sendService.messagesRepo, ⟨0, [("idempotency:k1", some 1000)], none, none⟩,
        sendService.idempotency, some fullQueue⟩ keyedRequest =
      some (⟨sendService.messagesRepo, ⟨0, [("idempotency:k1", some 1000)], none, none⟩,
        sendService.idempotency, some fullQueue⟩, ⟨""⟩, some errDuplicate) :=
  (C14_duplicate_is_rejected
    ⟨sendService.messagesRepo, ⟨0, [("idempotency:k1", some 1000)], none, none⟩,
      sendService.idempotency, some fullQueue⟩ keyedRequest rfl (by decide)).2.1

/-- C15: when `CheckAndSetIdempotency` reports a new key and the storage `Send` succeeds
with id `m`, `SendMessage` returns and its result is success with `MessageID = m`,
whatever the broadcast step meets: no realtime service (nothing more happens), a
follow-up `Get` that fails (the registry is left as it was), or a `Get` without error
followed by `BroadcastMessage` on any reachable registry, be it without subscribers for
the chat or with a full queue. -/
theorem C15_send_succeeds_once_persisted (s : messagesService) (req : SendMessageRequest)
    (cache1 : Redis) (repo1 : messagesRepository) (m : String)
    (hcheck : CheckAndSetIdempotency s.idempotency s.cache (idempotencyKeyOf req)
      = (cache1, false, none))
    (hsend : s.messagesRepo.Send ⟨"", idempotencyKeyOf req, req.UserID, req.ChatID,
      req.Content, MessageStatusSent, 0, 0, none⟩ = (repo1, m, none))
    (hrt : ∀ rt, s.realtime = some rt → Reachable rt) :
    ∃ realtime1,
      SendMessage s req = some (⟨repo1, cache1, s.idempotency, realtime1⟩, ⟨m⟩, none) ∧
      (s.realtime = none → realtime1 = none) ∧
      (∀ rt, s.realtime = some rt → (repo1.Get m).2 ≠ none → realtime1 = some rt) ∧
      (∀ rt, s.realtime = some rt → (repo1.Get m).2 = none →
        ∃ rt1, realtime1 = some rt1 ∧
          BroadcastMessage rt req.ChatID (ConvertToChatMessage (repo1.Get m).1) = some rt1) := by
  obtain ⟨realtime1, hb⟩ := sendBroadcast_total repo1 s.realtime req.ChatID m hrt
  refine ⟨realtime1, by simp only [SendMessage, hcheck, hsend, hb], ?_, ?_, ?_⟩
  · intro hn
    rw [hn] at hb
    simp only [sendBroadcast, Option.some.injEq] at hb
    exact hb.symm
  · intro rt hs hne
    rw [hs] at hb
    unfold sendBroadcast at hb
    cases hg : repo1.Get m with
    | mk msg err =>
      rw [hg] at hb hne
      cases err with
      | none => exact absurd rfl hne
      | some e =>
        simp only [Option.some.injEq] at hb
        exact hb.symm
  · intro rt hs hnone
    rw [hs] at hb
    unfold sendBroadcast at hb
    cases hg : repo1.Get m with
    | mk msg err =>
      rw [hg] at hb hnone
      simp only at hnone
      subst hnone
      simp only at hb
      cases hbm : BroadcastMessage rt req.ChatID (ConvertToChatMessage msg) with
      | none => simp [hbm] at hb
      | some rt1 =>
        rw [hbm] at hb
        simp only [Option.some.injEq] at hb
        exact ⟨rt1, hb.symm, rfl⟩

theorem C15_send_succeeds_once_persisted_witness :
    ∃ realtime1, SendMessage fullQueueService keyedRequest =
      some (⟨⟨[⟨"01ARZ3NDEKTSV4RRFFQ69G5FAV", "k1", "u1", "c1", "hello", "SENT", 0, 0, none⟩],
          [("u1", "alice")], fun _ => "01ARZ3NDEKTSV4RRFFQ69G5FAV", 1, 0, none, none⟩,
        ⟨0, [("idempotency:k1", some 600000000000)], none, none⟩,
        NewIdempotencyService 10, realtime1⟩, ⟨"01ARZ3NDEKTSV4RRFFQ69G5FAV"⟩, none) := by
  obtain ⟨realtime1, h, _⟩ := C15_send_succeeds_once_persisted fullQueueService keyedRequest
    ⟨0, [("idempotency:k1", some 600000000000)], none, none⟩
    ⟨[⟨"01ARZ3NDEKTSV4RRFFQ69G5FAV", "k1", "u1", "c1", "hello", "SENT", 0, 0, none⟩],
      [("u1", "alice")], fun _ => "01ARZ3NDEKTSV4RRFFQ69G5FAV", 1, 0, none, none⟩
    "01ARZ3NDEKTSV4RRFFQ69G5FAV" (by decide) rfl
    (fun rt h => by
      cases h
      exact Reachable_run _ _ _ Reachable.init run_fullQueueOps)
  exact ⟨realtime1, h⟩

/-- C17: `ConvertToChatMessage(m)` copies the id, the chat id, the user id (as sender),
the body (as content), the creation time (as sent-at) and the status of `m`, sets the
type to NEW, and takes the user name of `m.User` when that is present and the empty
string when it is nil. -/
theorem C17_ConvertToChatMessage_fields (m : Message) :
    (ConvertToChatMessage m).MessageID = m.ID ∧
    (ConvertToChatMessage m).ChatID = m.ChatID ∧
    (ConvertToChatMessage m).SenderID = m.UserID ∧
    (ConvertToChatMessage m).Content = m.Body ∧
    (ConvertToChatMessage m).SentAt = m.CreatedAt ∧
    (ConvertToChatMessage m).Status = m.Status ∧
    (ConvertToChatMessage m).Typ = .MessageTypeNew ∧
    (∀ user, m.User = some user → (ConvertToChatMessage m).SenderUsername = user.Username) ∧
    (m.User = none → (ConvertToChatMessage m).SenderUsername = "") := by
  refine ⟨rfl, rfl, rfl, rfl, rfl, rfl, rfl, ?_, ?_⟩
  · intro user h
    simp [ConvertToChatMessage, h]
  · intro h
    simp [ConvertToChatMessage, h]

theorem C17_ConvertToChatMessage_fields_witness :
    (ConvertToChatMessage ⟨"msg123", "", "user123", "chat123", "Test message", "SENT", 7, 7,
      some ⟨"user123", "alice", "", "", 0, 0⟩⟩).SenderUsername = "alice" :=
  (C17_ConvertToChatMessage_fields ⟨"msg123", "", "user123", "chat123", "Test message", "SENT",
    7, 7, some ⟨"user123", "alice", "", "", 0, 0⟩⟩).2.2.2.2.2.2.2.1 _ rfl

/-- The follow-up `Get` finds the row that `Send` has just inserted when no older row
has its identifier and the sender has a row in `users`. -/
theorem Get_after_Send (r : messagesRepository) (req : Message) (username : String)
    (hexec : r.execErr = none) (hquery : r.queryErr = none)
    (hfresh : ∀ row ∈ r.rows, row.ID ≠ r.ulid r.issued)
    (huser : mapGet r.users req.UserID = some username) :
    (r.Send req).2 = (r.ulid r.issued, none) ∧
    (r.Send req).1.Get (r.ulid r.issued) =
      (⟨r.ulid r.issued, req.IdempotencyKey, req.UserID, req.ChatID, req.Body, req.Status,
        r.now, r.now, some ⟨"", username, "", "", 0, 0⟩⟩, none) := by
  have hfind : r.rows.find? (fun m => decide (m.ID = r.ulid r.issued)) = none := by
    rw [List.find?_eq_none]
    intro row hrow
    simpa using hfresh row hrow
  simp [messagesRepository.Send, messagesRepository.Get, hexec, hquery, List.find?_append,
    hfind, huser]

/-- When the follow-up `Get` finds the persisted row, `SendMessage` broadcasts one
envelope, to the chat of the request, with status SENT, type NEW and the id, chat id,
sender id and content of the persisted message. -/
theorem SendMessage_broadcasts_persisted (s : messagesService) (req : SendMessageRequest)
    (rt : realtimeService) (username : String)
    (hcache : s.cache.existsErr = none ∧ s.cache.setErr = none)
    (hnew : (s.cache.Exists ("idempotency:" ++ idempotencyKeyOf req)).1 = 0)
    (hexec : s.messagesRepo.execErr = none) (hquery : s.messagesRepo.queryErr = none)
    (hfresh : ∀ row ∈ s.messagesRepo.rows, row.ID ≠ s.messagesRepo.ulid s.messagesRepo.issued)
    (huser : mapGet s.messagesRepo.users req.UserID = some username)
    (hrt : s.realtime = some rt) :
    broadcastsOf (SendMessageTraced s req).2 =
      [(req.ChatID, ⟨s.messagesRepo.ulid s.messagesRepo.issued, req.ChatID, req.UserID, username,
        req.Content, s.messagesRepo.now, "SENT", .MessageTypeNew⟩)] := by
  have h1 := CheckAndSetIdempotency_new s.idempotency s.cache (idempotencyKeyOf req)
    hcache.1 hcache.2 hnew
  obtain ⟨hs, hg⟩ := Get_after_Send s.messagesRepo
    ⟨"", idempotencyKeyOf req, req.UserID, req.ChatID, req.Content, MessageStatusSent, 0, 0, none⟩
    username hexec hquery hfresh huser
  have hsend : s.messagesRepo.Send ⟨"", idempotencyKeyOf req, req.UserID, req.ChatID,
      req.Content, MessageStatusSent, 0, 0, none⟩ =
      ((s.messagesRepo.Send ⟨"", idempotencyKeyOf req, req.UserID, req.ChatID,
        req.Content, MessageStatusSent, 0, 0, none⟩).1,
        s.messagesRepo.ulid s.messagesRepo.issued, none) := Prod.ext rfl hs
  simp only [SendMessageTraced, h1]
  rw [hsend]
  simp only [sendBroadcastTraced, hrt, hg]
  cases BroadcastMessage rt req.ChatID (ConvertToChatMessage
      ⟨s.messagesRepo.ulid s.messagesRepo.issued, idempotencyKeyOf req, req.UserID, req.ChatID,
        req.Content, MessageStatusSent, s.messagesRepo.now, s.messagesRepo.now,
        some ⟨"", username, "", "", 0, 0⟩⟩) <;>
    simp [broadcastsOf, ConvertToChatMessage, MessageStatusSent]

/-- C16, the code at the failing input: the sender "u1" has no row in `users`, so the
follow-up `Get` of the message just persisted returns the zero message without error;
`SendMessage` succeeds, persists the message with status SENT, and broadcasts to chat
"c1" an envelope with empty message id, chat id, sender id, content and status, which
lands in the queues of both subscribers. -/
theorem C16_not_found_broadcasts_empty_envelope :
    (SendMessageTraced noUserRowService keyedRequest).2 =
      [.checkAndSet "k1",
       .send ⟨"", "k1", "u1", "c1", "hello", "SENT", 0, 0, none⟩,
       .get "01ARZ3NDEKTSV4RRFFQ69G5FAV",
       .broadcast "c1" ⟨"", "", "", "", "", 0, "", .MessageTypeNew⟩] ∧
    (SendMessage noUserRowService keyedRequest).map (fun r => (r.2, r.1.messagesRepo.rows)) =
      some ((⟨"01ARZ3NDEKTSV4RRFFQ69G5FAV"⟩, none),
        [⟨"01ARZ3NDEKTSV4RRFFQ69G5FAV", "k1", "u1", "c1", "hello", "SENT", 0, 0, none⟩]) ∧
    (SendMessage noUserRowService keyedRequest).map
        (fun r => (r.1.messagesRepo.Get "01ARZ3NDEKTSV4RRFFQ69G5FAV",
          r.1.realtime.map (fun rt => rt.chans))) =
      some ((Message.zero, none),
        some [⟨[⟨"", "", "", "", "", 0, "", .MessageTypeNew⟩], 100, false⟩,
              ⟨[⟨"", "", "", "", "", 0, "", .MessageTypeNew⟩], 100, false⟩]) := by
  decide

/-! ## The outcome surfaced for a duplicate -/

theorem errDuplicate_ne_cache_error (e : String) :
    errDuplicate ≠ "failed to check idempotency: " ++ e ∧
    errDuplicate ≠ "failed to set idempotency key: " ++ e := by
  constructor <;>
  · intro h
    have h2 := congrArg (fun x : String => x.data.head?) h
    simp [errDuplicate] at h2

/-- The handler turns every error of the service into the status code Internal. -/
theorem MessagesGRPCServer_SendMessage_error (s s1 : messagesService) (ctx : Context) (now : Nat)
    (req : pb.SendMessageRequest) (userID username email : String)
    (resp : SendMessageResponse) (err : String)
    (hvalid : req.ChatId ≠ "" ∧ req.Content ≠ "" ∧ req.IdempotencyKey ≠ "")
    (hauth : GetUserFromContext ctx = (userID, username, email, none))
    (hsend : SendMessage s ⟨userID, req.ChatId, req.Content, req.IdempotencyKey⟩
      = some (s1, resp, some err)) :
    MessagesGRPCServer.SendMessage s ctx now req =
      some (s1, none, some ⟨.Internal, "failed to send message: " ++ err⟩) := by
  simp only [MessagesGRPCServer.SendMessage, hvalid.1, hvalid.2.1, hvalid.2.2, or_self, if_false,
    hauth, hsend]

/-- C18, the claim as stated fails: the gRPC handler surfaces a duplicate submission and
a failure of the cache with the same status code, Internal; the two outcomes differ
only in the text of the message. -/
theorem C18_duplicate_and_failure_share_code :
    (MessagesGRPCServer.SendMessage duplicateService userContext 0 ⟨"c1", "hello", "k1"⟩).map
        (fun r => r.2.2) =
      some (some ⟨.Internal,
        "failed to send message: message with idempotency key already exists"⟩) ∧
    (MessagesGRPCServer.SendMessage cacheDownService userContext 0 ⟨"c1", "hello", "k1"⟩).map
        (fun r => r.2.2) =
      some (some ⟨.Internal,
        "failed to send message: failed to check idempotency: connection refused"⟩) := by
  decide

/-- C18, amended: a `SendMessage` call whose idempotency key is live in the cache is
rejected with the error "message with idempotency key already exists", whose text
differs from the text of every cache failure; the gRPC handler surfaces it, as it
surfaces every error of the service, with the status code Internal and the message
"failed to send message: " followed by the text of the error. -/
theorem C18_duplicate_surfaced_as_internal (s : messagesService) (ctx : Context) (now : Nat)
    (req : pb.SendMessageRequest) (userID username email : String)
    (hvalid : req.ChatId ≠ "" ∧ req.Content ≠ "" ∧ req.IdempotencyKey ≠ "")
    (hauth : GetUserFromContext ctx = (userID, username, email, none)) :
    (s.cache.existsErr = none →
      (s.cache.Exists ("idempotency:" ++ req.IdempotencyKey)).1 = 1 →
      SendMessage s ⟨userID, req.ChatId, req.Content, req.IdempotencyKey⟩ =
        some (s, ⟨""⟩, some errDuplicate) ∧
      MessagesGRPCServer.SendMessage s ctx now req =
        some (s, none, some ⟨.Internal, "failed to send message: " ++ errDuplicate⟩)) ∧
    (∀ e, errDuplicate ≠ "failed to check idempotency: " ++ e ∧
      errDuplicate ≠ "failed to set idempotency key: " ++ e) ∧
    (∀ s1 resp err, SendMessage s ⟨userID, req.ChatId, req.Content, req.IdempotencyKey⟩
        = some (s1, resp, some err) →
      MessagesGRPCServer.SendMessage s ctx now req =
        some (s1, none, some ⟨.Internal, "failed to send message: " ++ err⟩)) := by
  refine ⟨?_, errDuplicate_ne_cache_error, ?_⟩
  · intro he hdup
    have hk : idempotencyKeyOf ⟨userID, req.ChatId, req.Content, req.IdempotencyKey⟩
        = req.IdempotencyKey := by
      simp [idempotencyKeyOf, hvalid.2.2]
    have hd := SendMessage_duplicate s ⟨userID, req.ChatId, req.Content, req.IdempotencyKey⟩ he
      (by rw [hk]; exact hdup)
    exact ⟨hd, MessagesGRPCServer_SendMessage_error s s ctx now req userID username email _ _
      hvalid hauth hd⟩
  · intro s1 resp err hsend
    exact MessagesGRPCServer_SendMessage_error s s1 ctx now req userID username email resp err
      hvalid hauth hsend

theorem C18_duplicate_surfaced_as_internal_witness :
    MessagesGRPCServer.SendMessage duplicateService userContext 0 ⟨"c1", "hello", "k1"⟩ =
      some (duplicateService, none,
        some ⟨.Internal, "failed to send message: " ++ errDuplicate⟩) :=
  ((C18_duplicate_surfaced_as_internal duplicateService userContext 0 ⟨"c1", "hello", "k1"⟩
    "u1" "alice" "alice@example.com" (by decide) (by decide)).1 rfl (by decide)).2

/-! ## Status updates -/

/-- C19, the claim as stated fails: a request with status SENT gets the error
"invalid status: SENT" and an empty response, and no storage mutator is called. -/
theorem C19_SENT_is_an_invalid_status :
    (UpdateMessageStatus sendService.messagesRepo [("u1", "c1")] ⟨"u1", "m1", "SENT"⟩).2 =
      (⟨"", ""⟩, some "invalid status: SENT", []) := by
  decide

/-- C19, amended: a request with status READ or DELIVERED whose storage mutation does
not fail gets a confirmation with the message id and the status of the request, after
one call of the matching mutator; a request with any other status, SENT included, gets
the error "invalid status: " followed by the status, an empty response, an unchanged
storage and no call of a mutator. -/
theorem C19_UpdateMessageStatus_outcomes (repo : messagesRepository)
    (usersChats : List (String × String)) (req : UpdateMessageStatusRequest) :
    (req.Status = "READ" → repo.execErr = none →
      (UpdateMessageStatus repo usersChats req).2 =
        (⟨req.MessageID, req.Status⟩, none, [.markAsRead req.MessageID req.UserID])) ∧
    (req.Status = "DELIVERED" → repo.execErr = none →
      (UpdateMessageStatus repo usersChats req).2 =
        (⟨req.MessageID, req.Status⟩, none, [.markAsDelivered req.MessageID])) ∧
    (req.Status ≠ "READ" → req.Status ≠ "DELIVERED" →
      UpdateMessageStatus repo usersChats req =
        (repo, ⟨"", ""⟩, some ("invalid status: " ++ req.Status), [])) := by
  refine ⟨?_, ?_, ?_⟩
  · intro hs he
    simp [UpdateMessageStatus, MessageStatusRead, hs, messagesRepository.MarkAsRead, he]
  · intro hs he
    simp [UpdateMessageStatus, MessageStatusRead, MessageStatusDelivered, hs,
      messagesRepository.MarkAsDelivered, he]
  · intro h1 h2
    simp [UpdateMessageStatus, MessageStatusRead, MessageStatusDelivered, h1, h2]

theorem C19_UpdateMessageStatus_outcomes_witness :
    (UpdateMessageStatus sendService.messagesRepo [("u1", "c1")] ⟨"u1", "m1", "READ"⟩).2 =
      (⟨"m1", "READ"⟩, none, [.markAsRead "m1" "u1"]) :=
  (C19_UpdateMessageStatus_outcomes sendService.messagesRepo [("u1", "c1")]
    ⟨"u1", "m1", "READ"⟩).1 rfl rfl

/-! ## The delivery session -/

/-- An iteration of the loop only appends to the outbound stream. -/
theorem SubscribeToChatLoop_sent (rt : realtimeService) (stream : ServerStream) (sess : Session)
    (c : SelectCase) :
    ∃ rest, (MessagesGRPCServer.SubscribeToChatLoop rt stream sess c).2.1.sent
      = stream.sent ++ rest := by
  cases sess with
  | closed err => exact ⟨[], by simp [MessagesGRPCServer.SubscribeToChatLoop]⟩
  | streaming chatID userID msgChan =>
    cases c with
    | ctxDone => exact ⟨[], by simp [MessagesGRPCServer.SubscribeToChatLoop]⟩
    | msgChan =>
      simp only [MessagesGRPCServer.SubscribeToChatLoop]
      cases hch : rt.chans[msgChan]? with
      | none => exact ⟨[], by simp⟩
      | some ch =>
        simp only
        cases hbuf : ch.buf with
        | nil =>
          by_cases hcl : ch.closed = true
          · exact ⟨[], by simp [hcl]⟩
          · exact ⟨[], by simp [hcl]⟩
        | cons msg rest =>
          simp only [ServerStream.Send]
          cases hse : stream.sendErr with
          | none =>
            exact ⟨[⟨msg.MessageID, msg.ChatID, msg.SenderID, msg.SenderUsername, msg.Content,
              msg.SentAt, msg.Status⟩], by simp⟩
          | some e =>
            cases e with
            | EOF => exact ⟨[], by simp⟩
            | other m => exact ⟨[], by simp⟩

/-- A session only appends to the outbound stream. -/
theorem runSession_sent (evs : List SessionEvent) :
    ∀ (st final : realtimeService × ServerStream × Session),
    runSession st evs = some final → ∃ rest, final.2.1.sent = st.2.1.sent ++ rest := by
  induction evs with
  | nil =>
    intro st final h
    simp only [runSession, Option.some.injEq] at h
    subst h
    exact ⟨[], by simp⟩
  | cons ev evs ih =>
    intro st final h
    obtain ⟨rt, stream, sess⟩ := st
    cases ev with
    | select c =>
      simp only [runSession] at h
      obtain ⟨r1, h1⟩ := ih _ final h
      obtain ⟨r2, h2⟩ := SubscribeToChatLoop_sent rt stream sess c
      exact ⟨r2 ++ r1, by rw [h1, h2, List.append_assoc]⟩
    | registry op =>
      simp only [runSession] at h
      cases hs : step rt op with
      | none => simp [hs] at h
      | some rt1 =>
        rw [hs] at h
        exact ih (rt1, stream, sess) final h
    | transport err =>
      simp only [runSession] at h
      obtain ⟨rest, hr⟩ := ih (rt, ⟨stream.ctx, stream.sent, err⟩, sess) final h
      exact ⟨rest, hr⟩

/-- A session that has returned writes nothing more and stays as it is. -/
theorem runSession_closed (evs : List SessionEvent) :
    ∀ (rt : realtimeService) (stream : ServerStream) (err : Option Status)
      (final : realtimeService × ServerStream × Session),
    runSession (rt, stream, .closed err) evs = some final →
    final.2.1.sent = stream.sent ∧ final.2.2 = .closed err := by
  induction evs with
  | nil =>
    intro rt stream err final h
    simp only [runSession, Option.some.injEq] at h
    subst h
    exact ⟨rfl, rfl⟩
  | cons ev evs ih =>
    intro rt stream err final h
    cases ev with
    | select c =>
      simp only [runSession, MessagesGRPCServer.SubscribeToChatLoop] at h
      exact ih rt stream err final h
    | registry op =>
      simp only [runSession] at h
      cases hs : step rt op with
      | none => simp [hs] at h
      | some rt1 =>
        rw [hs] at h
        exact ih rt1 stream err final h
    | transport e =>
      simp only [runSession] at h
      exact ih rt ⟨stream.ctx, stream.sent, e⟩ err final h

/-- C20: for a request with a chat id on a stream whose context carries the user, the
handler subscribes the user and writes the acknowledgement (message id "connection",
the chat and user of the request, status CONNECTED) to the stream.  When the write
succeeds the session enters its loop with a queue that is still empty, and whatever
happens afterwards everything the session writes comes after the acknowledgement.
When the write fails the session returns the status Internal, and whatever happens
afterwards it writes nothing and stays returned. -/
theorem C20_connection_ack_first (rt : realtimeService) (stream : ServerStream) (now : Nat)
    (req : pb.SubscribeToChatRequest) (userID username email : String)
    (hvalid : req.ChatId ≠ "")
    (hauth : GetUserFromContext stream.ctx = (userID, username, email, none)) :
    (stream.sendErr = none →
      MessagesGRPCServer.SubscribeToChat rt stream now req =
        ((SubscribeToChat rt stream.ctx.id req.ChatId userID).1,
          ⟨stream.ctx, stream.sent ++
            [⟨"connection", req.ChatId, userID, username, "Connected to chat", now, "CONNECTED"⟩],
            none⟩,
          .streaming req.ChatId userID rt.chans.length) ∧
      (SubscribeToChat rt stream.ctx.id req.ChatId userID).1.chans[rt.chans.length]?
        = some ⟨[], 100, false⟩ ∧
      ∀ evs final, runSession (MessagesGRPCServer.SubscribeToChat rt stream now req) evs
          = some final →
        ∃ rest, final.2.1.sent = stream.sent ++
          ⟨"connection", req.ChatId, userID, username, "Connected to chat", now, "CONNECTED"⟩
            :: rest) ∧
    (∀ e, stream.sendErr = some e →
      MessagesGRPCServer.SubscribeToChat rt stream now req =
        ((SubscribeToChat rt stream.ctx.id req.ChatId userID).1, stream,
          .closed (some ⟨.Internal, "failed to send connection message: " ++ e.Error⟩)) ∧
      ∀ evs final, runSession (MessagesGRPCServer.SubscribeToChat rt stream now req) evs
          = some final →
        final.2.1.sent = stream.sent ∧
        final.2.2 = .closed
          (some ⟨.Internal, "failed to send connection message: " ++ e.Error⟩)) := by
  constructor
  · intro hok
    have hstart : MessagesGRPCServer.SubscribeToChat rt stream now req =
        ((SubscribeToChat rt stream.ctx.id req.ChatId userID).1,
          ⟨stream.ctx, stream.sent ++
            [⟨"connection", req.ChatId, userID, username, "Connected to chat", now, "CONNECTED"⟩],
            none⟩,
          .streaming req.ChatId userID rt.chans.length) := by
      simp [MessagesGRPCServer.SubscribeToChat, hvalid, hauth, ServerStream.Send, hok,
        SubscribeToChat]
    refine ⟨hstart, by simp [SubscribeToChat, makeChan], ?_⟩
    intro evs final hrun
    rw [hstart] at hrun
    obtain ⟨rest, h⟩ := runSession_sent evs _ final hrun
    exact ⟨rest, by rw [h]; simp⟩
  · intro e herr
    have hstart : MessagesGRPCServer.SubscribeToChat rt stream now req =
        ((SubscribeToChat rt stream.ctx.id req.ChatId userID).1, stream,
          .closed (some ⟨.Internal, "failed to send connection message: " ++ e.Error⟩)) := by
      simp [MessagesGRPCServer.SubscribeToChat, hvalid, hauth, ServerStream.Send, herr,
        SubscribeToChat]
    refine ⟨hstart, ?_⟩
    intro evs final hrun
    rw [hstart] at hrun
    exact runSession_closed evs _ stream _ final hrun

theorem C20_connection_ack_first_witness :
    MessagesGRPCServer.SubscribeToChat NewRealtimeService userStream 5 ⟨"c1"⟩ =
      ((SubscribeToChat NewRealtimeService 1 "c1" "u1").1,
        ⟨userContext,
          [⟨"connection", "c1", "u1", "alice", "Connected to chat", 5, "CONNECTED"⟩], none⟩,
        .streaming "c1" "u1" 0) :=
  ((C20_connection_ack_first NewRealtimeService userStream 5 ⟨"c1"⟩ "u1" "alice"
    "alice@example.com" (by decide) (by decide)).1 rfl).1

/-! ## No operation panics -/

/-- In a state that satisfies the invariant every operation returns. -/
theorem step_total (s : realtimeService) (hI : Inv s) (op : Op) : ∃ s1, step s op = some s1 := by
  cases op with
  | subscribe ctx c u => exact ⟨_, rfl⟩
  | unsubscribe c u => exact UnsubscribeFromChat_total s c u hI
  | broadcast c e =>
    obtain ⟨s1, h, _⟩ := BroadcastMessage_spec s hI c e
    exact ⟨s1, h⟩
  | spawned i =>
    simp only [step, runSpawned]
    cases hs : s.spawned[i]? with
    | none => exact ⟨s, rfl⟩
    | some p =>
      obtain ⟨c, u⟩ := p
      exact UnsubscribeFromChat_total _ c u
        (Inv_of_pointwise s ⟨s.chans, s.chatSubscriptions, s.waiting, s.spawned.eraseIdx i⟩ hI
          rfl rfl (fun i ch hi => ⟨ch, hi, rfl, rfl, fun x => x⟩))
  | done ctx => exact ⟨_, rfl⟩
  | recv c => exact ⟨_, rfl⟩

/-- A call of `UnsubscribeFromChat` for a registered pair closes the channel of the pair,
removes the pair and touches no other channel. -/
theorem UnsubscribeFromChat_registered (s : realtimeService) (hI : Inv s) (c u : String)
    (k : Nat) (ch : Chan) (hsub : subscription s c u = some k) (hch : s.chans[k]? = some ch) :
    ∃ s1, UnsubscribeFromChat s c u = some s1 ∧ Inv s1 ∧
      subscription s1 c u = none ∧
      s1.chans[k]? = some ⟨ch.buf, ch.cap, true⟩ ∧
      (∀ j : Nat, j ≠ k → s1.chans[j]? = s.chans[j]?) ∧
      s1.waiting = s.waiting ∧ s1.spawned = s.spawned := by
  obtain ⟨s1, hun⟩ := UnsubscribeFromChat_total s c u hI
  refine ⟨s1, hun, Inv_UnsubscribeFromChat s s1 c u hI hun, ?_, ?_, ?_, ?_, ?_⟩
  · rw [subscription_UnsubscribeFromChat s s1 c u c u hun]
    simp
  all_goals
    rcases UnsubscribeFromChat_cases s s1 c u hun with
      ⟨hn, _⟩ | ⟨m, k1, ch1, hm, hk1, hch1, _, hchans, _, hw, hsp⟩
    · rw [hsub] at hn
      cases hn
    · have hk : subscription s c u = some k1 := by
        simp only [subscription, hm]
        exact hk1
      rw [hsub] at hk
      cases hk
      rw [hch] at hch1
      cases hch1
      first
        | exact hw
        | exact hsp
        | (rw [hchans]; exact getElem?_set_at s.chans k ch _ hch)
        | (intro j hj; rw [hchans]; exact List.getElem?_set_ne (fun e => hj e.symm))

/-- C30: in every reachable state of the realtime service every channel stored in the
registry is allocated and open; no operation panics, so no channel is closed twice and
`BroadcastMessage` never sends on a closed channel; and a call of `UnsubscribeFromChat`
that closes a channel removes its pair from the registry in the same step and closes
no other channel. -/
theorem C30_registered_queues_are_open (s : realtimeService) (h : Reachable s) :
    (∀ c u k, subscription s c u = some k → ∃ ch, s.chans[k]? = some ch ∧ ch.closed = false) ∧
    (∀ op, ∃ s1, step s op = some s1) ∧
    (∀ c e, ∃ s1, BroadcastMessage s c e = some s1) ∧
    (∀ c u, ∃ s1, UnsubscribeFromChat s c u = some s1 ∧
      ∀ (j : Nat) (ch : Chan), s.chans[j]? = some ch → ch.closed = false →
        (s1.chans[j]? = some ch ∨
          (s1.chans[j]? = some ⟨ch.buf, ch.cap, true⟩ ∧ subscription s c u = some j ∧
            subscription s1 c u = none))) := by
  have hI := Inv_of_Reachable s h
  refine ⟨hI.live, step_total s hI, ?_, ?_⟩
  · intro c e
    obtain ⟨s1, hb, _⟩ := BroadcastMessage_spec s hI c e
    exact ⟨s1, hb⟩
  · intro c u
    cases hsub : subscription s c u with
    | none =>
      exact ⟨s, UnsubscribeFromChat_absent s c u hsub, fun j ch hj _ => Or.inl hj⟩
    | some k =>
      obtain ⟨ch0, hch0, _⟩ := hI.live c u k hsub
      obtain ⟨s1, hun, _, hgone, hk, hother, _, _⟩ :=
        UnsubscribeFromChat_registered s hI c u k ch0 hsub hch0
      refine ⟨s1, hun, fun j ch hj _ => ?_⟩
      by_cases hjk : j = k
      · subst hjk
        rw [hch0] at hj
        cases hj
        exact Or.inr ⟨hk, rfl, hgone⟩
      · exact Or.inl ((hother j hjk).trans hj)

theorem C30_registered_queues_are_open_witness :
    ∃ ch, fullQueue.chans[0]? = some ch ∧ ch.closed = false :=
  (C30_registered_queues_are_open fullQueue
    (Reachable_run _ _ _ Reachable.init run_fullQueueOps)).1 "c1" "u1" 0 (by decide)

/-! ## Cleanup goroutines are keyed by the pair -/

/-- A spawned goroutine `UnsubscribeFromChat(c, u)` that runs while the pair is registered
closes the channel registered at that time, removes the pair and touches no other
channel. -/
theorem runSpawned_registered (s : realtimeService) (hI : Inv s) (i : Nat) (c u : String)
    (hi : s.spawned[i]? = some (c, u)) (k : Nat) (ch : Chan)
    (hsub : subscription s c u = some k) (hch : s.chans[k]? = some ch) :
    ∃ s1, runSpawned s i = some s1 ∧ subscription s1 c u = none ∧
      s1.chans[k]? = some ⟨ch.buf, ch.cap, true⟩ ∧
      (∀ j : Nat, j ≠ k → s1.chans[j]? = s.chans[j]?) := by
  have hIr : Inv ⟨s.chans, s.chatSubscriptions, s.waiting, s.spawned.eraseIdx i⟩ :=
    Inv_of_pointwise s _ hI rfl rfl (fun i ch hi => ⟨ch, hi, rfl, rfl, fun x => x⟩)
  obtain ⟨s1, hun, _, hgone, hk, hother, _, _⟩ := UnsubscribeFromChat_registered
    ⟨s.chans, s.chatSubscriptions, s.waiting, s.spawned.eraseIdx i⟩ hIr c u k ch hsub hch
  exact ⟨s1, by simp [runSpawned, hi, hun], hgone, hk, hother⟩

theorem getElem?_two_appended (l : List Chan) (a b : Chan) :
    ((l ++ [a]) ++ [b])[l.length + 1]? = some b ∧ ((l ++ [a]) ++ [b])[l.length]? = some a := by
  constructor
  · have := List.getElem?_concat_length (l ++ [a]) b
    simpa using this
  · rw [List.getElem?_append_left (by simp)]
    exact List.getElem?_concat_length l a

/-- C28: (1) after the pair `(c, u)` subscribes with context `ctx1` and then again with
another context `ctx2`, cancelling `ctx1` releases the cleanup goroutine of the first
subscription while the goroutine of the second keeps waiting; when the released
goroutine runs it closes and removes the queue of the second subscription, and the
queue of the first stays open.  (2) When a broadcast finds the queue of `(c, u)` full
and `(c, u)` subscribes again before the spawned eviction runs, the eviction closes and
removes the new queue, and the full queue stays open. -/
theorem C28_cleanup_hits_the_current_queue (s : realtimeService) (h : Reachable s)
    (ctx1 ctx2 : Nat) (c u : String) (hctx : ctx1 ≠ ctx2) :
    (∃ i, (ctxDone (SubscribeToChat (SubscribeToChat s ctx1 c u).1 ctx2 c u).1 ctx1).spawned[i]?
        = some (c, u) ∧
      (ctx2, c, u) ∈
        (ctxDone (SubscribeToChat (SubscribeToChat s ctx1 c u).1 ctx2 c u).1 ctx1).waiting ∧
      ∃ s4, runSpawned (ctxDone (SubscribeToChat (SubscribeToChat s ctx1 c u).1 ctx2 c u).1 ctx1) i
          = some s4 ∧
        subscription s4 c u = none ∧
        s4.chans[s.chans.length + 1]? = some ⟨[], 100, true⟩ ∧
        s4.chans[s.chans.length]? = some ⟨[], 100, false⟩) ∧
    (∀ (k : Nat) (ch : Chan) (e : ChatMessage), subscription s c u = some k →
      s.chans[k]? = some ch → ch.buf.length = 100 →
      ∃ s1, BroadcastMessage s c e = some s1 ∧
        ∃ i, (SubscribeToChat s1 ctx2 c u).1.spawned[i]? = some (c, u) ∧
        ∃ s3, runSpawned (SubscribeToChat s1 ctx2 c u).1 i = some s3 ∧
          subscription s3 c u = none ∧
          s3.chans[s1.chans.length]? = some ⟨[], 100, true⟩ ∧
          s3.chans[k]? = some ch) := by
  have hI := Inv_of_Reachable s h
  constructor
  · have hI1 := Inv_SubscribeToChat s ctx1 c u hI
    have hI2 := Inv_SubscribeToChat (SubscribeToChat s ctx1 c u).1 ctx2 c u hI1
    have hI3 : Inv (ctxDone (SubscribeToChat (SubscribeToChat s ctx1 c u).1 ctx2 c u).1 ctx1) :=
      Inv_of_pointwise _ _ hI2 rfl rfl (fun i ch hi => ⟨ch, hi, rfl, rfl, fun x => x⟩)
    have hsub : subscription
        (ctxDone (SubscribeToChat (SubscribeToChat s ctx1 c u).1 ctx2 c u).1 ctx1) c u
        = some (s.chans.length + 1) := by
      have := subscription_SubscribeToChat (SubscribeToChat s ctx1 c u).1 ctx2 c u c u
      simp only [and_self, if_true] at this
      have e := subscription_congr (SubscribeToChat (SubscribeToChat s ctx1 c u).1 ctx2 c u).1
        (ctxDone (SubscribeToChat (SubscribeToChat s ctx1 c u).1 ctx2 c u).1 ctx1) rfl c u
      rw [e, this]
      simp [SubscribeToChat]
    have hmem : (c, u) ∈
        (ctxDone (SubscribeToChat (SubscribeToChat s ctx1 c u).1 ctx2 c u).1 ctx1).spawned := by
      simp only [ctxDone, SubscribeToChat, List.mem_append, List.mem_map, List.mem_filter,
        decide_eq_true_eq]
      right
      exact ⟨(ctx1, c, u), ⟨by simp, rfl⟩, rfl⟩
    obtain ⟨i, hi⟩ := List.mem_iff_getElem?.1 hmem
    have hch2 : (ctxDone (SubscribeToChat (SubscribeToChat s ctx1 c u).1 ctx2 c u).1
        ctx1).chans[s.chans.length + 1]? = some ⟨[], 100, false⟩ :=
      (getElem?_two_appended s.chans makeChan makeChan).1
    have hch1 : (ctxDone (SubscribeToChat (SubscribeToChat s ctx1 c u).1 ctx2 c u).1
        ctx1).chans[s.chans.length]? = some ⟨[], 100, false⟩ :=
      (getElem?_two_appended s.chans makeChan makeChan).2
    obtain ⟨s4, hrun, hgone, hk, hother⟩ := runSpawned_registered _ hI3 i c u hi
      (s.chans.length + 1) ⟨[], 100, false⟩ hsub hch2
    refine ⟨i, hi, ?_, s4, hrun, hgone, hk, ?_⟩
    · have hne : ¬ ctx2 = ctx1 := fun e => hctx e.symm
      simp [ctxDone, SubscribeToChat, List.mem_filter, hne]
    · rw [hother s.chans.length (by omega)]
      exact hch1
  · intro k ch e hsub hch hfull
    obtain ⟨s1, hb, hsubs, _, _, hB, _, _⟩ := BroadcastMessage_spec s hI c e
    have hcap : ch.cap = 100 := (hI.bounded ch (List.mem_iff_getElem?.2 ⟨k, hch⟩)).1
    have hnot : ¬ ch.buf.length < ch.cap := by
      rw [hcap, hfull]
      exact Nat.lt_irrefl _
    obtain ⟨hkeep, hsp⟩ := (hB u k ch hsub hch).2 hnot
    have hI1 := Inv_BroadcastMessage s s1 c e hI hb
    have hI2 := Inv_SubscribeToChat s1 ctx2 c u hI1
    have hmem : (c, u) ∈ (SubscribeToChat s1 ctx2 c u).1.spawned := by
      simpa [SubscribeToChat] using hsp
    obtain ⟨i, hi⟩ := List.mem_iff_getElem?.1 hmem
    have hsub2 : subscription (SubscribeToChat s1 ctx2 c u).1 c u = some s1.chans.length := by
      rw [subscription_SubscribeToChat]
      simp
    have hch2 : (SubscribeToChat s1 ctx2 c u).1.chans[s1.chans.length]?
        = some ⟨[], 100, false⟩ := by
      simp [SubscribeToChat, makeChan]
    obtain ⟨hlt, _⟩ := List.getElem?_eq_some.1 hkeep
    have hchk : (SubscribeToChat s1 ctx2 c u).1.chans[k]? = some ch := by
      simp only [SubscribeToChat]
      rw [List.getElem?_append_left hlt]
      exact hkeep
    obtain ⟨s3, hrun, hgone, hk, hother⟩ := runSpawned_registered _ hI2 i c u hi
      s1.chans.length ⟨[], 100, false⟩ hsub2 hch2
    refine ⟨s1, hb, i, hi, s3, hrun, hgone, hk, ?_⟩
    rw [hother k (by omega)]
    exact hchk

theorem C28_cleanup_hits_the_current_queue_witness :
    ∃ i s4, runSpawned (ctxDone (SubscribeToChat (SubscribeToChat NewRealtimeService 1 "c1"
        "u1").1 2 "c1" "u1").1 1) i = some s4 ∧
      subscription s4 "c1" "u1" = none ∧
      s4.chans[1]? = some ⟨[], 100, true⟩ ∧ s4.chans[0]? = some ⟨[], 100, false⟩ := by
  obtain ⟨i, _, _, s4, h1, h2, h3, h4⟩ :=
    (C28_cleanup_hits_the_current_queue NewRealtimeService Reachable.init 1 2 "c1" "u1"
      (by decide)).1
  exact ⟨i, s4, h1, h2, h3, h4⟩

/-! ## The idempotency record after the send -/

/-- Once a key is recorded by a call that found it new, the key is live until its expiry
whatever the state of the other collaborators. -/
theorem recorded_key_is_live (r : Redis) (ttl : Int) (key : String) (dt : Nat)
    (hwin : 0 < ttl → (dt : Int) < ttl) :
    ((Redis.advance ⟨r.now, mapSet r.keys ("idempotency:" ++ key)
        (if 0 < ttl then some (r.now + ttl.toNat) else none), none, none⟩ dt).Exists
      ("idempotency:" ++ key)).1 = 1 := by
  simp only [Redis.advance, Redis.Exists, mapGet_mapSet, if_true]
  by_cases ht : 0 < ttl
  · have hlt := hwin ht
    have : r.now + dt < r.now + ttl.toNat := by omega
    simp [ht, this]
  · simp [ht]

/-- C29: two requests with empty idempotency keys whose strings user id ++ chat id ++
content are equal get the same derived key; so after the first is admitted, the second,
sent before the record expires, is rejected as a duplicate and changes nothing, also
when its user and chat differ from those of the first. -/
theorem C29_key_depends_on_concatenation (s : messagesService) (req1 req2 : SendMessageRequest)
    (dt : Nat) (h1 : req1.IdempotencyKey = "") (h2 : req2.IdempotencyKey = "")
    (hcat : req1.UserID ++ req1.ChatID ++ req1.Content
      = req2.UserID ++ req2.ChatID ++ req2.Content) :
    idempotencyKeyOf req1 = idempotencyKeyOf req2 ∧
    (s.cache.existsErr = none ∧ s.cache.setErr = none →
      s.messagesRepo.execErr = none →
      (s.cache.Exists ("idempotency:" ++ idempotencyKeyOf req1)).1 = 0 →
      (∀ rt, s.realtime = some rt → Reachable rt) →
      (0 < s.idempotency.ttl → (dt : Int) < s.idempotency.ttl) →
      ∃ s1, SendMessage s req1
          = some (s1, ⟨s.messagesRepo.ulid s.messagesRepo.issued⟩, none) ∧
        SendMessage (s1.advance dt) req2 = some (s1.advance dt, ⟨""⟩, some errDuplicate)) := by
  have hk : idempotencyKeyOf req1 = idempotencyKeyOf req2 := by
    simp [idempotencyKeyOf, h1, h2, hcat]
  refine ⟨hk, ?_⟩
  intro hcache hstore hnew hrt hwin
  obtain ⟨realtime1, hfirst⟩ := SendMessage_admitted s req1 hcache hstore hnew hrt
  refine ⟨_, hfirst, ?_⟩
  apply SendMessage_duplicate
  · rfl
  · rw [← hk]
    exact recorded_key_is_live s.cache s.idempotency.ttl (idempotencyKeyOf req1) dt hwin

theorem C29_key_depends_on_concatenation_witness :
    idempotencyKeyOf requestAbC = idempotencyKeyOf requestABc ∧
    ∃ s1, SendMessage sendService requestAbC = some (s1, ⟨"01ARZ3NDEKTSV4RRFFQ69G5FAV"⟩, none) ∧
      SendMessage (s1.advance 1000) requestABc
        = some (s1.advance 1000, ⟨""⟩, some errDuplicate) :=
  ⟨(C29_key_depends_on_concatenation sendService requestAbC requestABc 1000 rfl rfl
      (by decide)).1,
   (C29_key_depends_on_concatenation sendService requestAbC requestABc 1000 rfl rfl
      (by decide)).2 ⟨rfl, rfl⟩ rfl rfl (fun rt h => by cases h; exact Reachable.init)
      (fun _ => by decide)⟩

/-- C27: when the cache answers, the key is new and the storage `Send` fails with `e`,
`SendMessage` returns `e` with an empty response and persists no row, yet the key stays
recorded in the cache; a retry with the same request before the record expires is
rejected as a duplicate whatever the state of the storage then is, and persists
nothing. -/
theorem C27_record_outlives_failed_send (s : messagesService) (req : SendMessageRequest)
    (e : String) (dt : Nat)
    (hcache : s.cache.existsErr = none ∧ s.cache.setErr = none)
    (hnew : (s.cache.Exists ("idempotency:" ++ idempotencyKeyOf req)).1 = 0)
    (hfail : s.messagesRepo.execErr = some e)
    (hwin : 0 < s.idempotency.ttl → (dt : Int) < s.idempotency.ttl) :
    ∃ s1, SendMessage s req = some (s1, ⟨""⟩, some e) ∧
      s1.messagesRepo.rows = s.messagesRepo.rows ∧
      s1.realtime = s.realtime ∧
      (s1.cache.Exists ("idempotency:" ++ idempotencyKeyOf req)).1 = 1 ∧
      storageCallsOf (SendMessageTraced s req).2 =
        [.send ⟨"", idempotencyKeyOf req, req.UserID, req.ChatID, req.Content,
          MessageStatusSent, 0, 0, none⟩] ∧
      ∀ (repo2 : messagesRepository) (rt2 : Option realtimeService),
        SendMessage ⟨repo2, s1.cache.advance dt, s1.idempotency, rt2⟩ req =
          some (⟨repo2, s1.cache.advance dt, s1.idempotency, rt2⟩, ⟨""⟩, some errDuplicate) := by
  have h1 := CheckAndSetIdempotency_new s.idempotency s.cache (idempotencyKeyOf req)
    hcache.1 hcache.2 hnew
  have hfirst : SendMessage s req = some (⟨
      ⟨s.messagesRepo.rows, s.messagesRepo.users, s.messagesRepo.ulid,
        s.messagesRepo.issued + 1, s.messagesRepo.now, s.messagesRepo.execErr,
        s.messagesRepo.queryErr⟩,
      ⟨s.cache.now, mapSet s.cache.keys ("idempotency:" ++ idempotencyKeyOf req)
        (if 0 < s.idempotency.ttl then some (s.cache.now + s.idempotency.ttl.toNat) else none),
        none, none⟩, s.idempotency, s.realtime⟩, ⟨""⟩, some e) := by
    simp only [SendMessage, h1, messagesRepository.Send, hfail]
  have hlive0 := recorded_key_is_live s.cache s.idempotency.ttl (idempotencyKeyOf req) 0
    (fun ht => by have := hwin ht; omega)
  refine ⟨_, hfirst, rfl, rfl, ?_, ?_, ?_⟩
  · simpa [Redis.advance] using hlive0
  · simp only [SendMessageTraced, h1, messagesRepository.Send, hfail, storageCallsOf]
  · intro repo2 rt2
    apply SendMessage_duplicate
    · rfl
    · exact recorded_key_is_live s.cache s.idempotency.ttl (idempotencyKeyOf req) dt hwin

theorem C27_record_outlives_failed_send_witness :
    ∃ s1, SendMessage storageDownService keyedRequest = some (s1, ⟨""⟩, some "connection reset") ∧
      s1.messagesRepo.rows = [] ∧
      SendMessage ⟨sendService.messagesRepo, s1.cache.advance 1000, s1.idempotency, none⟩
          keyedRequest =
        some (⟨sendService.messagesRepo, s1.cache.advance 1000, s1.idempotency, none⟩, ⟨""⟩,
          some errDuplicate) := by
  obtain ⟨s1, h1, h2, _, _, _, h3⟩ := C27_record_outlives_failed_send storageDownService
    keyedRequest "connection reset" 1000 ⟨rfl, rfl⟩ rfl rfl (fun _ => by decide)
  exact ⟨s1, h1, h2, h3 sendService.messagesRepo none⟩

/-! ## The TTL of the idempotency service -/

/-- C24, the claim as stated fails: for n = 153722868 the product n * time.Minute exceeds
the largest 64-bit integer and wraps, so the TTL is negative and not n minutes. -/
theorem C24_large_ttl_overflows :
    (NewIdempotencyService 153722868).GetTTL = -9223371993709551616 ∧
    (NewIdempotencyService 153722868).GetTTL ≠ 153722868 * Minute := by
  decide

/-- C24, amended: for every n with 0 < n ≤ 153722867 the TTL of
`NewIdempotencyService(client, n)` is n minutes, and for every n ≤ 0 it is the default
of 10 minutes. -/
theorem C24_GetTTL (n : Int) :
    (0 < n → n ≤ 153722867 → (NewIdempotencyService n).GetTTL = n * Minute) ∧
    (n ≤ 0 → (NewIdempotencyService n).GetTTL = 10 * Minute) := by
  constructor
  · intro h1 h2
    have h3 : ¬ n ≤ 0 := by omega
    simp only [NewIdempotencyService, IdempotencyService.GetTTL, h3, if_false, wrapInt64, Minute]
    omega
  · intro h
    simp only [NewIdempotencyService, IdempotencyService.GetTTL, h, if_true, wrapInt64, Minute]
    decide

theorem C24_GetTTL_witness :
    (NewIdempotencyService 15).GetTTL = 15 * Minute ∧
    (NewIdempotencyService 0).GetTTL = 10 * Minute :=
  ⟨(C24_GetTTL 15).1 (by decide) (by decide), (C24_GetTTL 0).2 (by decide)⟩

/-! ## The loop of the delivery session -/

theorem run_oneEnvelopeOps : run NewRealtimeService oneEnvelopeOps = some oneEnvelope := by
  decide

theorem run_closedQueueOps : run NewRealtimeService closedQueueOps = some closedQueue := by
  decide

/-- C21, the claim as stated fails: when the write of an envelope taken from the queue
fails with `io.EOF`, the session returns nil, that is without an error; the envelope is
taken from the queue and not written. -/
theorem C21_EOF_closes_without_error :
    MessagesGRPCServer.SubscribeToChatLoop oneEnvelope eofStream (.streaming "c1" "u1" 0)
        .msgChan =
      (⟨[⟨[], 100, false⟩], [("c1", [("u1", 0)])], [(1, "c1", "u1")], []⟩, eofStream,
        .closed none) := by
  decide

/-- C21, amended: in the loop, an iteration that takes an envelope from the queue removes
it from the queue and writes it to the stream with its message id, chat id, sender id,
sender user name, content, sent-at and status unchanged; when the write succeeds the
session stays in its loop; when the write fails with an error other than `io.EOF` the
session returns the status Internal; when it fails with `io.EOF` the session returns
nil.  In both failures nothing is written. -/
theorem C21_forwarding (rt : realtimeService) (stream : ServerStream) (c u : String) (k : Nat)
    (ch : Chan) (msg : ChatMessage) (rest : List ChatMessage)
    (hch : rt.chans[k]? = some ch) (hbuf : ch.buf = msg :: rest) :
    (recvChan rt k).chans[k]? = some ⟨rest, ch.cap, ch.closed⟩ ∧
    (stream.sendErr = none →
      MessagesGRPCServer.SubscribeToChatLoop rt stream (.streaming c u k) .msgChan =
        (recvChan rt k,
          ⟨stream.ctx, stream.sent ++ [⟨msg.MessageID, msg.ChatID, msg.SenderID,
            msg.SenderUsername, msg.Content, msg.SentAt, msg.Status⟩], none⟩,
          .streaming c u k)) ∧
    (∀ m, stream.sendErr = some (.other m) →
      MessagesGRPCServer.SubscribeToChatLoop rt stream (.streaming c u k) .msgChan =
        (recvChan rt k, stream,
          .closed (some ⟨.Internal, "failed to send message: " ++ m⟩))) ∧
    (stream.sendErr = some .EOF →
      MessagesGRPCServer.SubscribeToChatLoop rt stream (.streaming c u k) .msgChan =
        (recvChan rt k, stream, .closed none)) := by
  refine ⟨?_, ?_, ?_, ?_⟩
  · simp only [recvChan, hch, hbuf, List.tail_cons]
    exact getElem?_set_at rt.chans k ch _ hch
  · intro hok
    simp [MessagesGRPCServer.SubscribeToChatLoop, hch, hbuf, ServerStream.Send, hok]
  · intro m herr
    simp [MessagesGRPCServer.SubscribeToChatLoop, hch, hbuf, ServerStream.Send, herr,
      StreamErr.Error]
  · intro herr
    simp [MessagesGRPCServer.SubscribeToChatLoop, hch, hbuf, ServerStream.Send, herr]

theorem C21_forwarding_witness :
    MessagesGRPCServer.SubscribeToChatLoop oneEnvelope ackedStream (.streaming "c1" "u1" 0)
        .msgChan =
      (recvChan oneEnvelope 0,
        ⟨userContext, ackedStream.sent ++ [⟨"m1", "c1", "u1", "alice", "hello", 0, "SENT"⟩], none⟩,
        .streaming "c1" "u1" 0) :=
  (C21_forwarding oneEnvelope ackedStream "c1" "u1" 0 ⟨[env1], 100, false⟩ env1 [] (by decide)
    rfl).2.1 rfl

/-- A session whose queue is closed forwards the envelopes still buffered, one per
iteration, and then returns nil. -/
theorem drain_closed_queue (c u : String) (k cap : Nat) :
    ∀ (buf : List ChatMessage) (rt : realtimeService) (stream : ServerStream),
    rt.chans[k]? = some ⟨buf, cap, true⟩ → stream.sendErr = none →
    ∃ rt1, runSession (rt, stream, .streaming c u k)
        (List.replicate (buf.length + 1) (.select .msgChan)) =
        some (rt1,
          ⟨stream.ctx, stream.sent ++ buf.map (fun msg => (⟨msg.MessageID, msg.ChatID,
            msg.SenderID, msg.SenderUsername, msg.Content, msg.SentAt, msg.Status⟩ :
              pb.ChatMessage)), none⟩,
          .closed none) ∧
      rt1.chans[k]? = some ⟨[], cap, true⟩ ∧
      rt1.chatSubscriptions = rt.chatSubscriptions := by
  intro buf
  induction buf with
  | nil =>
    intro rt stream hch hok
    refine ⟨rt, ?_, hch, rfl⟩
    obtain ⟨ctx, sent, sendErr⟩ := stream
    simp only at hok
    subst hok
    simp [runSession, MessagesGRPCServer.SubscribeToChatLoop, hch]
  | cons msg rest ih =>
    intro rt stream hch hok
    have hrecv : (recvChan rt k).chans[k]? = some ⟨rest, cap, true⟩ := by
      simp only [recvChan, hch, List.tail_cons]
      exact getElem?_set_at rt.chans k _ _ hch
    obtain ⟨rt1, hrun, hk, hsubs⟩ := ih (recvChan rt k)
      ⟨stream.ctx, stream.sent ++ [⟨msg.MessageID, msg.ChatID, msg.SenderID,
        msg.SenderUsername, msg.Content, msg.SentAt, msg.Status⟩], none⟩ hrecv rfl
    refine ⟨rt1, ?_, hk, ?_⟩
    · have hloop : MessagesGRPCServer.SubscribeToChatLoop rt stream (.streaming c u k) .msgChan =
          (recvChan rt k, ⟨stream.ctx, stream.sent ++ [⟨msg.MessageID, msg.ChatID, msg.SenderID,
            msg.SenderUsername, msg.Content, msg.SentAt, msg.Status⟩], none⟩,
            .streaming c u k) := by
        simp [MessagesGRPCServer.SubscribeToChatLoop, hch, ServerStream.Send, hok]
      rw [List.length_cons, List.replicate_succ, runSession, hloop, hrun]
      simp
    · rw [hsubs]
      simp [recvChan, hch]

/-- Cancelling the context of a subscription releases its cleanup goroutine, once. -/
theorem ctxDone_SubscribeToChat (s : realtimeService) (ctx : Nat) (c u : String)
    (hfresh : ∀ w ∈ s.waiting, w.1 ≠ ctx) :
    (ctxDone (SubscribeToChat s ctx c u).1 ctx).spawned = s.spawned ++ [(c, u)] ∧
    (ctxDone (SubscribeToChat s ctx c u).1 ctx).waiting = s.waiting ∧
    ctxDone (ctxDone (SubscribeToChat s ctx c u).1 ctx) ctx
      = ctxDone (SubscribeToChat s ctx c u).1 ctx := by
  have h1 : s.waiting.filter (fun w => decide (w.1 = ctx)) = [] := by
    rw [List.filter_eq_nil_iff]
    intro w hw
    simpa using hfresh w hw
  have h2 : s.waiting.filter (fun w => !decide (w.1 = ctx)) = s.waiting := by
    rw [List.filter_eq_self]
    intro w hw
    simpa using hfresh w hw
  have hsp : (ctxDone (SubscribeToChat s ctx c u).1 ctx).spawned = s.spawned ++ [(c, u)] := by
    simp [ctxDone, SubscribeToChat, List.filter_append, h1]
  have hw : (ctxDone (SubscribeToChat s ctx c u).1 ctx).waiting = s.waiting := by
    simp [ctxDone, SubscribeToChat, List.filter_append, h2]
  refine ⟨hsp, hw, ?_⟩
  have e : ctxDone (ctxDone (SubscribeToChat s ctx c u).1 ctx) ctx =
      ⟨(ctxDone (SubscribeToChat s ctx c u).1 ctx).chans,
        (ctxDone (SubscribeToChat s ctx c u).1 ctx).chatSubscriptions,
        (ctxDone (SubscribeToChat s ctx c u).1 ctx).waiting.filter
          (fun w => !decide (w.1 = ctx)),
        (ctxDone (SubscribeToChat s ctx c u).1 ctx).spawned ++
          ((ctxDone (SubscribeToChat s ctx c u).1 ctx).waiting.filter
            (fun w => decide (w.1 = ctx))).map (fun w => w.2)⟩ := rfl
  rw [e, hw, h1, h2]
  simp only [List.map_nil, List.append_nil]
  rw [← hw]

/-! ## A delivery session with the cancellation of its context -/

/-- The calls that the cancellation of a context releases are the goroutines blocked on
it: `ctxDone` moves exactly them to the goroutines about to call `UnsubscribeFromChat`. -/
theorem ctxDone_spawned (rt : realtimeService) (ctx : Nat) :
    (ctxDone rt ctx).spawned = rt.spawned ++ waitingOn rt ctx ∧
    waitingOn (ctxDone rt ctx) ctx = [] := by
  refine ⟨rfl, ?_⟩
  simp [waitingOn, ctxDone, List.filter_filter]

/-- The method `UnsubscribeFromChat` starts and releases no goroutine. -/
theorem UnsubscribeFromChat_waiting (s s1 : realtimeService) (c u : String)
    (h : UnsubscribeFromChat s c u = some s1) :
    s1.waiting = s.waiting ∧ s1.spawned = s.spawned := by
  unfold UnsubscribeFromChat at h
  split at h
  · cases h; exact ⟨rfl, rfl⟩
  · split at h
    · cases h; exact ⟨rfl, rfl⟩
    · split at h
      · cases h
      · simp only at h
        split at h <;> (cases h; exact ⟨rfl, rfl⟩)

/-- An operation on the registry other than a subscription with the context `ctx`
changes the goroutines blocked on `ctx` only when it cancels `ctx`, and then none
is blocked any more. -/
theorem waitingOn_step (rt rt1 : realtimeService) (op : Op) (ctx : Nat)
    (hop : ∀ c1 u1, op ≠ .subscribe ctx c1 u1) (h : step rt op = some rt1) :
    waitingOn rt1 ctx = if op = .done ctx then [] else waitingOn rt ctx := by
  cases op with
  | subscribe ctx1 c1 u1 =>
    have hne : ¬ ctx1 = ctx := fun e => hop c1 u1 (by rw [e])
    simp only [step, Option.some.injEq] at h
    subst h
    simp [waitingOn, SubscribeToChat, List.filter_append, hne]
  | unsubscribe c1 u1 =>
    simp only [step] at h
    simp [waitingOn, (UnsubscribeFromChat_waiting rt rt1 c1 u1 h).1]
  | broadcast c1 m =>
    simp only [step, BroadcastMessage] at h
    split at h
    · cases h; simp
    · split at h
      · cases h
      · cases h; simp [waitingOn]
  | spawned i =>
    simp only [step, runSpawned] at h
    split at h
    · cases h; simp
    · simp [waitingOn, (UnsubscribeFromChat_waiting _ rt1 _ _ h).1]
  | done ctx1 =>
    simp only [step, Option.some.injEq] at h
    subst h
    by_cases e : ctx1 = ctx
    · subst e
      simp [waitingOn, ctxDone, List.filter_filter]
    · have hne : ¬ Op.done ctx1 = Op.done ctx := fun h => e (by cases h; rfl)
      rw [if_neg hne]
      simp only [waitingOn, ctxDone, List.filter_filter]
      congr 1
      apply List.filter_congr
      intro w _
      by_cases hw : w.1 = ctx
      · have : ¬ ctx = ctx1 := fun h => e h.symm
        simp [hw, this]
      · simp [hw]
  | recv k =>
    simp only [step, Option.some.injEq, recvChan] at h
    split at h <;> (subst h; simp [waitingOn])

/-- An iteration of the loop starts and releases no goroutine and keeps the context of
the stream. -/
theorem SubscribeToChatLoop_frame (rt : realtimeService) (stream : ServerStream)
    (sess : Session) (sc : SelectCase) :
    (MessagesGRPCServer.SubscribeToChatLoop rt stream sess sc).1.waiting = rt.waiting ∧
    (MessagesGRPCServer.SubscribeToChatLoop rt stream sess sc).1.spawned = rt.spawned ∧
    (MessagesGRPCServer.SubscribeToChatLoop rt stream sess sc).2.1.ctx = stream.ctx := by
  cases sess with
  | closed err => simp [MessagesGRPCServer.SubscribeToChatLoop]
  | streaming chatID userID msgChan =>
    cases sc with
    | ctxDone => simp [MessagesGRPCServer.SubscribeToChatLoop]
    | msgChan =>
      simp only [MessagesGRPCServer.SubscribeToChatLoop]
      cases hch : rt.chans[msgChan]? with
      | none => simp
      | some ch =>
        simp only
        cases hbuf : ch.buf with
        | nil => by_cases hcl : ch.closed = true <;> simp [hcl]
        | cons msg rest =>
          simp only [ServerStream.Send]
          cases hse : stream.sendErr with
          | none => simp [recvChan, hch]
          | some e => cases e <;> simp [recvChan, hch]

/-- On a transport that works, an iteration of the loop leaves the session in its loop or
returns nil. -/
theorem SubscribeToChatLoop_working (rt : realtimeService) (stream : ServerStream)
    (sess : Session) (sc : SelectCase) (c u : String) (k : Nat)
    (hok : stream.sendErr = none) (hs : sess = .streaming c u k ∨ sess = .closed none) :
    (MessagesGRPCServer.SubscribeToChatLoop rt stream sess sc).2.1.sendErr = none ∧
    ((MessagesGRPCServer.SubscribeToChatLoop rt stream sess sc).2.2 = .streaming c u k ∨
      (MessagesGRPCServer.SubscribeToChatLoop rt stream sess sc).2.2 = .closed none) := by
  rcases hs with hs | hs
  · subst hs
    cases sc with
    | ctxDone => simp [MessagesGRPCServer.SubscribeToChatLoop, hok]
    | msgChan =>
      simp only [MessagesGRPCServer.SubscribeToChatLoop]
      cases hch : rt.chans[k]? with
      | none => simp [hok]
      | some ch =>
        simp only
        cases hbuf : ch.buf with
        | nil => by_cases hcl : ch.closed = true <;> simp [hcl, hok]
        | cons msg rest => simp [ServerStream.Send, hok]
  · subst hs
    simp [MessagesGRPCServer.SubscribeToChatLoop, hok]

/-- One event keeps the account of the cleanup goroutine of a session: while the context
of the stream is not cancelled the goroutine is blocked and no call is released, and
once it is cancelled the one call `UnsubscribeFromChat(c, u)` is released and no
goroutine is blocked on the context. -/
theorem Connection_step_inv (ctx : Nat) (c u : String) (conn conn1 : Connection)
    (ev : SessionEvent) (hctx : conn.stream.ctx.id = ctx)
    (hrel : conn.released = if conn.cancelled = true then [(c, u)] else [])
    (hwait : waitingOn conn.rt ctx = if conn.cancelled = true then [] else [(c, u)])
    (hev : ∀ c1 u1, ev ≠ .registry (.subscribe ctx c1 u1))
    (h : conn.step ev = some conn1) :
    conn1.stream.ctx.id = ctx ∧
    (conn1.released = if conn1.cancelled = true then [(c, u)] else []) ∧
    (waitingOn conn1.rt ctx = if conn1.cancelled = true then [] else [(c, u)]) ∧
    (conn1.cancelled = true ↔ conn.cancelled = true ∨ ev = .registry (.done ctx)) := by
  cases ev with
  | select sc =>
    simp only [Connection.step] at h
    by_cases hr : sc.ready conn = true
    · rw [if_pos hr] at h
      simp only [Option.some.injEq] at h
      subst h
      obtain ⟨hw, _, hc⟩ := SubscribeToChatLoop_frame conn.rt conn.stream conn.session sc
      refine ⟨by simp only; rw [hc]; exact hctx, hrel, ?_, by simp⟩
      simp only [waitingOn] at hwait ⊢
      rw [hw]
      exact hwait
    · rw [if_neg hr] at h
      simp only [Option.some.injEq] at h
      subst h
      exact ⟨hctx, hrel, hwait, by simp⟩
  | registry op =>
    simp only [Connection.step] at h
    cases hs : step conn.rt op with
    | none => simp [hs] at h
    | some rt1 =>
      rw [hs] at h
      simp only at h
      have hop : ∀ c1 u1, op ≠ .subscribe ctx c1 u1 := fun c1 u1 e => hev c1 u1 (by rw [e])
      have hw := waitingOn_step conn.rt rt1 op ctx hop hs
      rw [hctx] at h
      by_cases hd : op = .done ctx
      · rw [if_pos hd] at h
        simp only [Option.some.injEq] at h
        subst h
        rw [if_pos hd] at hw
        refine ⟨hctx, ?_, by simpa using hw, by simp [hd]⟩
        simp only [if_true]
        rw [hrel, hwait]
        by_cases hc : conn.cancelled = true <;> simp [hc]
      · rw [if_neg hd] at h
        simp only [Option.some.injEq] at h
        subst h
        rw [if_neg hd] at hw
        refine ⟨hctx, hrel, by rw [hw]; exact hwait, ?_⟩
        simp only [SessionEvent.registry.injEq, hd, or_false]
  | transport err =>
    simp only [Connection.step, Option.some.injEq] at h
    subst h
    exact ⟨hctx, hrel, hwait, by simp⟩

/-- The account of the cleanup goroutine of a session holds after every sequence of
events that has no other subscription on the context of the stream, and the context
is cancelled exactly when the sequence has the operation `done` on it. -/
theorem Connection_run_inv (ctx : Nat) (c u : String) (evs : List SessionEvent) :
    ∀ (conn final : Connection), conn.stream.ctx.id = ctx →
    (conn.released = if conn.cancelled = true then [(c, u)] else []) →
    (waitingOn conn.rt ctx = if conn.cancelled = true then [] else [(c, u)]) →
    (∀ c1 u1, SessionEvent.registry (.subscribe ctx c1 u1) ∉ evs) →
    Connection.run conn evs = some final →
    final.stream.ctx.id = ctx ∧
    (final.released = if final.cancelled = true then [(c, u)] else []) ∧
    (waitingOn final.rt ctx = if final.cancelled = true then [] else [(c, u)]) ∧
    (final.cancelled = true ↔
      conn.cancelled = true ∨ SessionEvent.registry (.done ctx) ∈ evs) := by
  induction evs with
  | nil =>
    intro conn final hctx hrel hwait _ h
    simp only [Connection.run, Option.some.injEq] at h
    subst h
    exact ⟨hctx, hrel, hwait, by simp⟩
  | cons ev evs ih =>
    intro conn final hctx hrel hwait hevs h
    simp only [Connection.run] at h
    cases hs : conn.step ev with
    | none => simp [hs] at h
    | some conn1 =>
      rw [hs] at h
      simp only at h
      have hev : ∀ c1 u1, ev ≠ .registry (.subscribe ctx c1 u1) :=
        fun c1 u1 e => hevs c1 u1 (by rw [e]; exact List.mem_cons_self _ _)
      obtain ⟨h1, h2, h3, h4⟩ := Connection_step_inv ctx c u conn conn1 ev hctx hrel hwait hev hs
      obtain ⟨g1, g2, g3, g4⟩ := ih conn1 final h1 h2 h3
        (fun c1 u1 hm => hevs c1 u1 (List.mem_cons_of_mem _ hm)) h
      refine ⟨g1, g2, g3, ?_⟩
      rw [g4, h4, List.mem_cons]
      constructor
      · rintro ((h | h) | h)
        · exact Or.inl h
        · exact Or.inr (Or.inl h.symm)
        · exact Or.inr (Or.inr h)
      · rintro (h | h | h)
        · exact Or.inl (Or.inl h)
        · exact Or.inl (Or.inr h.symm)
        · exact Or.inr h

/-- While the transport works, a session is in its loop or has returned nil, whatever
happens around it. -/
theorem Connection_run_no_error (c u : String) (k : Nat) (evs : List SessionEvent) :
    ∀ (conn final : Connection), conn.stream.sendErr = none →
    (conn.session = .streaming c u k ∨ conn.session = .closed none) →
    (∀ e, SessionEvent.transport (some e) ∉ evs) →
    Connection.run conn evs = some final →
    final.stream.sendErr = none ∧
      (final.session = .streaming c u k ∨ final.session = .closed none) := by
  induction evs with
  | nil =>
    intro conn final hok hs _ h
    simp only [Connection.run, Option.some.injEq] at h
    subst h
    exact ⟨hok, hs⟩
  | cons ev evs ih =>
    intro conn final hok hs hevs h
    simp only [Connection.run] at h
    cases hst : conn.step ev with
    | none => simp [hst] at h
    | some conn1 =>
      rw [hst] at h
      simp only at h
      have hevs1 : ∀ e, SessionEvent.transport (some e) ∉ evs :=
        fun e hm => hevs e (List.mem_cons_of_mem _ hm)
      refine ih conn1 final ?_ ?_ hevs1 h
      · cases ev with
        | select sc =>
          simp only [Connection.step] at hst
          by_cases hr : sc.ready conn = true
          · rw [if_pos hr] at hst
            simp only [Option.some.injEq] at hst
            subst hst
            exact (SubscribeToChatLoop_working conn.rt conn.stream conn.session sc c u k hok hs).1
          · rw [if_neg hr] at hst
            simp only [Option.some.injEq] at hst
            subst hst
            exact hok
        | registry op =>
          simp only [Connection.step] at hst
          cases hs1 : step conn.rt op with
          | none => simp [hs1] at hst
          | some rt1 =>
            rw [hs1] at hst
            simp only at hst
            split at hst <;> (simp only [Option.some.injEq] at hst; subst hst; exact hok)
        | transport err =>
          simp only [Connection.step, Option.some.injEq] at hst
          subst hst
          cases err with
          | none => rfl
          | some e => exact absurd (List.mem_cons_self _ _) (hevs e)
      · cases ev with
        | select sc =>
          simp only [Connection.step] at hst
          by_cases hr : sc.ready conn = true
          · rw [if_pos hr] at hst
            simp only [Option.some.injEq] at hst
            subst hst
            exact (SubscribeToChatLoop_working conn.rt conn.stream conn.session sc c u k hok hs).2
          · rw [if_neg hr] at hst
            simp only [Option.some.injEq] at hst
            subst hst
            exact hs
        | registry op =>
          simp only [Connection.step] at hst
          cases hs1 : step conn.rt op with
          | none => simp [hs1] at hst
          | some rt1 =>
            rw [hs1] at hst
            simp only at hst
            split at hst <;> (simp only [Option.some.injEq] at hst; subst hst; exact hs)
        | transport err =>
          simp only [Connection.step, Option.some.injEq] at hst
          subst hst
          exact hs

/-- A session that has returned writes nothing more and stays returned, whatever happens
around it. -/
theorem Connection_run_closed (evs : List SessionEvent) :
    ∀ (conn final : Connection) (err : Option Status), conn.session = .closed err →
    Connection.run conn evs = some final →
    final.stream.sent = conn.stream.sent ∧ final.session = .closed err := by
  induction evs with
  | nil =>
    intro conn final err hs h
    simp only [Connection.run, Option.some.injEq] at h
    subst h
    exact ⟨rfl, hs⟩
  | cons ev evs ih =>
    intro conn final err hs h
    simp only [Connection.run] at h
    cases hst : conn.step ev with
    | none => simp [hst] at h
    | some conn1 =>
      rw [hst] at h
      simp only at h
      have key : conn1.stream.sent = conn.stream.sent ∧ conn1.session = .closed err := by
        cases ev with
        | select sc =>
          simp only [Connection.step, hs, MessagesGRPCServer.SubscribeToChatLoop] at hst
          split at hst <;> (simp only [Option.some.injEq] at hst; subst hst; simp [hs])
        | registry op =>
          simp only [Connection.step] at hst
          cases hs1 : step conn.rt op with
          | none => simp [hs1] at hst
          | some rt1 =>
            rw [hs1] at hst
            simp only at hst
            split at hst <;> (simp only [Option.some.injEq] at hst; subst hst; exact ⟨rfl, hs⟩)
        | transport e =>
          simp only [Connection.step, Option.some.injEq] at hst
          subst hst
          exact ⟨rfl, hs⟩
      obtain ⟨g1, g2⟩ := ih conn1 final err key.2 h
      exact ⟨g1.trans key.1, g2⟩

/-- A session that has returned takes no case of its `select` any more. -/
theorem Connection_run_selects_closed (cs : List SelectCase) (conn : Connection)
    (err : Option Status) (hs : conn.session = .closed err) :
    Connection.run conn (cs.map .select) = some conn := by
  induction cs with
  | nil => rfl
  | cons sc cs ih =>
    have hst : conn.step (.select sc) = some conn := by
      obtain ⟨rt, stream, session, cancelled, released⟩ := conn
      simp only at hs
      subst hs
      simp only [Connection.step, MessagesGRPCServer.SubscribeToChatLoop]
      split <;> rfl
    simp only [List.map_cons, Connection.run, hst]
    exact ih

/-- On a transport that works, a session whose `select` takes ready cases returns nil
after at most one iteration more than the envelopes buffered in its queue, having
forwarded the first envelopes of the queue in order: all of them when the context is
not cancelled.  Its iterations release and start no goroutine. -/
theorem Connection_drain (c u : String) (k cap : Nat) (closed : Bool) :
    ∀ (buf : List ChatMessage) (conn : Connection) (cs : List SelectCase),
    conn.session = .streaming c u k → conn.rt.chans[k]? = some ⟨buf, cap, closed⟩ →
    conn.stream.sendErr = none → allReady conn cs = true → buf.length + 1 ≤ cs.length →
    ∃ final n, Connection.run conn (cs.map .select) = some final ∧
      final.session = .closed none ∧ n ≤ buf.length ∧
      (conn.cancelled = false → n = buf.length) ∧
      final.stream.sent = conn.stream.sent ++ (buf.take n).map (fun msg =>
        (⟨msg.MessageID, msg.ChatID, msg.SenderID, msg.SenderUsername, msg.Content,
          msg.SentAt, msg.Status⟩ : pb.ChatMessage)) ∧
      final.released = conn.released ∧ final.cancelled = conn.cancelled ∧
      final.rt.waiting = conn.rt.waiting ∧ final.rt.spawned = conn.rt.spawned := by
  intro buf
  induction buf with
  | nil =>
    intro conn cs hs hch hok hall hlen
    obtain ⟨rt, stream, session, cancelled, released⟩ := conn
    simp only at hs hch hok
    subst hs
    cases cs with
    | nil => simp at hlen
    | cons sc cs =>
      simp only [allReady, Bool.and_eq_true] at hall
      obtain ⟨hr, _⟩ := hall
      have hst : Connection.step ⟨rt, stream, .streaming c u k, cancelled, released⟩
          (.select sc) = some ⟨rt, stream, .closed none, cancelled, released⟩ := by
        cases sc with
        | ctxDone =>
          simp only [Connection.step, hr, if_true, MessagesGRPCServer.SubscribeToChatLoop]
        | msgChan =>
          have hcl : closed = true := by
            simpa [SelectCase.ready, hch] using hr
          subst hcl
          simp [Connection.step, hr, MessagesGRPCServer.SubscribeToChatLoop, hch]
      refine ⟨⟨rt, stream, .closed none, cancelled, released⟩, 0, ?_, rfl, Nat.le_refl _,
        fun _ => rfl, by simp, rfl, rfl, rfl, rfl⟩
      simp only [List.map_cons, Connection.run, hst]
      exact Connection_run_selects_closed cs _ none rfl
  | cons msg rest ih =>
    intro conn cs hs hch hok hall hlen
    obtain ⟨rt, stream, session, cancelled, released⟩ := conn
    simp only at hs hch hok
    subst hs
    cases cs with
    | nil => simp at hlen
    | cons sc cs =>
      simp only [allReady, Bool.and_eq_true] at hall
      obtain ⟨hr, hall1⟩ := hall
      cases sc with
      | ctxDone =>
        have hc : cancelled = true := by simpa [SelectCase.ready] using hr
        have hst : Connection.step ⟨rt, stream, .streaming c u k, cancelled, released⟩
            (.select .ctxDone) = some ⟨rt, stream, .closed none, cancelled, released⟩ := by
          simp only [Connection.step, hr, if_true, MessagesGRPCServer.SubscribeToChatLoop]
        refine ⟨⟨rt, stream, .closed none, cancelled, released⟩, 0, ?_, rfl, Nat.zero_le _,
          fun h => ?_, by simp, rfl, rfl, rfl, rfl⟩
        · simp only [List.map_cons, Connection.run, hst]
          exact Connection_run_selects_closed cs _ none rfl
        · simp only at h
          rw [hc] at h
          cases h
      | msgChan =>
        have hst : Connection.step ⟨rt, stream, .streaming c u k, cancelled, released⟩
            (.select .msgChan) = some ⟨recvChan rt k,
              ⟨stream.ctx, stream.sent ++ [⟨msg.MessageID, msg.ChatID, msg.SenderID,
                msg.SenderUsername, msg.Content, msg.SentAt, msg.Status⟩], none⟩,
              .streaming c u k, cancelled, released⟩ := by
          simp [Connection.step, hr, MessagesGRPCServer.SubscribeToChatLoop, hch,
            ServerStream.Send, hok]
        rw [hst] at hall1
        simp only at hall1
        have hrecv : (recvChan rt k).chans[k]? = some ⟨rest, cap, closed⟩ := by
          simp only [recvChan, hch, List.tail_cons]
          exact getElem?_set_at rt.chans k _ _ hch
        have hwait : (recvChan rt k).waiting = rt.waiting ∧
            (recvChan rt k).spawned = rt.spawned := by
          simp [recvChan, hch]
        obtain ⟨final, n, h1, h2, h3, h4, h5, h6, h7, h8, h9⟩ := ih
          ⟨recvChan rt k, ⟨stream.ctx, stream.sent ++ [⟨msg.MessageID, msg.ChatID,
            msg.SenderID, msg.SenderUsername, msg.Content, msg.SentAt, msg.Status⟩], none⟩,
            .streaming c u k, cancelled, released⟩ cs rfl hrecv rfl hall1
          (by simp only [List.length_cons] at hlen; omega)
        refine ⟨final, n + 1, ?_, h2, by simp only [List.length_cons]; omega, ?_, ?_, h6, h7,
          h8.trans hwait.1, h9.trans hwait.2⟩
        · simp only [List.map_cons, Connection.run, hst]
          exact h1
        · intro hc
          simp only [List.length_cons]
          rw [h4 hc]
        · rw [h5]
          simp

/-- When the handler reaches its loop, it has subscribed the user of the context to the
chat of the request with the context of the stream, and the transport works. -/
theorem Connection_accept_streaming (rt : realtimeService) (stream : ServerStream) (now : Nat)
    (req : pb.SubscribeToChatRequest) (c u : String) (k : Nat)
    (h : (Connection.accept rt stream now req).session = .streaming c u k) :
    (Connection.accept rt stream now req).rt = (SubscribeToChat rt stream.ctx.id c u).1 ∧
    (Connection.accept rt stream now req).stream.ctx = stream.ctx ∧
    (Connection.accept rt stream now req).stream.sendErr = none ∧
    (Connection.accept rt stream now req).cancelled = false ∧
    (Connection.accept rt stream now req).released = [] := by
  unfold Connection.accept MessagesGRPCServer.SubscribeToChat at h ⊢
  by_cases hreq : req.ChatId = ""
  · simp [hreq] at h
  · simp only [hreq, if_false] at h ⊢
    cases hu : GetUserFromContext stream.ctx with
    | mk userID p =>
      obtain ⟨username, email, e⟩ := p
      rw [hu] at h
      cases e with
      | some err => simp at h
      | none =>
        simp only [ServerStream.Send] at h ⊢
        cases hse : stream.sendErr with
        | some err => simp [hse] at h
        | none =>
          simp only [hse, Session.streaming.injEq] at h
          obtain ⟨h1, h2, _⟩ := h
          subst h1
          subst h2
          simp [hse]

/-- A closed channel stays closed, and only a receive changes its buffer: no operation
on the registry sends on it or closes it again. -/
theorem step_closed_chan (s s1 : realtimeService) (op : Op) (hI : Inv s) (k : Nat)
    (buf : List ChatMessage) (cap : Nat) (hch : s.chans[k]? = some ⟨buf, cap, true⟩)
    (h : step s op = some s1) :
    s1.chans[k]? = some ⟨buf, cap, true⟩ ∨ s1.chans[k]? = some ⟨buf.tail, cap, true⟩ := by
  have hunsub : ∀ (s0 s2 : realtimeService) (c1 u1 : String), s0.chans = s.chans →
      UnsubscribeFromChat s0 c1 u1 = some s2 → s2.chans[k]? = some ⟨buf, cap, true⟩ := by
    intro s0 s2 c1 u1 hs0 hu
    rcases UnsubscribeFromChat_cases s0 s2 c1 u1 hu with ⟨_, e⟩ | ⟨m, j, ch, _, _, hj, hopen, hc, _⟩
    · rw [e, hs0]
      exact hch
    · rw [hc, hs0]
      rw [hs0] at hj
      have hjk : j ≠ k := by
        intro e
        subst e
        rw [hch] at hj
        cases hj
        cases hopen
      rw [List.getElem?_set_ne hjk]
      exact hch
  cases op with
  | subscribe ctx1 c1 u1 =>
    simp only [step, Option.some.injEq] at h
    subst h
    have hk : k < s.chans.length := by
      by_contra hlt
      rw [List.getElem?_eq_none (by omega)] at hch
      cases hch
    left
    simp only [SubscribeToChat]
    rw [List.getElem?_append_left hk]
    exact hch
  | unsubscribe c1 u1 =>
    simp only [step] at h
    exact Or.inl (hunsub s s1 c1 u1 rfl h)
  | broadcast c1 e =>
    simp only [step] at h
    obtain ⟨s2, hb, _, _, hother, _⟩ := BroadcastMessage_spec s hI c1 e
    rw [hb] at h
    cases h
    left
    rw [hother k]
    · exact hch
    · intro u1 hsub
      obtain ⟨ch, hc, hopen⟩ := hI.live c1 u1 k hsub
      rw [hch] at hc
      cases hc
      cases hopen
  | spawned i =>
    simp only [step, runSpawned] at h
    split at h
    · cases h
      exact Or.inl hch
    · exact Or.inl (hunsub ⟨s.chans, s.chatSubscriptions, s.waiting, s.spawned.eraseIdx i⟩
        s1 _ _ rfl h)
  | done ctx1 =>
    simp only [step, Option.some.injEq] at h
    subst h
    exact Or.inl hch
  | recv j =>
    simp only [step, Option.some.injEq] at h
    subst h
    by_cases hjk : j = k
    · subst hjk
      right
      simp only [recvChan, hch]
      exact getElem?_set_at s.chans j _ _ hch
    · left
      simp only [recvChan]
      split
      · exact hch
      · simp only
        rw [List.getElem?_set_ne hjk]
        exact hch

/-- An iteration of the loop keeps the invariant of the registry. -/
theorem Inv_SubscribeToChatLoop (rt : realtimeService) (stream : ServerStream)
    (sess : Session) (sc : SelectCase) (hI : Inv rt) :
    Inv (MessagesGRPCServer.SubscribeToChatLoop rt stream sess sc).1 := by
  cases sess with
  | closed err => simpa [MessagesGRPCServer.SubscribeToChatLoop] using hI
  | streaming chatID userID msgChan =>
    cases sc with
    | ctxDone => simpa [MessagesGRPCServer.SubscribeToChatLoop] using hI
    | msgChan =>
      simp only [MessagesGRPCServer.SubscribeToChatLoop]
      cases hch : rt.chans[msgChan]? with
      | none => simpa using hI
      | some ch =>
        simp only
        cases hbuf : ch.buf with
        | nil => by_cases hcl : ch.closed = true <;> simpa [hcl] using hI
        | cons msg rest =>
          simp only [ServerStream.Send]
          cases hse : stream.sendErr with
          | none => simpa using Inv_recvChan rt msgChan hI
          | some e => cases e <;> simpa using Inv_recvChan rt msgChan hI

/-- The events around a session keep the invariant of the registry. -/
theorem Connection_run_Inv (evs : List SessionEvent) :
    ∀ (conn final : Connection), Inv conn.rt → Connection.run conn evs = some final →
    Inv final.rt := by
  induction evs with
  | nil =>
    intro conn final hI h
    simp only [Connection.run, Option.some.injEq] at h
    subst h
    exact hI
  | cons ev evs ih =>
    intro conn final hI h
    simp only [Connection.run] at h
    cases hst : conn.step ev with
    | none => simp [hst] at h
    | some conn1 =>
      rw [hst] at h
      simp only at h
      refine ih conn1 final ?_ h
      cases ev with
      | select sc =>
        simp only [Connection.step] at hst
        split at hst
        · simp only [Option.some.injEq] at hst
          subst hst
          exact Inv_SubscribeToChatLoop conn.rt conn.stream conn.session sc hI
        · simp only [Option.some.injEq] at hst
          subst hst
          exact hI
      | registry op =>
        simp only [Connection.step] at hst
        cases hs1 : step conn.rt op with
        | none => simp [hs1] at hst
        | some rt1 =>
          rw [hs1] at hst
          simp only at hst
          have hI1 := Inv_step conn.rt rt1 op hI hs1
          split at hst <;> (simp only [Option.some.injEq] at hst; subst hst; exact hI1)
      | transport err =>
        simp only [Connection.step, Option.some.injEq] at hst
        subst hst
        exact hI

/-- Once the queue of a session is closed, and while the transport works, the session
returns nil by the iteration of its case `msgChan` that follows the last buffered
envelope, whatever else happens in between, and it writes at most as many envelopes
as were buffered. -/
theorem Connection_closed_queue_returns (c u : String) (k cap : Nat)
    (evs : List SessionEvent) :
    ∀ (buf : List ChatMessage) (conn final : Connection), Inv conn.rt →
    (conn.session = .streaming c u k ∨ conn.session = .closed none) →
    conn.rt.chans[k]? = some ⟨buf, cap, true⟩ → conn.stream.sendErr = none →
    (∀ e, SessionEvent.transport (some e) ∉ evs) →
    Connection.run conn evs = some final →
    final.stream.sent.length ≤ conn.stream.sent.length + buf.length ∧
    (buf.length + 1 ≤ evs.count (.select .msgChan) → final.session = .closed none) := by
  induction evs with
  | nil =>
    intro buf conn final _ _ _ _ _ h
    simp only [Connection.run, Option.some.injEq] at h
    subst h
    exact ⟨Nat.le_add_right _ _, fun hc => by simp at hc⟩
  | cons ev evs ih =>
    intro buf conn final hI hs hch hok hevs h
    have hevs1 : ∀ e, SessionEvent.transport (some e) ∉ evs :=
      fun e hm => hevs e (List.mem_cons_of_mem _ hm)
    rcases hs with hs | hs
    swap
    · obtain ⟨g1, g2⟩ := Connection_run_closed (ev :: evs) conn final none hs h
      exact ⟨by rw [g1]; exact Nat.le_add_right _ _, fun _ => g2⟩
    simp only [Connection.run] at h
    cases hst : conn.step ev with
    | none => simp [hst] at h
    | some conn1 =>
      rw [hst] at h
      simp only at h
      obtain ⟨rt, stream, session, cancelled, released⟩ := conn
      simp only at hs hch hok hI
      subst hs
      cases ev with
      | select sc =>
        cases sc with
        | ctxDone =>
          simp only [Connection.step, MessagesGRPCServer.SubscribeToChatLoop] at hst
          have hcount : (SessionEvent.select .ctxDone :: evs).count (.select .msgChan) =
              evs.count (.select .msgChan) := by
            rw [List.count_cons_of_ne (by decide)]
          rw [hcount]
          split at hst
          · simp only [Option.some.injEq] at hst
            subst hst
            obtain ⟨g1, g2⟩ := Connection_run_closed evs _ final none rfl h
            exact ⟨by rw [g1]; exact Nat.le_add_right _ _, fun _ => g2⟩
          · simp only [Option.some.injEq] at hst
            subst hst
            exact ih buf _ final hI (Or.inl rfl) hch hok hevs1 h
        | msgChan =>
          have hr : SelectCase.ready .msgChan
              ⟨rt, stream, .streaming c u k, cancelled, released⟩ = true := by
            simp [SelectCase.ready, hch]
          rw [List.count_cons_self]
          cases buf with
          | nil =>
            simp [Connection.step, hr, MessagesGRPCServer.SubscribeToChatLoop, hch] at hst
            subst hst
            obtain ⟨g1, g2⟩ := Connection_run_closed evs _ final none rfl h
            exact ⟨by rw [g1]; exact Nat.le_add_right _ _, fun _ => g2⟩
          | cons msg rest =>
            simp [Connection.step, hr, MessagesGRPCServer.SubscribeToChatLoop, hch,
              ServerStream.Send, hok] at hst
            subst hst
            have hrecv : (recvChan rt k).chans[k]? = some ⟨rest, cap, true⟩ := by
              simp only [recvChan, hch, List.tail_cons]
              exact getElem?_set_at rt.chans k _ _ hch
            obtain ⟨g1, g2⟩ := ih rest _ final (Inv_recvChan rt k hI) (Or.inl rfl) hrecv rfl
              hevs1 h
            simp only [List.length_append, List.length_singleton, List.length_cons,
              List.length_nil] at g1 ⊢
            exact ⟨by omega, fun hc => g2 (by omega)⟩
      | registry op =>
        have hcount : (SessionEvent.registry op :: evs).count (.select .msgChan) =
            evs.count (.select .msgChan) := by
          rw [List.count_cons_of_ne (by simp)]
        rw [hcount]
        simp only [Connection.step] at hst
        cases hs1 : step rt op with
        | none => simp [hs1] at hst
        | some rt1 =>
          rw [hs1] at hst
          simp only at hst
          have hI1 := Inv_step rt rt1 op hI hs1
          have hk := step_closed_chan rt rt1 op hI k buf cap hch hs1
          have key : ∀ conn2 : Connection, conn2.rt = rt1 → conn2.stream = stream →
              conn2.session = .streaming c u k → Connection.run conn2 evs = some final →
              final.stream.sent.length ≤ stream.sent.length + buf.length ∧
              (buf.length + 1 ≤ evs.count (.select .msgChan) →
                final.session = .closed none) := by
            intro conn2 e1 e2 e3 hrun
            rcases hk with hk | hk
            · exact ih buf conn2 final (by rw [e1]; exact hI1) (Or.inl e3)
                (by rw [e1]; exact hk) (by rw [e2]; exact hok) hevs1 hrun |>.imp
                (by rw [e2]; exact id) id
            · obtain ⟨g1, g2⟩ := ih buf.tail conn2 final (by rw [e1]; exact hI1) (Or.inl e3)
                (by rw [e1]; exact hk) (by rw [e2]; exact hok) hevs1 hrun
              rw [e2] at g1
              have hl : buf.tail.length ≤ buf.length := by simp
              exact ⟨by omega, fun hc => g2 (by omega)⟩
          split at hst <;>
            (simp only [Option.some.injEq] at hst; subst hst; exact key _ rfl rfl rfl h)
      | transport err =>
        have hcount : (SessionEvent.transport err :: evs).count (.select .msgChan) =
            evs.count (.select .msgChan) := by
          rw [List.count_cons_of_ne (by simp)]
        rw [hcount]
        simp only [Connection.step, Option.some.injEq] at hst
        subst hst
        cases err with
        | some e => exact absurd (List.mem_cons_self _ _) (hevs e)
        | none =>
          exact ih buf ⟨rt, ⟨stream.ctx, stream.sent, none⟩, .streaming c u k, cancelled,
            released⟩ final hI (Or.inl rfl) hch rfl hevs1 h

/-- C22, the claim as stated fails, on the session of user "u1" in chat "c1" with one
envelope in its queue.  (1) After `UnsubscribeFromChat` has closed the queue, the next
iteration forwards the envelope and the session stays in its loop.  (2) After the
context is cancelled, the `select` can still take the envelope: the session forwards
it and stays in its loop.  (3) After the context is cancelled and the transport has
started to fail, the iteration that takes the envelope returns the status Internal.
(4) After the queue is closed and the session has returned nil, no call of
`UnsubscribeFromChat` is released: the cleanup goroutine still waits for the
cancellation of the context. -/
theorem C22_session_after_close_or_cancel :
    Connection.run (Connection.accept NewRealtimeService userStream 5 ⟨"c1"⟩)
        [.registry (.broadcast "c1" env1), .registry (.unsubscribe "c1" "u1"),
          .select .msgChan] =
      some ⟨⟨[⟨[], 100, true⟩], [], [(1, "c1", "u1")], []⟩,
        ⟨userContext,
          [⟨"connection", "c1", "u1", "alice", "Connected to chat", 5, "CONNECTED"⟩,
           ⟨"m1", "c1", "u1", "alice", "hello", 0, "SENT"⟩], none⟩,
        .streaming "c1" "u1" 0, false, []⟩ ∧
    Connection.run (Connection.accept NewRealtimeService userStream 5 ⟨"c1"⟩)
        [.registry (.broadcast "c1" env1), .registry (.done 1), .select .msgChan] =
      some ⟨⟨[⟨[], 100, false⟩], [("c1", [("u1", 0)])], [], [("c1", "u1")]⟩,
        ⟨userContext,
          [⟨"connection", "c1", "u1", "alice", "Connected to chat", 5, "CONNECTED"⟩,
           ⟨"m1", "c1", "u1", "alice", "hello", 0, "SENT"⟩], none⟩,
        .streaming "c1" "u1" 0, true, [("c1", "u1")]⟩ ∧
    Connection.run (Connection.accept NewRealtimeService userStream 5 ⟨"c1"⟩)
        [.registry (.broadcast "c1" env1), .registry (.done 1),
          .transport (some (.other "transport is closing")), .select .msgChan] =
      some ⟨⟨[⟨[], 100, false⟩], [("c1", [("u1", 0)])], [], [("c1", "u1")]⟩,
        ⟨userContext,
          [⟨"connection", "c1", "u1", "alice", "Connected to chat", 5, "CONNECTED"⟩],
          some (.other "transport is closing")⟩,
        .closed (some ⟨.Internal, "failed to send message: transport is closing"⟩), true,
        [("c1", "u1")]⟩ ∧
    Connection.run (Connection.accept NewRealtimeService userStream 5 ⟨"c1"⟩)
        [.registry (.broadcast "c1" env1), .registry (.unsubscribe "c1" "u1"),
          .select .msgChan, .select .msgChan] =
      some ⟨⟨[⟨[], 100, true⟩], [], [(1, "c1", "u1")], []⟩,
        ⟨userContext,
          [⟨"connection", "c1", "u1", "alice", "Connected to chat", 5, "CONNECTED"⟩,
           ⟨"m1", "c1", "u1", "alice", "hello", 0, "SENT"⟩], none⟩,
        .closed none, false, []⟩ := by
  decide

/-- C22, amended.  Take a delivery session that has reached its loop for the pair
`(c, u)` with queue `k`, on a stream whose context no other subscription uses, after
any sequence of events `evs` around it (iterations of its loop, operations of other
tasks on the realtime service, changes of the transport).  (1) The `select` of the loop
can take the case `ctx.Done` exactly when the context has been cancelled; (2) from
then on that case returns nil at once and writes nothing, and before it has no effect.
(3), (4) Exactly one call `UnsubscribeFromChat(c, u)` is released by the cleanup
goroutine of the session when the context has been cancelled, however often, and none
otherwise: the closing of the queue and the return of the session release none, and
the goroutine then still waits.  (5) While the transport has not failed, the session
is in its loop or has returned nil.  (6) Once the session has returned it writes
nothing more.  (7) When the queue is closed and the transport works, then whatever
else happens the session writes at most the envelopes buffered in the queue and has
returned nil by the iteration of the case `msgChan` that follows the last of them.
(8) When the context has been cancelled or the queue is closed, and the transport
works, the loop does not block, and whichever ready cases its `select` takes, the
session returns nil after at most one iteration more than the envelopes buffered in
its queue, having forwarded only the first of these envelopes in order (all of them
when the context is not cancelled); these iterations release no call. -/
theorem C22_session_termination (rt : realtimeService) (stream : ServerStream) (now : Nat)
    (req : pb.SubscribeToChatRequest) (c u : String) (k : Nat) (evs : List SessionEvent)
    (conn : Connection)
    (hreach : Reachable rt)
    (hfresh : waitingOn rt stream.ctx.id = [])
    (hopen : (Connection.accept rt stream now req).session = .streaming c u k)
    (hevs : ∀ c1 u1, SessionEvent.registry (.subscribe stream.ctx.id c1 u1) ∉ evs)
    (hrun : Connection.run (Connection.accept rt stream now req) evs = some conn) :
    (SelectCase.ready .ctxDone conn = true ↔
      SessionEvent.registry (.done stream.ctx.id) ∈ evs) ∧
    ((SessionEvent.registry (.done stream.ctx.id) ∈ evs → conn.session = .streaming c u k →
        conn.step (.select .ctxDone) =
          some ⟨conn.rt, conn.stream, .closed none, conn.cancelled, conn.released⟩) ∧
      (SessionEvent.registry (.done stream.ctx.id) ∉ evs →
        conn.step (.select .ctxDone) = some conn)) ∧
    (conn.released =
      if SessionEvent.registry (.done stream.ctx.id) ∈ evs then [(c, u)] else []) ∧
    (waitingOn conn.rt stream.ctx.id =
      if SessionEvent.registry (.done stream.ctx.id) ∈ evs then [] else [(c, u)]) ∧
    ((∀ e, SessionEvent.transport (some e) ∉ evs) →
      conn.session = .streaming c u k ∨ conn.session = .closed none) ∧
    (∀ err, conn.session = .closed err → ∀ evs1 final,
      Connection.run conn evs1 = some final →
      final.stream.sent = conn.stream.sent ∧ final.session = .closed err) ∧
    (∀ buf cap, conn.session = .streaming c u k →
      conn.rt.chans[k]? = some ⟨buf, cap, true⟩ → conn.stream.sendErr = none →
      ∀ evs1 final, (∀ e, SessionEvent.transport (some e) ∉ evs1) →
        Connection.run conn evs1 = some final →
        final.stream.sent.length ≤ conn.stream.sent.length + buf.length ∧
        (buf.length + 1 ≤ evs1.count (.select .msgChan) → final.session = .closed none)) ∧
    (∀ buf cap closed, conn.session = .streaming c u k →
      conn.rt.chans[k]? = some ⟨buf, cap, closed⟩ → conn.stream.sendErr = none →
      (SessionEvent.registry (.done stream.ctx.id) ∈ evs ∨ closed = true) →
      (∃ sc, SelectCase.ready sc conn = true) ∧
      ∀ cs, allReady conn cs = true → buf.length + 1 ≤ cs.length →
        ∃ final n, Connection.run conn (cs.map .select) = some final ∧
          final.session = .closed none ∧ n ≤ buf.length ∧
          (SessionEvent.registry (.done stream.ctx.id) ∉ evs → n = buf.length) ∧
          final.stream.sent = conn.stream.sent ++ (buf.take n).map (fun msg =>
            (⟨msg.MessageID, msg.ChatID, msg.SenderID, msg.SenderUsername, msg.Content,
              msg.SentAt, msg.Status⟩ : pb.ChatMessage)) ∧
          final.released = conn.released ∧ final.rt.waiting = conn.rt.waiting ∧
          final.rt.spawned = conn.rt.spawned) := by
  obtain ⟨hart, hctx, hok0, hc0, hr0⟩ :=
    Connection_accept_streaming rt stream now req c u k hopen
  have hctxid : (Connection.accept rt stream now req).stream.ctx.id = stream.ctx.id := by
    rw [hctx]
  have hrel0 : (Connection.accept rt stream now req).released =
      if (Connection.accept rt stream now req).cancelled = true then [(c, u)] else [] := by
    rw [hr0, hc0]
    simp
  have hwait0 : waitingOn (Connection.accept rt stream now req).rt stream.ctx.id =
      if (Connection.accept rt stream now req).cancelled = true then [] else [(c, u)] := by
    rw [hart, hc0]
    simp only [waitingOn] at hfresh
    simp [waitingOn, SubscribeToChat, List.filter_append, hfresh]
  have hI0 : Inv (Connection.accept rt stream now req).rt := by
    rw [hart]
    exact Inv_SubscribeToChat rt stream.ctx.id c u (Inv_of_Reachable rt hreach)
  have hI : Inv conn.rt := Connection_run_Inv evs _ conn hI0 hrun
  obtain ⟨_, g2, g3, g4⟩ := Connection_run_inv stream.ctx.id c u evs _ conn hctxid hrel0
    hwait0 hevs hrun
  have hcanc : conn.cancelled = true ↔ SessionEvent.registry (.done stream.ctx.id) ∈ evs := by
    rw [g4, hc0]
    simp
  refine ⟨hcanc, ⟨?_, ?_⟩, ?_, ?_, ?_, ?_, ?_, ?_⟩
  · intro hm hs
    have hcc := hcanc.2 hm
    simp [Connection.step, SelectCase.ready, hcc, hs, MessagesGRPCServer.SubscribeToChatLoop]
  · intro hm
    have hcc : conn.cancelled = false := by
      cases hcc : conn.cancelled with
      | false => rfl
      | true => exact absurd (hcanc.1 hcc) hm
    simp [Connection.step, SelectCase.ready, hcc]
  · by_cases hm : SessionEvent.registry (.done stream.ctx.id) ∈ evs
    · rw [if_pos hm, g2, if_pos (hcanc.2 hm)]
    · rw [if_neg hm, g2, if_neg (fun h => hm (hcanc.1 h))]
  · by_cases hm : SessionEvent.registry (.done stream.ctx.id) ∈ evs
    · rw [if_pos hm, g3, if_pos (hcanc.2 hm)]
    · rw [if_neg hm, g3, if_neg (fun h => hm (hcanc.1 h))]
  · intro hts
    exact (Connection_run_no_error c u k evs _ conn hok0 (Or.inl hopen) hts hrun).2
  · intro err hs evs1 final h
    exact Connection_run_closed evs1 conn final err hs h
  · intro buf cap hs hch hok evs1 final hts h
    exact Connection_closed_queue_returns c u k cap evs1 buf conn final hI (Or.inl hs) hch hok
      hts h
  · intro buf cap closed hs hch hok htrig
    constructor
    · rcases htrig with h | h
      · exact ⟨.ctxDone, hcanc.2 h⟩
      · exact ⟨.msgChan, by simp [SelectCase.ready, hs, hch, h]⟩
    · intro cs hall hlen
      obtain ⟨final, n, h1, h2, h3, h4, h5, h6, _, h8, h9⟩ :=
        Connection_drain c u k cap closed buf conn cs hs hch hok hall hlen
      refine ⟨final, n, h1, h2, h3, fun hm => h4 ?_, h5, h6, h8, h9⟩
      cases hcc : conn.cancelled with
      | false => rfl
      | true => exact absurd (hcanc.1 hcc) hm

/-- C22 at the session of user "u1" in chat "c1" after one broadcast and the cancellation
of its context: the case `ctx.Done` is ready, one call `UnsubscribeFromChat("c1", "u1")`
is released, and whichever of the two ready cases the `select` takes first, the session
returns nil within two iterations. -/
theorem C22_session_termination_witness :
    (SelectCase.ready .ctxDone
        (⟨⟨[⟨[env1], 100, false⟩], [("c1", [("u1", 0)])], [], [("c1", "u1")]⟩,
          ackedStream, .streaming "c1" "u1" 0, true, [("c1", "u1")]⟩ : Connection) = true ↔
      SessionEvent.registry (.done userStream.ctx.id) ∈
        [SessionEvent.registry (.broadcast "c1" env1), .registry (.done 1)]) ∧
    ((⟨⟨[⟨[env1], 100, false⟩], [("c1", [("u1", 0)])], [], [("c1", "u1")]⟩,
          ackedStream, .streaming "c1" "u1" 0, true, [("c1", "u1")]⟩ : Connection).released =
      if SessionEvent.registry (.done userStream.ctx.id) ∈
        [SessionEvent.registry (.broadcast "c1" env1), .registry (.done 1)]
      then [("c1", "u1")] else []) ∧
    (∃ final n, Connection.run
        (⟨⟨[⟨[env1], 100, false⟩], [("c1", [("u1", 0)])], [], [("c1", "u1")]⟩,
          ackedStream, .streaming "c1" "u1" 0, true, [("c1", "u1")]⟩ : Connection)
        ([SelectCase.msgChan, .ctxDone].map .select) = some final ∧
      final.session = .closed none ∧ n ≤ [env1].length) := by
  have h := C22_session_termination NewRealtimeService userStream 5 ⟨"c1"⟩ "c1" "u1" 0
    [.registry (.broadcast "c1" env1), .registry (.done 1)]
    ⟨⟨[⟨[env1], 100, false⟩], [("c1", [("u1", 0)])], [], [("c1", "u1")]⟩,
      ackedStream, .streaming "c1" "u1" 0, true, [("c1", "u1")]⟩
    Reachable.init (by decide) (by decide) (by intro c1 u1 hm; simp at hm) (by decide)
  refine ⟨h.1, h.2.2.1, ?_⟩
  obtain ⟨final, n, h1, h2, h3, _⟩ := (h.2.2.2.2.2.2.2 [env1] 100 false rfl (by decide) rfl
    (Or.inl (by decide))).2 [.msgChan, .ctxDone] (by decide) (by decide)
  exact ⟨final, n, h1, h2, h3⟩

/-! ## The gRPC handler of SendMessage rejects empty fields -/

/-- The traced handler returns what `MessagesGRPCServer.SendMessage` returns. -/
theorem MessagesGRPCServer_SendMessageTraced_fst (s : messagesService) (ctx : Context)
    (now : Nat) (req : pb.SendMessageRequest) :
    (MessagesGRPCServer.SendMessageTraced s ctx now req).1 =
      MessagesGRPCServer.SendMessage s ctx now req := by
  unfold MessagesGRPCServer.SendMessageTraced MessagesGRPCServer.SendMessage
  by_cases h : req.ChatId = "" ∨ req.Content = "" ∨ req.IdempotencyKey = ""
  · rw [if_pos h, if_pos h]
  · rw [if_neg h, if_neg h]
    cases hu : GetUserFromContext ctx with
    | mk userID p =>
      obtain ⟨username, email, e⟩ := p
      cases e with
      | some err => rfl
      | none =>
        simp only
        rw [← SendMessageTraced_fst]
        cases ht : SendMessageTraced s ⟨userID, req.ChatId, req.Content, req.IdempotencyKey⟩ with
        | mk res calls =>
          cases res with
          | none => rfl
          | some r =>
            obtain ⟨s1, resp, e1⟩ := r
            cases e1 <;> rfl

/-- Claim C26: a gRPC SendMessage request in which chat_id, content or idempotency_key is
empty is answered with InvalidArgument, for every service state and context; the handler
makes no call to the messages service (the list of collaborator calls is empty), and the
state of the cache, of the storage and of the realtime registry is the state before the
call. -/
theorem C26_empty_field_is_rejected_before_side_effects (s : messagesService) (ctx : Context)
    (now : Nat) (req : pb.SendMessageRequest)
    (h : req.ChatId = "" ∨ req.Content = "" ∨ req.IdempotencyKey = "") :
    MessagesGRPCServer.SendMessage s ctx now req =
        some (s, none,
          some ⟨.InvalidArgument, "chat_id, content, and idempotency_key are required"⟩) ∧
      MessagesGRPCServer.SendMessageTraced s ctx now req =
        (some (s, none,
          some ⟨.InvalidArgument, "chat_id, content, and idempotency_key are required"⟩), []) := by
  unfold MessagesGRPCServer.SendMessageTraced MessagesGRPCServer.SendMessage
  rw [if_pos h, if_pos h]
  exact ⟨rfl, rfl⟩

/-- Claim C26 at a request with an empty idempotency key. -/
theorem C26_empty_field_is_rejected_before_side_effects_witness :
    (("c1" : String) = "" ∨ ("hello" : String) = "" ∨ ("" : String) = "") ∧
      MessagesGRPCServer.SendMessage sendService userContext 7 ⟨"c1", "hello", ""⟩ =
        some (sendService, none,
          some ⟨.InvalidArgument, "chat_id, content, and idempotency_key are required"⟩) ∧
      MessagesGRPCServer.SendMessageTraced sendService userContext 7 ⟨"c1", "hello", ""⟩ =
        (some (sendService, none,
          some ⟨.InvalidArgument, "chat_id, content, and idempotency_key are required"⟩), []) :=
  ⟨Or.inr (Or.inr rfl),
    C26_empty_field_is_rejected_before_side_effects sendService userContext 7
      ⟨"c1", "hello", ""⟩ (Or.inr (Or.inr rfl))⟩

/-! ## The authentication interceptors -/

/-- The methods that skip authentication are the two public methods of the users
service. -/
theorem shouldSkipAuth_iff (method : String) :
    shouldSkipAuth method = true ↔
      method = "/messaging.UsersService/CreateUser" ∨
        method = "/messaging.UsersService/Login" := by
  simp [shouldSkipAuth]

/-- Without metadata, without an authorization header, with a header that does not start
with "Bearer ", with an empty token or with a token that fails validation,
`extractAndValidateToken` returns an error. -/
theorem extractAndValidateToken_error (validateToken : String → Except String Claims)
    (md : Option (GoMap (List String)))
    (h : md = none ∨
      (∃ m, md = some m ∧
        (mapGet m "authorization" = none ∨ mapGet m "authorization" = some [])) ∨
      (∃ m authHeader rest, md = some m ∧
        mapGet m "authorization" = some (authHeader :: rest) ∧
        (HasPrefix authHeader "Bearer " = false ∨ TrimPrefix authHeader "Bearer " = "" ∨
          ∃ err, validateToken (TrimPrefix authHeader "Bearer ") = .error err))) :
    ∃ err, extractAndValidateToken validateToken md = .error err := by
  rcases h with h | ⟨m, hm, h⟩ | ⟨m, authHeader, rest, hm, hh, h⟩
  · subst h
    exact ⟨_, rfl⟩
  · subst hm
    rcases h with h | h
    · exact ⟨"no authorization header found", by simp [extractAndValidateToken, h]⟩
    · exact ⟨"no authorization header found", by simp [extractAndValidateToken, h]⟩
  · subst hm
    by_cases hp : HasPrefix authHeader "Bearer " = true
    · by_cases he : TrimPrefix authHeader "Bearer " = ""
      · exact ⟨"empty token", by simp [extractAndValidateToken, hh, hp, he]⟩
      · rcases h with h | h | ⟨err, h⟩
        · rw [h] at hp
          exact absurd hp (by decide)
        · exact absurd h he
        · exact ⟨"invalid token: " ++ err, by simp [extractAndValidateToken, hh, hp, he, h]⟩
    · exact ⟨"invalid authorization header format",
        by simp [extractAndValidateToken, hh, hp]⟩

/-- Claim C23: for every method name, the unary and the stream interceptor skip
authentication exactly for "/messaging.UsersService/CreateUser" and
"/messaging.UsersService/Login"; a skipped method reaches the handler with the context
of the call whatever the metadata, and a call without metadata reaches the handler if
and only if its method is one of the two.  For every other method, when the metadata or
the authorization header is missing, the header does not start with "Bearer ", the token
is empty or the token fails validation, both interceptors return Unauthenticated and do
not call the handler. -/
theorem C23_interceptors_authenticate (validateToken : String → Except String Claims)
    (ctx : Context) (md : Option (GoMap (List String))) (FullMethod : String) :
    (shouldSkipAuth FullMethod = true ↔
      FullMethod = "/messaging.UsersService/CreateUser" ∨
        FullMethod = "/messaging.UsersService/Login") ∧
      (shouldSkipAuth FullMethod = true →
        Interceptor.UnaryInterceptor validateToken ctx md FullMethod = .handler ctx ∧
          Interceptor.StreamInterceptor validateToken ctx md FullMethod = .handler ctx) ∧
      ((∃ ctx1, Interceptor.UnaryInterceptor validateToken ctx none FullMethod =
          .handler ctx1) ↔
        FullMethod = "/messaging.UsersService/CreateUser" ∨
          FullMethod = "/messaging.UsersService/Login") ∧
      ((∃ ctx1, Interceptor.StreamInterceptor validateToken ctx none FullMethod =
          .handler ctx1) ↔
        FullMethod = "/messaging.UsersService/CreateUser" ∨
          FullMethod = "/messaging.UsersService/Login") ∧
      (shouldSkipAuth FullMethod = false →
        (md = none ∨
          (∃ m, md = some m ∧
            (mapGet m "authorization" = none ∨ mapGet m "authorization" = some [])) ∨
          (∃ m authHeader rest, md = some m ∧
            mapGet m "authorization" = some (authHeader :: rest) ∧
            (HasPrefix authHeader "Bearer " = false ∨ TrimPrefix authHeader "Bearer " = "" ∨
              ∃ err, validateToken (TrimPrefix authHeader "Bearer ") = .error err))) →
        ∃ msg,
          Interceptor.UnaryInterceptor validateToken ctx md FullMethod =
              .rejected ⟨.Unauthenticated, msg⟩ ∧
            Interceptor.StreamInterceptor validateToken ctx md FullMethod =
              .rejected ⟨.Unauthenticated, msg⟩) := by
  refine ⟨shouldSkipAuth_iff FullMethod, ?_, ?_, ?_, ?_⟩
  · intro h
    simp [Interceptor.UnaryInterceptor, Interceptor.StreamInterceptor, h]
  · rw [← shouldSkipAuth_iff]
    cases h : shouldSkipAuth FullMethod <;>
      simp [Interceptor.UnaryInterceptor, extractAndValidateToken, h]
  · rw [← shouldSkipAuth_iff]
    cases h : shouldSkipAuth FullMethod <;>
      simp [Interceptor.StreamInterceptor, extractAndValidateToken, h]
  · intro h hbad
    obtain ⟨err, he⟩ := extractAndValidateToken_error validateToken md hbad
    exact ⟨"authentication failed: " ++ err,
      by simp [Interceptor.UnaryInterceptor, h, he],
      by simp [Interceptor.StreamInterceptor, h, he]⟩

/-- Claim C23 at the method SendMessage with a header that is not a bearer credential. -/
theorem C23_interceptors_authenticate_witness :
    shouldSkipAuth "/messaging.MessagesService/SendMessage" = false ∧
      Interceptor.UnaryInterceptor validateGood userContext
          (some [("authorization", ["Basic good"])])
          "/messaging.MessagesService/SendMessage" =
        .rejected
          ⟨.Unauthenticated, "authentication failed: invalid authorization header format"⟩ ∧
      Interceptor.StreamInterceptor validateGood userContext
          (some [("authorization", ["Basic good"])])
          "/messaging.MessagesService/SendMessage" =
        .rejected
          ⟨.Unauthenticated, "authentication failed: invalid authorization header format"⟩ ∧
      ∃ msg,
        Interceptor.UnaryInterceptor validateGood userContext
            (some [("authorization", ["Basic good"])])
            "/messaging.MessagesService/SendMessage" =
          .rejected ⟨.Unauthenticated, msg⟩ ∧
        Interceptor.StreamInterceptor validateGood userContext
            (some [("authorization", ["Basic good"])])
            "/messaging.MessagesService/SendMessage" =
          .rejected ⟨.Unauthenticated, msg⟩ :=
  ⟨by decide, by decide, by decide,
    (C23_interceptors_authenticate validateGood userContext
      (some [("authorization", ["Basic good"])])
      "/messaging.MessagesService/SendMessage").2.2.2.2 (by decide)
      (Or.inr (Or.inr ⟨[("authorization", ["Basic good"])], "Basic good", [], rfl,
        by decide, Or.inl (by decide)⟩))⟩

/-! ## CreateChat with a counterpart that does not exist -/

/-- When no row of the table `users` has the email, `GetByEmail` returns the zero user
and no error. -/
theorem GetByEmail_no_match (r : usersRepository) (email : String) (hq : r.queryErr = none)
    (h : ∀ user ∈ r.rows, user.Email ≠ email) :
    r.GetByEmail email = (User.zero, none) := by
  have hf : r.rows.find? (fun user => decide (user.Email = email)) = none := by
    rw [List.find?_eq_none]
    intro user hu
    simpa using h user hu
  simp [usersRepository.GetByEmail, hq, hf]

/-- When the lookup of the counterpart returns the zero user without error, `CreateChat`
returns the empty response and no error, and leaves its repositories as they were. -/
theorem CreateChat_not_found (s : chatsService) (req : CreateChatRequest)
    (h : s.usersRepo.GetByEmail req.Email = (User.zero, none)) :
    CreateChat s req = (s, ⟨""⟩, none) := by
  simp [CreateChat, h, User.zero]

/-- When `CreateChat` returns a chat id that is not empty, the chat with that id was
inserted and both participants were added to it. -/
theorem CreateChat_returns_id (s s1 : chatsService) (req : CreateChatRequest)
    (resp : CreateChatResponse) (h : CreateChat s req = (s1, resp, none))
    (hid : resp.ChatId ≠ "") :
    ∃ toUser, s.usersRepo.GetByEmail req.Email = (toUser, none) ∧ toUser.ID ≠ "" ∧
      s1.chatsRepo.chats =
        s.chatsRepo.chats ++ [⟨resp.ChatId, req.Name, s.chatsRepo.now, s.chatsRepo.now⟩] ∧
      s1.chatsRepo.usersChats =
        s.chatsRepo.usersChats ++
          [⟨s.chatsRepo.ulid (s.chatsRepo.issued + 1), req.UserID, resp.ChatId,
              s.chatsRepo.now, s.chatsRepo.now⟩,
            ⟨s.chatsRepo.ulid (s.chatsRepo.issued + 2), toUser.ID, resp.ChatId,
              s.chatsRepo.now, s.chatsRepo.now⟩] := by
  obtain ⟨⟨chats, usersChats, ulid, issued, now, faults⟩, usersRepo⟩ := s
  unfold CreateChat at h
  simp only at h ⊢
  cases hg : usersRepo.GetByEmail req.Email with
  | mk toUser e =>
    rw [hg] at h
    cases e with
    | some err => simp at h
    | none =>
      simp only at h
      by_cases hz : toUser.ID = ""
      · rw [if_pos hz] at h
        simp only [Prod.mk.injEq] at h
        exact absurd (by rw [← h.2.1]) hid
      · rw [if_neg hz] at h
        refine ⟨toUser, rfl, hz, ?_⟩
        rcases faults with _ | ⟨f0, _ | ⟨f1, _ | ⟨f2, rest⟩⟩⟩
        · simp [chatsRepository.Create, chatsRepository.AddUserToChat] at h
          obtain ⟨h1, h2⟩ := h
          subst h1
          subst h2
          simp
        · cases f0 <;> simp [chatsRepository.Create, chatsRepository.AddUserToChat] at h
          obtain ⟨h1, h2⟩ := h
          subst h1
          subst h2
          simp
        · cases f0 <;> cases f1 <;>
            simp [chatsRepository.Create, chatsRepository.AddUserToChat] at h
          obtain ⟨h1, h2⟩ := h
          subst h1
          subst h2
          simp
        · cases f0 <;> cases f1 <;> cases f2 <;>
            simp [chatsRepository.Create, chatsRepository.AddUserToChat] at h
          obtain ⟨h1, h2⟩ := h
          subst h1
          subst h2
          simp

/-- Claim C25 at a request whose counterpart email matches no user: the lookup returns
the zero user without error, the service returns the empty response with no error, and
the handler answers with a response whose chat id is empty and no status error; no chat
is created and no participant is added. -/
theorem C25_unknown_counterpart_returns_success :
    chatDirectory.usersRepo.GetByEmail "bob@example.com" = (User.zero, none) ∧
      (CreateChat chatDirectory ⟨"u1", "friends", "bob@example.com"⟩).2 = (⟨""⟩, none) ∧
      (ChatsGRPCServer.CreateChat chatDirectory userContext ⟨"friends", "bob@example.com"⟩).2 =
        (some ⟨""⟩, none) ∧
      (CreateChat chatDirectory ⟨"u1", "friends", "bob@example.com"⟩).1.chatsRepo.chats = [] ∧
      (CreateChat chatDirectory
        ⟨"u1", "friends", "bob@example.com"⟩).1.chatsRepo.usersChats = [] := by
  refine ⟨by decide, by decide, by decide, by decide, by decide⟩

end MessagingApp
